import Mathlib

/-!
# Resonate kernel: task handlers

A shallow embedding of the coroutines `CompleteTask` and `EnqueueTasks`
(`internal/app/coroutines`) and of the status taxonomy (`internal/kernel/t_api`),
followed by theorems about them.

A coroutine talks to the outside through `Yield` and `Await` only.  The
embedding passes the outside world explicitly: a `World σ` answers yields with a
handle and awaits with the completion (or the error) of a handle together with
the logical time of the tick in which the coroutine is resumed.  Every handler
returns, next to its Go result, the list of submissions it yielded, in order.
-/

namespace Resonate

/-! ## Data model -/

/-- Go `error` values coming from outside the handlers; only their identity matters. -/
abbrev GoError := String

deriving instance DecidableEq for Except

/-- The tags map carried by requests, responses and submissions. -/
abbrev Tags := List (String × String)

/-- Modelled from the spec: `task.State` (package `pkg/task`, not in src); the five
states named in §3 and used by the handlers. -/
inductive State where
  | Init
  | Enqueued
  | Claimed
  | Completed
  | Timedout
  deriving DecidableEq, Repr

/-- Modelled from the spec: `task.Task` (package `pkg/task`, not in src), with the
fields the handlers read and write.  `Message` is an uninterpreted payload. -/
structure Task where
  Id : String
  ProcessId : Option String
  State : Resonate.State
  Message : String
  Timeout : Int
  Counter : Int
  Attempt : Int
  Frequency : Int
  Expiration : Int
  CreatedOn : Int
  CompletedOn : Option Int
  deriving DecidableEq, Repr

/-- Modelled from the spec: the store row `TaskRecord` (package `t_aio`, not in src).
It has the columns of a task; the message column is raw and is represented by
the result of decoding it. -/
structure TaskRecord where
  Id : String
  ProcessId : Option String
  State : Resonate.State
  Message : Except GoError String
  Timeout : Int
  Counter : Int
  Attempt : Int
  Frequency : Int
  Expiration : Int
  CreatedOn : Int
  CompletedOn : Option Int
  deriving DecidableEq, Repr

/-- Modelled from the spec: `TaskRecord.Task()` (package `t_aio`, not in src): decode the
message, fail with the decoder's error, otherwise copy the columns. -/
def TaskRecord.Task (r : TaskRecord) : Except GoError Task :=
  match r.Message with
  | .error err => .error err
  | .ok m =>
    .ok { Id := r.Id, ProcessId := r.ProcessId, State := r.State, Message := m,
          Timeout := r.Timeout, Counter := r.Counter, Attempt := r.Attempt,
          Frequency := r.Frequency, Expiration := r.Expiration,
          CreatedOn := r.CreatedOn, CompletedOn := r.CompletedOn }

/-! ### Store commands, submissions, completions (`t_aio`) -/

/-- Modelled from the spec: `t_aio.ReadTaskCommand` (not in src). -/
structure ReadTaskCommand where
  Id : String
  deriving DecidableEq, Repr

/-- Modelled from the spec: `t_aio.ReadTasksCommand` (not in src). -/
structure ReadTasksCommand where
  States : List State
  Time : Int
  Limit : Int
  deriving DecidableEq, Repr

/-- Modelled from the spec: `t_aio.UpdateTaskCommand` (not in src), §6. -/
structure UpdateTaskCommand where
  Id : String
  ProcessId : Option String
  State : Resonate.State
  Counter : Int
  Attempt : Int
  Frequency : Int
  Expiration : Int
  CompletedOn : Option Int
  CurrentStates : List Resonate.State
  CurrentCounter : Int
  deriving DecidableEq, Repr

/-- Modelled from the spec: `t_aio.Command` (not in src): a kind with the payload of
that kind. -/
inductive Command where
  | ReadTask (cmd : ReadTaskCommand)
  | ReadTasks (cmd : ReadTasksCommand)
  | UpdateTask (cmd : UpdateTaskCommand)
  deriving DecidableEq, Repr

/-- Modelled from the spec: `t_aio.Transaction` (not in src): an ordered list of commands. -/
structure Transaction where
  Commands : List Command
  deriving DecidableEq, Repr

/-- Modelled from the spec: `t_aio.Submission` (not in src): a store submission carries a
transaction, a queue submission carries a task; both carry tags. -/
inductive Submission where
  | Store (tags : Tags) (tx : Transaction)
  | Queue (tags : Tags) (task : Task)
  deriving DecidableEq, Repr

/-- Modelled from the spec: `t_aio.QueryTasksResult` (not in src). -/
structure QueryTasksResult where
  RowsReturned : Int
  Records : List TaskRecord
  deriving DecidableEq, Repr

/-- Modelled from the spec: `t_aio.AlterTasksResult` (not in src). -/
structure AlterTasksResult where
  RowsAffected : Int
  deriving DecidableEq, Repr

/-- Modelled from the spec: `t_aio.Result` (not in src): one pointer per command kind,
`none` standing for the nil pointer. -/
structure Result where
  ReadTask : Option QueryTasksResult
  ReadTasks : Option QueryTasksResult
  UpdateTask : Option AlterTasksResult
  deriving DecidableEq, Repr

/-- Modelled from the spec: `t_aio.StoreCompletion` (not in src). -/
structure StoreCompletion where
  Results : List Result
  deriving DecidableEq, Repr

/-- Modelled from the spec: `t_aio.QueueCompletion` (not in src). -/
structure QueueCompletion where
  Success : Bool
  deriving DecidableEq, Repr

/-- Modelled from the spec: `t_aio.Completion` (not in src): one pointer per subsystem. -/
structure Completion where
  Store : Option StoreCompletion
  Queue : Option QueueCompletion
  deriving DecidableEq, Repr

/-! ### Statuses and errors (`t_api/status.go`) -/

/-- Go `type ResponseStatus int`. -/
abbrev ResponseStatus := Int

def StatusOK : ResponseStatus := 2000
def StatusCreated : ResponseStatus := 2010
def StatusNoContent : ResponseStatus := 2040
def StatusFieldValidationFailure : ResponseStatus := 4000
def StatusPromiseAlreadyResolved : ResponseStatus := 4030
def StatusPromiseAlreadyRejected : ResponseStatus := 4031
def StatusPromiseAlreadyCanceled : ResponseStatus := 4032
def StatusPromiseAlreadyTimedout : ResponseStatus := 4033
def StatusLockAlreadyAcquired : ResponseStatus := 4034
def StatusTaskAlreadyClaimed : ResponseStatus := 4035
def StatusTaskAlreadyCompleted : ResponseStatus := 4036
def StatusTaskInvalidCounter : ResponseStatus := 4037
def StatusTaskInvalidState : ResponseStatus := 4038
def StatusPromiseNotFound : ResponseStatus := 4040
def StatusScheduleNotFound : ResponseStatus := 4041
def StatusLockNotFound : ResponseStatus := 4042
def StatusTaskNotFound : ResponseStatus := 4043
def StatusPromiseAlreadyExists : ResponseStatus := 4090
def StatusScheduleAlreadyExists : ResponseStatus := 4091

/-- Go `type ResonateErrorCode int`. -/
abbrev ResonateErrorCode := Int

def ErrInternalServer : ResonateErrorCode := 5000
def ErrAIOStoreFailure : ResonateErrorCode := 5001
def ErrAIOStoreSerializationFailure : ResonateErrorCode := 5002
def ErrSystemShuttingDown : ResonateErrorCode := 5030
def ErrAPISubmissionQueueFull : ResonateErrorCode := 5031
def ErrAIOSubmissionQueueFull : ResonateErrorCode := 5032
def ErrSchedulerQueueFull : ResonateErrorCode := 5033

structure ResonateError where
  code : ResonateErrorCode
  reason : String
  originalError : GoError
  deriving DecidableEq, Repr

def NewResonateError (code : ResonateErrorCode) (out : String) (inner : GoError) : ResonateError :=
  { code := code, reason := out, originalError := inner }

def ResonateError.Unwrap (e : ResonateError) : GoError := e.originalError

def ResonateError.Code (e : ResonateError) : ResonateErrorCode := e.code

/-! ### Requests and responses (`t_api`) -/

/-- Modelled from the spec: `t_api.Kind` (not in src), the closed set of request kinds (§6,
§9): one kind for each operation on promises, schedules, locks and tasks (§1, §3).  The
source names `CompleteTask` (completeTask.go:117); the other names are chosen after the
operations. -/
inductive APIKind where
  | ReadPromise
  | SearchPromises
  | CreatePromise
  | CompletePromise
  | ReadSchedule
  | SearchSchedules
  | CreateSchedule
  | DeleteSchedule
  | AcquireLock
  | ReleaseLock
  | HeartbeatLocks
  | ClaimTask
  | CompleteTask
  | HeartbeatTasks
  | Echo
  deriving DecidableEq, Repr

/-- Modelled from the spec: `t_api.CompleteTaskRequest` (not in src). -/
structure CompleteTaskRequest where
  Id : String
  Counter : Int
  deriving DecidableEq, Repr

/-- Modelled from the spec: `t_api.Request` (not in src), for a request of kind
`CompleteTask`, whose payload pointer is set. -/
structure Request where
  Tags : Resonate.Tags
  CompleteTask : CompleteTaskRequest
  deriving DecidableEq, Repr

/-- Modelled from the spec: `t_api.CompleteTaskResponse` (not in src); `Task` is a pointer. -/
structure CompleteTaskResponse where
  Status : ResponseStatus
  Task : Option Resonate.Task
  deriving DecidableEq, Repr

/-- Modelled from the spec: `t_api.Response` (not in src). -/
structure Response where
  Kind : APIKind
  Tags : Resonate.Tags
  CompleteTask : Option CompleteTaskResponse
  deriving DecidableEq, Repr

/-! ## Coroutine runtime interface (`gocoro`) -/

/-- An awaitable handle returned by a yield. -/
abbrev Handle := Nat

/-- Modelled from the spec: the world a coroutine runs in (`gocoro`, not in src; §4.2).
`yield` registers a submission and returns its handle without suspending; `await`
suspends until the handle is fulfilled and gives back the logical time of the
resuming tick and the completion or the error of the handle. -/
structure World (σ : Type) where
  yield : σ → Submission → σ × Handle
  await : σ → Handle → σ × Int × Except GoError Completion

/-- The coroutine context `c`: the world it runs in and the `time()` of the current tick. -/
structure Coroutine (σ : Type) where
  state : σ
  time : Int

/-- Modelled from the spec: `gocoro.Yield`: time is unchanged, the coroutine does not suspend. -/
def Yield {σ : Type} (W : World σ) (c : Coroutine σ) (sub : Submission) : Coroutine σ × Handle :=
  let (s, h) := W.yield c.state sub
  ({ state := s, time := c.time }, h)

/-- Modelled from the spec: `gocoro.Await`: the coroutine is resumed in a tick with a time of
its own. -/
def Await {σ : Type} (W : World σ) (c : Coroutine σ) (h : Handle) :
    Coroutine σ × Except GoError Completion :=
  let (s, t, res) := W.await c.state h
  ({ state := s, time := t }, res)

/-- Modelled from the spec: `gocoro.YieldAndAwait`: the composition of the two. -/
def YieldAndAwait {σ : Type} (W : World σ) (c : Coroutine σ) (sub : Submission) :
    Coroutine σ × Except GoError Completion :=
  let (c1, h) := Yield W c sub
  Await W c1 h

/-- How a call of a Go function of result type `(*α, error)` ends: it returns a pair, it
panics (a failed `util.Assert`, a nil dereference, an index out of range), or, in the
embedding only, the budget of handler restarts is used up before it has returned. -/
inductive Outcome (α : Type) where
  | returned (val : Option α) (err : Option ResonateError)
  | panicked
  | pending
  deriving DecidableEq, Repr

/-- The call returned a response or an error. -/
def Outcome.settled {α : Type} : Outcome α → Bool
  | .returned val err => val.isSome || err.isSome
  | _ => false

/-- A run of a handler: the coroutine context it ends in, the submissions it yielded, in
order, and its outcome. -/
structure Run (σ α : Type) where
  c : Coroutine σ
  subs : List Submission
  out : Outcome α

/-! ## `CompleteTask` (completeTask.go) -/

/-- The read submission of lines 17-32. -/
def readTaskSubmission (r : Request) : Submission :=
  .Store r.Tags { Commands := [.ReadTask { Id := r.CompleteTask.Id }] }

/-- The update command of lines 64-76. -/
def completeTaskCommand (r : Request) (completedOn : Int) : UpdateTaskCommand :=
  { Id := r.CompleteTask.Id
    ProcessId := none
    State := .Completed
    Counter := r.CompleteTask.Counter
    Attempt := 0
    Frequency := 0
    Expiration := 0
    CompletedOn := some completedOn
    CurrentStates := [.Claimed]
    CurrentCounter := r.CompleteTask.Counter }

/-- The update submission of lines 57-81. -/
def completeTaskSubmission (r : Request) (completedOn : Int) : Submission :=
  .Store r.Tags { Commands := [.UpdateTask (completeTaskCommand r completedOn)] }

/-- The response of lines 116-123. -/
def completeTaskResponse (r : Request) (status : ResponseStatus) (t : Option Task) : Response :=
  { Kind := .CompleteTask, Tags := r.Tags, CompleteTask := some { Status := status, Task := t } }

/-- The task synthesized at lines 93-105. -/
def completedTask (r : Request) (t : Task) (completedOn : Int) : Task :=
  { Id := r.CompleteTask.Id
    ProcessId := none
    State := .Completed
    Message := t.Message
    Timeout := t.Timeout
    Counter := r.CompleteTask.Counter
    Attempt := 0
    Frequency := 0
    Expiration := 0
    CreatedOn := t.CreatedOn
    CompletedOn := some completedOn }

/-- Lines 82-110: what `CompleteTask` does with the answer to its update.  `retry` is the
tail call `CompleteTask(c, r)` of line 109, started in the context given to it. -/
def completeTaskAfterUpdate {σ : Type} (r : Request) (t : Task) (completedOn : Int)
    (retry : Coroutine σ → Run σ Response)
    (c : Coroutine σ) (res : Except GoError Completion) : Run σ Response :=
  match res with
  | .error err =>
    ⟨c, [], .returned none (some (NewResonateError ErrAIOStoreFailure "failed to complete task" err))⟩
  | .ok completion =>
    match completion.Store with
    | none => ⟨c, [], .panicked⟩
    | some store =>
      match store.Results with
      | [] => ⟨c, [], .panicked⟩
      | res0 :: _ =>
        match res0.UpdateTask with
        | none => ⟨c, [], .panicked⟩
        | some result =>
          if ¬ (result.RowsAffected = 0 ∨ result.RowsAffected = 1) then ⟨c, [], .panicked⟩
          else if result.RowsAffected = 1 then
            ⟨c, [], .returned (some (completeTaskResponse r StatusCreated
              (some (completedTask r t completedOn)))) none⟩
          else retry c

/-- The function `CompleteTask` of completeTask.go.  The first argument bounds the number of
times the handler body is entered (line 109 re-enters it); with budget 0 the run is
`pending`. -/
def CompleteTask {σ : Type} (W : World σ) : Nat → Coroutine σ → Request → Run σ Response
  | 0, c, _ => ⟨c, [], .pending⟩
  | fuel + 1, c, r =>
    match YieldAndAwait W c (readTaskSubmission r) with
    | (c, .error err) =>
      ⟨c, [readTaskSubmission r],
        .returned none (some (NewResonateError ErrAIOStoreFailure "failed to read task" err))⟩
    | (c, .ok completion) =>
      match completion.Store with
      | none => ⟨c, [readTaskSubmission r], .panicked⟩
      | some store =>
        match store.Results with
        | [] => ⟨c, [readTaskSubmission r], .panicked⟩
        | res0 :: _ =>
          match res0.ReadTask with
          | none => ⟨c, [readTaskSubmission r], .panicked⟩
          | some result =>
            if ¬ (result.RowsReturned = 0 ∨ result.RowsReturned = 1) then
              ⟨c, [readTaskSubmission r], .panicked⟩
            else if result.RowsReturned = 1 then
              match result.Records with
              | [] => ⟨c, [readTaskSubmission r], .panicked⟩
              | rec0 :: _ =>
                match rec0.Task with
                | .error err =>
                  ⟨c, [readTaskSubmission r], .returned none (some (NewResonateError
                    ErrAIOStoreSerializationFailure "failed to parse task record" err))⟩
                | .ok t =>
                  if t.State = .Completed ∨ t.State = .Timedout then
                    ⟨c, [readTaskSubmission r], .returned (some (completeTaskResponse r
                      StatusTaskAlreadyCompleted (some t))) none⟩
                  else if t.State = .Init ∨ t.State = .Enqueued then
                    ⟨c, [readTaskSubmission r], .returned (some (completeTaskResponse r
                      StatusTaskInvalidState (some t))) none⟩
                  else if t.Counter ≠ r.CompleteTask.Counter then
                    ⟨c, [readTaskSubmission r], .returned (some (completeTaskResponse r
                      StatusTaskInvalidCounter (some t))) none⟩
                  else
                    let completedOn := c.time
                    let (c2, res) := YieldAndAwait W c (completeTaskSubmission r completedOn)
                    let rest := completeTaskAfterUpdate r t completedOn
                      (fun c3 => CompleteTask W fuel c3 r) c2 res
                    ⟨rest.c, readTaskSubmission r :: completeTaskSubmission r completedOn :: rest.subs,
                      rest.out⟩
            else
              ⟨c, [readTaskSubmission r], .returned (some (completeTaskResponse r
                StatusTaskNotFound none)) none⟩

/-! ## `EnqueueTasks` (enqueueTasks.go) -/

/-- Go `int64` arithmetic wraps around. -/
def wrapInt64 (x : Int) : Int := (x + 2 ^ 63) % 2 ^ 64 - 2 ^ 63

/-- Go `time.Duration.Milliseconds`: a duration is a count of nanoseconds, the quotient
truncates toward zero. -/
def Milliseconds (d : Int) : Int := Int.tdiv d 1000000

/-- The struct `Config` of system.go, with the two fields `EnqueueTasks` reads.
Modelled from the spec: `TaskBatchSize` and `TaskEnqueueDelay` are listed in §6 and are not
in the declaration under src. -/
structure Config where
  PromiseCacheSize : Int
  TimeoutCacheSize : Int
  NotificationCacheSize : Int
  SubmissionBatchSize : Int
  CompletionBatchSize : Int
  TaskBatchSize : Int
  TaskEnqueueDelay : Int
  deriving DecidableEq, Repr

/-- The read submission of lines 19-36. -/
def readTasksSubmission (config : Config) (tags : Tags) (time : Int) : Submission :=
  .Store tags { Commands := [.ReadTasks { States := [.Init], Time := time, Limit := config.TaskBatchSize }] }

/-- The queue submission of lines 60-66. -/
def queueSubmission (tags : Tags) (t : Task) : Submission := .Queue tags t

/-- The command of lines 71-82, built from the parsed task. -/
def timedoutCommand (t : Task) : UpdateTaskCommand :=
  { Id := t.Id
    ProcessId := none
    State := .Timedout
    Counter := t.Counter
    Attempt := t.Attempt
    Frequency := 0
    Expiration := 0
    CompletedOn := some t.Timeout
    CurrentStates := [.Init]
    CurrentCounter := t.Counter }

/-- The command of lines 101-110, built from the record; `now` is `c.Time()`. -/
def enqueuedCommand (config : Config) (t : TaskRecord) (now : Int) : UpdateTaskCommand :=
  { Id := t.Id
    ProcessId := none
    State := .Enqueued
    Counter := t.Counter
    Attempt := t.Attempt
    Frequency := 0
    Expiration := wrapInt64 (now + Milliseconds config.TaskEnqueueDelay)
    CompletedOn := none
    CurrentStates := [.Init]
    CurrentCounter := t.Counter }

/-- The command of lines 116-125, built from the record; `now` is `c.Time()`. -/
def reenqueueCommand (config : Config) (t : TaskRecord) (now : Int) : UpdateTaskCommand :=
  { Id := t.Id
    ProcessId := none
    State := .Init
    Counter := t.Counter
    Attempt := wrapInt64 (t.Attempt + 1)
    Frequency := 0
    Expiration := wrapInt64 (now + Milliseconds config.TaskEnqueueDelay)
    CompletedOn := none
    CurrentStates := [.Init]
    CurrentCounter := t.Counter }

/-- What the first loop (lines 52-85) leaves behind: the context, the queue submissions
yielded, the commands appended, and the slice `awaiting`. -/
structure FanOut (σ : Type) where
  c : Coroutine σ
  subs : List Submission
  commands : List Command
  awaiting : List (Option Handle)

/-- The first loop, lines 52-85, over the records that remain. -/
def enqueueFanOut {σ : Type} (W : World σ) (tags : Tags) :
    List TaskRecord → Coroutine σ → FanOut σ
  | [], c => ⟨c, [], [], []⟩
  | rec :: rest, c =>
    match rec.Task with
    | .error _ =>
      let r := enqueueFanOut W tags rest c
      ⟨r.c, r.subs, r.commands, none :: r.awaiting⟩
    | .ok t =>
      if c.time < t.Timeout then
        let (c1, h) := Yield W c (queueSubmission tags t)
        let r := enqueueFanOut W tags rest c1
        ⟨r.c, queueSubmission tags t :: r.subs, r.commands, some h :: r.awaiting⟩
      else
        let r := enqueueFanOut W tags rest c
        ⟨r.c, r.subs, .UpdateTask (timedoutCommand t) :: r.commands, none :: r.awaiting⟩

/-- What the second loop (lines 87-128) leaves behind: the context, the commands appended,
and whether it panicked (a completion without its `Queue` part, line 98). -/
structure Collected (σ : Type) where
  c : Coroutine σ
  commands : List Command
  panicked : Bool

/-- The second loop, lines 87-128, over the records and the entries of `awaiting` that
remain. -/
def enqueueCollect {σ : Type} (W : World σ) (config : Config) :
    List TaskRecord → List (Option Handle) → Coroutine σ → Collected σ
  | rec :: rest, some h :: hs, c =>
    match Await W c h with
    | (c1, .error _) => enqueueCollect W config rest hs c1
    | (c1, .ok completion) =>
      match completion.Queue with
      | none => ⟨c1, [], true⟩
      | some q =>
        let r := enqueueCollect W config rest hs c1
        if q.Success then
          ⟨r.c, .UpdateTask (enqueuedCommand config rec c1.time) :: r.commands, r.panicked⟩
        else
          ⟨r.c, .UpdateTask (reenqueueCommand config rec c1.time) :: r.commands, r.panicked⟩
  | _ :: rest, none :: hs, c => enqueueCollect W config rest hs c
  | _, _, c => ⟨c, [], false⟩

/-- Lines 49-146: the pass over the records that were read. -/
def enqueueRecords {σ : Type} (W : World σ) (config : Config) (tags : Tags)
    (records : List TaskRecord) (c : Coroutine σ) : Run σ Unit :=
  let p := enqueueFanOut W tags records c
  let q := enqueueCollect W config records p.awaiting p.c
  if q.panicked then ⟨q.c, p.subs, .panicked⟩
  else
    let commands := p.commands ++ q.commands
    if commands.length > 0 then
      let sub := Submission.Store tags { Commands := commands }
      let (c3, _) := YieldAndAwait W q.c sub
      ⟨c3, p.subs ++ [sub], .returned none none⟩
    else
      ⟨q.c, p.subs, .returned none none⟩

/-- The coroutine returned by `EnqueueTasks(config, tags)`, run in context `c`. -/
def EnqueueTasks {σ : Type} (W : World σ) (config : Config) (tags : Tags)
    (c : Coroutine σ) : Run σ Unit :=
  let sub0 := readTasksSubmission config tags c.time
  match YieldAndAwait W c sub0 with
  | (c1, .error err) =>
    ⟨c1, [sub0], .returned none (some (NewResonateError ErrAIOStoreFailure "failed to read tasks" err))⟩
  | (c1, .ok completion) =>
    match completion.Store with
    | none => ⟨c1, [sub0], .panicked⟩
    | some store =>
      match store.Results with
      | [res0] =>
        match res0.ReadTasks with
        | none => ⟨c1, [sub0], .panicked⟩
        | some result =>
          let rest := enqueueRecords W config tags result.Records c1
          ⟨rest.c, sub0 :: rest.subs, rest.out⟩
      | _ => ⟨c1, [sub0], .panicked⟩

/-! ## Reading a run -/

/-- The `UpdateTask` commands of one submission. -/
def Submission.updates : Submission → List UpdateTaskCommand
  | .Store _ tx => tx.Commands.filterMap fun
      | .UpdateTask u => some u
      | _ => none
  | .Queue _ _ => []

/-- All `UpdateTask` commands submitted in a run, in order. -/
def updateCommands (subs : List Submission) : List UpdateTaskCommand :=
  subs.flatMap Submission.updates

/-- The tasks handed to the queue in a run, in order. -/
def queuedTasks (subs : List Submission) : List Task :=
  subs.filterMap fun
    | .Queue _ t => some t
    | .Store _ _ => none

/-- The store submissions of a run, in order. -/
def storeSubmissions (subs : List Submission) : List Submission :=
  subs.filter fun
    | .Store _ _ => true
    | .Queue _ _ => false

/-! ## The store -/

/-- Modelled from the spec: the store (not in src) is a table of task rows. -/
abbrev Store := List TaskRecord

/-- Rows are keyed by id: at most one row per id. -/
def Store.OneRowPerId (s : Store) : Prop :=
  ∀ id : String, (s.filter fun row => row.Id = id).length ≤ 1

/-- Modelled from the spec: the guard of `UpdateTask` (§6): the command is for this row, the
row's state is in `current_states` and its counter is `current_counter`. -/
def UpdateTaskCommand.guard (u : UpdateTaskCommand) (row : TaskRecord) : Bool :=
  decide (row.Id = u.Id) && decide (row.State ∈ u.CurrentStates) &&
    decide (row.Counter = u.CurrentCounter)

/-- Modelled from the spec: the row a committed `UpdateTask` leaves (§6): the command's
columns overwrite the row's, the others stay. -/
def UpdateTaskCommand.write (u : UpdateTaskCommand) (row : TaskRecord) : TaskRecord :=
  { row with
    ProcessId := u.ProcessId
    State := u.State
    Counter := u.Counter
    Attempt := u.Attempt
    Frequency := u.Frequency
    Expiration := u.Expiration
    CompletedOn := u.CompletedOn }

/-- Modelled from the spec: `ReadTask { id }` (§6). -/
def Store.readTask (s : Store) (cmd : ReadTaskCommand) : QueryTasksResult :=
  let records := s.filter fun row => row.Id = cmd.Id
  { RowsReturned := records.length, Records := records }

/-- Modelled from the spec: `ReadTasks { states, time, limit }` (§6): the rows with
`timeout > time` and `state ∈ states`, bounded by `limit`. -/
def Store.readTasks (s : Store) (cmd : ReadTasksCommand) : QueryTasksResult :=
  let records := (s.filter fun row => decide (row.State ∈ cmd.States) && decide (row.Timeout > cmd.Time)).take
    cmd.Limit.toNat
  { RowsReturned := records.length, Records := records }

/-- Modelled from the spec: `UpdateTask` (§6) commits iff the guard matches; rows-affected
counts the rows written. -/
def Store.updateTask (s : Store) (u : UpdateTaskCommand) : Store × AlterTasksResult :=
  (s.map fun row => if u.guard row then u.write row else row,
   { RowsAffected := (s.filter fun row => u.guard row).length })

/-- Modelled from the spec: one command against the store. -/
def Store.execCommand (s : Store) : Command → Store × Result
  | .ReadTask cmd => (s, { ReadTask := some (s.readTask cmd), ReadTasks := none, UpdateTask := none })
  | .ReadTasks cmd => (s, { ReadTask := none, ReadTasks := some (s.readTasks cmd), UpdateTask := none })
  | .UpdateTask u =>
    let (s1, res) := s.updateTask u
    (s1, { ReadTask := none, ReadTasks := none, UpdateTask := some res })

/-- Modelled from the spec: a transaction is run in order and answers in the same order (§4.1). -/
def Store.execTransaction (s : Store) : List Command → Store × List Result
  | [] => (s, [])
  | cmd :: rest =>
    let (s1, res) := s.execCommand cmd
    let (s2, results) := Store.execTransaction s1 rest
    (s2, res :: results)

/-- The state of a world made of one store, a clock and a queue: the table, the number of
resumptions so far, and the completions of the handles handed out so far. -/
structure StoreState where
  rows : Store
  resumed : Nat
  completions : List (Except GoError Completion)

/-- Modelled from the spec: a world in which the handler is the only writer of the store.  A
store submission is run when it is yielded; a queue submission is answered by `queue`, by
handle; the tick of the `n`-th resumption has time `clock n`. -/
def storeWorld (clock : Nat → Int) (queue : Handle → Task → Except GoError Bool) :
    World StoreState where
  yield s sub :=
    match sub with
    | .Store _ tx =>
      let (rows, results) := s.rows.execTransaction tx.Commands
      ({ rows := rows, resumed := s.resumed,
         completions := s.completions ++ [.ok { Store := some { Results := results }, Queue := none }] },
       s.completions.length)
    | .Queue _ t =>
      ({ rows := s.rows, resumed := s.resumed,
         completions := s.completions ++
           [(queue s.completions.length t).map fun ok => { Store := none, Queue := some { Success := ok } }] },
       s.completions.length)
  await s h :=
    ({ rows := s.rows, resumed := s.resumed + 1, completions := s.completions },
     clock (s.resumed + 1),
     s.completions.getD h (.error "unknown handle"))

/-! ## Reading the answers of the store -/

/-- Line 39: `completion.Store.Results[0].ReadTask`, when nothing on the way is nil. -/
def readTaskResult (completion : Completion) : Option QueryTasksResult :=
  match completion.Store with
  | none => none
  | some store =>
    match store.Results with
    | [] => none
    | res0 :: _ => res0.ReadTask

/-- Line 88: `completion.Store.Results[0].UpdateTask`, when nothing on the way is nil. -/
def updateTaskResult (completion : Completion) : Option AlterTasksResult :=
  match completion.Store with
  | none => none
  | some store =>
    match store.Results with
    | [] => none
    | res0 :: _ => res0.UpdateTask

/-- The read yielded by a handler entry started in `c` is answered with `result`, the
coroutine being resumed in `c1`. -/
def ReadAnswered {σ : Type} (W : World σ) (c : Coroutine σ) (r : Request) (c1 : Coroutine σ)
    (result : QueryTasksResult) : Prop :=
  ∃ completion, YieldAndAwait W c (readTaskSubmission r) = (c1, .ok completion) ∧
    readTaskResult completion = some result

/-- The read yielded by a handler entry started in `c` returns one row, which parses to
the task `t`. -/
def ReadRow {σ : Type} (W : World σ) (c : Coroutine σ) (r : Request) (c1 : Coroutine σ)
    (t : Task) : Prop :=
  ∃ result rec0 recs, ReadAnswered W c r c1 result ∧ result.RowsReturned = 1 ∧
    result.Records = rec0 :: recs ∧ rec0.Task = .ok t

/-- The update is answered with rows-affected = `n`. -/
def UpdateAnswered (res : Except GoError Completion) (n : Int) : Prop :=
  ∃ completion result, res = .ok completion ∧ updateTaskResult completion = some result ∧
    result.RowsAffected = n

/-- A handler entry started in `c` reads in `c1` a row that parses to `t`, in state Claimed
and with the counter of the request, and its update, yielded in `c1`, is answered with
`res`, the coroutine being resumed in `c2`. -/
def Proceeds {σ : Type} (W : World σ) (c : Coroutine σ) (r : Request) (c1 : Coroutine σ)
    (t : Task) (c2 : Coroutine σ) (res : Except GoError Completion) : Prop :=
  ReadRow W c r c1 t ∧ t.State = .Claimed ∧ t.Counter = r.CompleteTask.Counter ∧
    YieldAndAwait W c1 (completeTaskSubmission r c1.time) = (c2, res)

/-- The handler called in `c` enters its body in `c0` after the submissions `pre`: when it
is called (nothing submitted yet), or through the tail call of line 109, which is made in the
context `c2` left by an entry whose read found the row Claimed with the request's counter
and whose update was answered with rows-affected = 0. -/
inductive Enters {σ : Type} (W : World σ) (r : Request) (c : Coroutine σ) :
    Coroutine σ → List Submission → Prop where
  | call : Enters W r c c []
  | again {c0 c1 c2 : Coroutine σ} {pre : List Submission} {t : Task}
      {res : Except GoError Completion} :
      Enters W r c c0 pre → Proceeds W c0 r c1 t c2 res → UpdateAnswered res 0 →
      Enters W r c c2 (pre ++ [readTaskSubmission r, completeTaskSubmission r c1.time])

/-- Completed and Timedout are the terminal states. -/
def State.terminal : State → Bool
  | .Completed => true
  | .Timedout => true
  | _ => false

/-- Some run of `CompleteTask` submits the command `u`. -/
def EmittedByCompleteTask (u : UpdateTaskCommand) : Prop :=
  ∃ (σ : Type) (W : World σ) (fuel : Nat) (c : Coroutine σ) (r : Request),
    u ∈ updateCommands (CompleteTask W fuel c r).subs

/-- Some pass of `EnqueueTasks` submits the command `u`. -/
def EmittedByEnqueueTasks (u : UpdateTaskCommand) : Prop :=
  ∃ (σ : Type) (W : World σ) (config : Config) (tags : Tags) (c : Coroutine σ),
    u ∈ updateCommands (EnqueueTasks W config tags c).subs

/-- The stores reached from `s0` by running `UpdateTask` commands of the two handlers. -/
inductive Reachable (s0 : Store) : Store → Prop where
  | start : Reachable s0 s0
  | commit {s : Store} {u : UpdateTaskCommand} :
      Reachable s0 s → EmittedByCompleteTask u ∨ EmittedByEnqueueTasks u →
      Reachable s0 (s.updateTask u).1

/-- Every row has `completed_on` set iff its state is terminal. -/
def Store.CompletedOnIffTerminal (s : Store) : Prop :=
  ∀ row ∈ s, row.CompletedOn.isSome = row.State.terminal

/-! ## The scenarios of §8 -/

/-- The row of scenario 1. -/
def scenarioRow : TaskRecord :=
  { Id := "t1", ProcessId := some "worker", State := .Claimed, Message := .ok "M",
    Timeout := 10000, Counter := 7, Attempt := 0, Frequency := 0, Expiration := 0,
    CreatedOn := 0, CompletedOn := none }

/-- The task the row of scenario 1 parses to. -/
def scenarioClaimed : Task :=
  { Id := "t1", ProcessId := some "worker", State := .Claimed, Message := "M",
    Timeout := 10000, Counter := 7, Attempt := 0, Frequency := 0, Expiration := 0,
    CreatedOn := 0, CompletedOn := none }

/-- The first two resumptions happen at t = 1000, the later ones at t = 2000. -/
def scenarioClock : Nat → Int := fun n => if n ≤ 2 then 1000 else 2000

/-- Every queue submission succeeds. -/
def scenarioQueue : Handle → Task → Except GoError Bool := fun _ _ => .ok true

def scenarioWorld : World StoreState := storeWorld scenarioClock scenarioQueue

/-- The store holds the row of scenario 1 and nothing has been submitted yet. -/
def scenarioStart : Coroutine StoreState :=
  { state := { rows := [scenarioRow], resumed := 0, completions := [] }, time := 1000 }

/-- The request `Complete(id = "t1", counter = n)`. -/
def scenarioRequest (n : Int) : Request :=
  { Tags := [("trace", "a")], CompleteTask := { Id := "t1", Counter := n } }

/-- The task that scenario 1 answers with. -/
def scenarioCompleted : Task :=
  { Id := "t1", ProcessId := none, State := .Completed, Message := "M", Timeout := 10000,
    Counter := 7, Attempt := 0, Frequency := 0, Expiration := 0, CreatedOn := 0,
    CompletedOn := some 1000 }

/-- A world in which every submission fails with the same error. -/
def failingWorld (err : GoError) : World Unit where
  yield s _ := (s, 0)
  await s _ := (s, 0, .error err)

/-! ## A store with other writers -/

/-- The state of a world seen through the handler's submissions: how many it has made, and
the answers to them, by handle. -/
structure ObservedState where
  submitted : Nat
  completions : List (Except GoError Completion)

/-- Modelled from the spec: a world in which other writers change the store between the
submissions of the handler.  The `n`-th submission is run against the store `stores n`, the
state the handler observes at that moment, unless `failure n` makes it fail; a coroutine
that has made `n` submissions is resumed at time `clock n`. -/
def observedWorld (stores : Nat → Store) (failure : Nat → Option GoError) (clock : Nat → Int) :
    World ObservedState where
  yield s sub :=
    let answer : Except GoError Completion :=
      match failure s.submitted with
      | some err => .error err
      | none =>
        match sub with
        | .Store _ tx =>
          .ok { Store := some { Results := ((stores s.submitted).execTransaction tx.Commands).2 },
                Queue := none }
        | .Queue _ _ => .ok { Store := none, Queue := some { Success := true } }
    ({ submitted := s.submitted + 1, completions := s.completions ++ [answer] },
     s.completions.length)
  await s h := (s, clock s.submitted, s.completions.getD h (.error "unknown handle"))

/-- How the row of task `id` may change along the stores the handler observes: there is at
most one row per id and rows are never destroyed (§3), the counter never decreases, and a
row that is found Claimed after it was seen in another state has a greater counter. -/
structure TaskEvolves (stores : Nat → Store) (id : String) : Prop where
  oneRow : ∀ n, (stores n).OneRowPerId
  kept : ∀ i j a, i < j → a ∈ stores i → a.Id = id → ∃ b, b ∈ stores j ∧ b.Id = id
  counterMono : ∀ i j a b, i < j → a ∈ stores i → b ∈ stores j → a.Id = id → b.Id = id →
    a.Counter ≤ b.Counter
  claimIncreases : ∀ i j a b, i < j → a ∈ stores i → b ∈ stores j → a.Id = id → b.Id = id →
    a.State ≠ .Claimed → b.State = .Claimed → a.Counter < b.Counter

/-- The row of scenario 1 is claimed again, with counter 8, by another worker before the
second submission of the handler. -/
def contendedStores : Nat → Store := fun n =>
  if n = 0 then [scenarioRow]
  else [{ scenarioRow with ProcessId := some "other", Counter := 8 }]

/-- A sequence of stores outside the task state machine, to exercise a second entry that
proceeds: the row of scenario 1 has counter 8 when the first update runs and is back to
counter 7 afterwards. -/
def relapsingStores : Nat → Store := fun n =>
  if n = 1 then [{ scenarioRow with ProcessId := some "other", Counter := 8 }]
  else [scenarioRow]

/-- The read of a pass started in `c0` is answered with `records`, the coroutine being
resumed in `c1` (lines 43-47: one result, of kind ReadTasks). -/
def ReadTasksAnswered {σ : Type} (W : World σ) (config : Config) (tags : Tags)
    (c0 c1 : Coroutine σ) (records : List TaskRecord) : Prop :=
  ∃ completion res0 result,
    YieldAndAwait W c0 (readTasksSubmission config tags c0.time) = (c1, .ok completion) ∧
    completion.Store = some { Results := [res0] } ∧ res0.ReadTasks = some result ∧
    result.Records = records

/-- The rows of scenario 6. -/
def scenarioRow3 : TaskRecord :=
  { Id := "t3", ProcessId := none, State := .Init, Message := .ok "M3", Timeout := 500,
    Counter := 0, Attempt := 0, Frequency := 0, Expiration := 0, CreatedOn := 0,
    CompletedOn := none }

def scenarioRow4 : TaskRecord :=
  { Id := "t4", ProcessId := none, State := .Init, Message := .ok "M4", Timeout := 5000,
    Counter := 0, Attempt := 0, Frequency := 0, Expiration := 0, CreatedOn := 0,
    CompletedOn := none }

/-- The configuration of scenario 6: `TaskEnqueueDelay` = 2000 ms. -/
def scenarioConfig : Config :=
  { PromiseCacheSize := 100, TimeoutCacheSize := 100, NotificationCacheSize := 100,
    SubmissionBatchSize := 100, CompletionBatchSize := 100, TaskBatchSize := 100,
    TaskEnqueueDelay := 2000000000 }

/-- The pass of scenario 6 sends its read at t = 0, when both rows are still to time out, and
is resumed with the answer at t = 1000. -/
def scenarioPassStart : Coroutine StoreState :=
  { state := { rows := [scenarioRow3, scenarioRow4], resumed := 0, completions := [] }, time := 0 }

/-! ## External mappings of statuses and error codes (status.go) -/

/-- Modelled from the spec: the gRPC codes that status.go returns (package
`google.golang.org/grpc/codes`, not in src). -/
inductive Code where
  | OK
  | InvalidArgument
  | NotFound
  | AlreadyExists
  | PermissionDenied
  | Internal
  | Unavailable
  deriving DecidableEq, Repr

/-- The method `ResponseStatus.HTTP`: Go integer division truncates toward zero. -/
def ResponseStatus.HTTP (s : ResponseStatus) : Int := Int.tdiv s 10

/-- The method `ResponseStatus.GRPC`, lines 87-107; `none` is the panic of the default case. -/
def ResponseStatus.GRPC (s : ResponseStatus) : Option Code :=
  if s = StatusOK ∨ s = StatusCreated ∨ s = StatusNoContent then some .OK
  else if s = StatusFieldValidationFailure then some .InvalidArgument
  else if s = StatusPromiseAlreadyResolved ∨ s = StatusPromiseAlreadyRejected ∨
      s = StatusPromiseAlreadyCanceled ∨ s = StatusPromiseAlreadyTimedout then some .PermissionDenied
  else if s = StatusLockAlreadyAcquired then some .PermissionDenied
  else if s = StatusTaskAlreadyClaimed ∨ s = StatusTaskAlreadyCompleted ∨
      s = StatusTaskInvalidCounter ∨ s = StatusTaskInvalidState then some .PermissionDenied
  else if s = StatusPromiseAlreadyExists ∨ s = StatusScheduleAlreadyExists then some .AlreadyExists
  else if s = StatusPromiseNotFound ∨ s = StatusLockNotFound ∨ s = StatusTaskNotFound then
    some .NotFound
  else none

/-- The method `ResponseStatus.String`, lines 41-80, as far as panicking goes: `true` when a
case of the switch returns a description, `false` for the panic of the default case. -/
def ResponseStatus.hasDescription (s : ResponseStatus) : Bool :=
  decide (s = StatusOK ∨ s = StatusCreated ∨ s = StatusNoContent) ||
  decide (s = StatusFieldValidationFailure) ||
  decide (s = StatusPromiseAlreadyResolved) || decide (s = StatusPromiseAlreadyRejected) ||
  decide (s = StatusPromiseAlreadyCanceled) || decide (s = StatusPromiseAlreadyTimedout) ||
  decide (s = StatusLockAlreadyAcquired) || decide (s = StatusTaskAlreadyClaimed) ||
  decide (s = StatusTaskAlreadyCompleted) || decide (s = StatusTaskInvalidCounter) ||
  decide (s = StatusTaskInvalidState) || decide (s = StatusPromiseNotFound) ||
  decide (s = StatusScheduleNotFound) || decide (s = StatusLockNotFound) ||
  decide (s = StatusTaskNotFound) || decide (s = StatusPromiseAlreadyExists) ||
  decide (s = StatusScheduleAlreadyExists)

/-- The method `ResonateErrorCode.HTTP`. -/
def ResonateErrorCode.HTTP (e : ResonateErrorCode) : Int := Int.tdiv e 10

/-- The method `ResonateErrorCode.GRPC`, lines 124-143; `none` is the panic of the default
case. -/
def ResonateErrorCode.GRPC (e : ResonateErrorCode) : Option Code :=
  if e = ErrInternalServer then some .Internal
  else if e = ErrAIOStoreFailure then some .Internal
  else if e = ErrAIOStoreSerializationFailure then some .Internal
  else if e = ErrSystemShuttingDown then some .Unavailable
  else if e = ErrAPISubmissionQueueFull then some .Unavailable
  else if e = ErrAIOSubmissionQueueFull then some .Unavailable
  else if e = ErrSchedulerQueueFull then some .Unavailable
  else none

/-- The application statuses declared at lines 13-38. -/
def responseStatuses : List ResponseStatus :=
  [StatusOK, StatusCreated, StatusNoContent, StatusFieldValidationFailure,
   StatusPromiseAlreadyResolved, StatusPromiseAlreadyRejected, StatusPromiseAlreadyCanceled,
   StatusPromiseAlreadyTimedout, StatusLockAlreadyAcquired, StatusTaskAlreadyClaimed,
   StatusTaskAlreadyCompleted, StatusTaskInvalidCounter, StatusTaskInvalidState,
   StatusPromiseNotFound, StatusScheduleNotFound, StatusLockNotFound, StatusTaskNotFound,
   StatusPromiseAlreadyExists, StatusScheduleAlreadyExists]

/-- The platform error codes declared at lines 126-134. -/
def resonateErrorCodes : List ResonateErrorCode :=
  [ErrInternalServer, ErrAIOStoreFailure, ErrAIOStoreSerializationFailure,
   ErrSystemShuttingDown, ErrAPISubmissionQueueFull, ErrAIOSubmissionQueueFull,
   ErrSchedulerQueueFull]

/-- The store of scenario 6 read by a pass that starts at t = 1000. -/
def scenarioLatePassStart : Coroutine StoreState :=
  { state := { rows := [scenarioRow3, scenarioRow4], resumed := 0, completions := [] },
    time := 1000 }

/-- The final transaction of lines 131-139. -/
def updateTasksSubmission (tags : Tags) (commands : List Command) : Submission :=
  .Store tags { Commands := commands }

/-- The value fits in an `int64`. -/
def fitsInt64 (x : Int) : Prop := -2 ^ 63 ≤ x ∧ x < 2 ^ 63

/-- The command the second loop appends for a record whose queue completion is `success`,
read at time `now` (lines 98-127). -/
def queueResultCommand (config : Config) (rec : TaskRecord) (success : Bool) (now : Int) :
    UpdateTaskCommand :=
  if success then enqueuedCommand config rec now else reenqueueCommand config rec now

/-- A clock that moves by one second at every resumption. -/
def advancingClock : Nat → Int := fun n => 1000 * n

/-- The store holds the row t4 of scenario 6 and the pass starts at t = 1000. -/
def advancingPassStart : Coroutine StoreState :=
  { state := { rows := [scenarioRow4], resumed := 0, completions := [] }, time := 1000 }

/-- A queue that is down: every queue submission is answered with an error. -/
def brokenQueue : Handle → Task → Except GoError Bool := fun _ _ => .error "queue down"

/-- A queue that refuses the task t4 and accepts every other task. -/
def refusingQueue : Handle → Task → Except GoError Bool := fun _ t =>
  if t.Id = "t4" then .error "queue down" else .ok true

/-- A row that is in time whenever the row t4 is. -/
def scenarioRow6 : TaskRecord :=
  { Id := "t6", ProcessId := none, State := .Init, Message := .ok "M6", Timeout := 9000,
    Counter := 0, Attempt := 0, Frequency := 0, Expiration := 0, CreatedOn := 0,
    CompletedOn := none }

/-- The store holds the rows t4 and t6 and the pass starts at t = 1000. -/
def refusedPassStart : Coroutine StoreState :=
  { state := { rows := [scenarioRow4, scenarioRow6], resumed := 0, completions := [] },
    time := 1000 }

/-- The store holds the row t6 alone and the pass starts at t = 1000. -/
def lonePassStart : Coroutine StoreState :=
  { state := { rows := [scenarioRow6], resumed := 0, completions := [] }, time := 1000 }

/-- A row whose message does not decode. -/
def garbledRow : TaskRecord :=
  { Id := "t5", ProcessId := none, State := .Init, Message := .error "invalid character",
    Timeout := 5000, Counter := 0, Attempt := 0, Frequency := 0, Expiration := 0,
    CreatedOn := 0, CompletedOn := none }

/-- The store holds the row t3 of scenario 6, a row that does not parse and the row t4. -/
def garbledPassStart : Coroutine StoreState :=
  { state := { rows := [scenarioRow3, garbledRow, scenarioRow4], resumed := 0,
               completions := [] }, time := 0 }

/-! ## A record of yields and awaits -/

/-- What a coroutine does to the world it runs in. -/
inductive Event where
  | yielded (sub : Submission) (h : Handle)
  | awaited (h : Handle)
  deriving DecidableEq, Repr

/-- The world `W` with a record of the yields and awaits made in it, in order. -/
def logged {σ : Type} (W : World σ) : World (σ × List Event) where
  yield s sub :=
    let (s1, h) := W.yield s.1 sub
    ((s1, s.2 ++ [.yielded sub h]), h)
  await s h :=
    let (s1, t, res) := W.await s.1 h
    ((s1, s.2 ++ [.awaited h]), t, res)

/-- The command the first loop appends for a record at time `now` (lines 53-84): none for a
record that does not parse or whose timeout is still to come. -/
def timedoutResult (now : Int) (rec : TaskRecord) : Option Command :=
  match rec.Task with
  | .error _ => none
  | .ok t => if now < t.Timeout then none else some (.UpdateTask (timedoutCommand t))

/-- The command the second loop appends for a record, given what became of its handle: no
handle, an error or a panic (`none`), or a queue completion with its `success` and the time
read after the await. -/
def queueResult (config : Config) (p : TaskRecord × Option (Bool × Int)) : Option Command :=
  p.2.map fun o => .UpdateTask (queueResultCommand config p.1 o.1 o.2)

/-- The pass of scenario 6 in the world of scenario 6 with a record of yields and awaits. -/
def recordedPassStart : Coroutine (StoreState × List Event) :=
  { state := (scenarioPassStart.state, []), time := 0 }

/-- The tasks of the rows of scenario 6. -/
def scenarioTask3 : Task :=
  { Id := "t3", ProcessId := none, State := .Init, Message := "M3", Timeout := 500,
    Counter := 0, Attempt := 0, Frequency := 0, Expiration := 0, CreatedOn := 0,
    CompletedOn := none }

def scenarioTask4 : Task :=
  { Id := "t4", ProcessId := none, State := .Init, Message := "M4", Timeout := 5000,
    Counter := 0, Attempt := 0, Frequency := 0, Expiration := 0, CreatedOn := 0,
    CompletedOn := none }

/-- How the row of task `id` may change along the stores the handler observes, when leaving
Claimed is what moves the counter: there is at most one row per id and rows are never
destroyed (§3), the counter never decreases, a row seen Claimed and later seen in a state
that is neither Claimed nor terminal has a greater counter, and a row seen in a terminal
state stays in a terminal state. -/
structure TaskLeavesClaimed (stores : Nat → Store) (id : String) : Prop where
  oneRow : ∀ n, (stores n).OneRowPerId
  kept : ∀ i j a, i < j → a ∈ stores i → a.Id = id → ∃ b, b ∈ stores j ∧ b.Id = id
  counterMono : ∀ i j a b, i < j → a ∈ stores i → b ∈ stores j → a.Id = id → b.Id = id →
    a.Counter ≤ b.Counter
  leaveIncreases : ∀ i j a b, i < j → a ∈ stores i → b ∈ stores j → a.Id = id → b.Id = id →
    a.State = .Claimed → b.State ≠ .Claimed → b.State.terminal = false → a.Counter < b.Counter
  terminalKept : ∀ i j a b, i < j → a ∈ stores i → b ∈ stores j → a.Id = id → b.Id = id →
    a.State.terminal = true → b.State.terminal = true

/-- The number of reads among the submissions of a run of `CompleteTask`. -/
def readCount (r : Request) (subs : List Submission) : Nat :=
  (subs.filter fun sub => decide (sub = readTaskSubmission r)).length

/-! ## The kernel loop (system.go) -/

/-- Modelled from the spec: an entry dequeued from the API (packages `api` and `types`, not in
src): the kind of the request, the request and its callback, of which only the identity
matters. -/
structure SQE where
  Kind : Nat
  Submission : Nat
  Callback : Nat
  deriving DecidableEq, Repr

/-- Modelled from the spec: the calls `Tick` makes to its scheduler (package `scheduler`, not
in src): `Add` of the coroutine a request constructor builds from `(t, request, callback)`,
`Add` of the coroutine a tick constructor builds from `(t, config)`, and `Tick`.
Constructors are known by a number. -/
inductive SchedulerCall where
  | AddRequest (ctor : Nat) (t : Int) (submission : Nat) (callback : Nat)
  | AddTick (ctor : Nat) (t : Int) (cfg : Config)
  | Tick (t : Int) (batchSize : Int)
  deriving DecidableEq, Repr

/-- The struct `System`, lines 16-25, without the collaborators that are not in src: the map
`onRequest` is a list of bindings, the first binding of a kind being the current one; the
map `onTick` is the list of its bindings in ascending order of the key. -/
structure System where
  cfg : Config
  onRequest : List (Nat × Nat)
  onTick : List (Int × List Nat)
  ticks : Int
  deriving DecidableEq, Repr

/-- The function `New`, lines 35-45. -/
def System.New (cfg : Config) : System :=
  { cfg := cfg, onRequest := [], onTick := [], ticks := 0 }

/-- The method `AddOnRequest`, lines 86-88. -/
def System.AddOnRequest (s : System) (kind : Nat) (ctor : Nat) : System :=
  { s with onRequest := (kind, ctor) :: s.onRequest }

/-- Line 92, `s.onTick[n] = append(s.onTick[n], constructor)`, on the ordered bindings. -/
def insertOnTick (n : Int) (ctor : Nat) : List (Int × List Nat) → List (Int × List Nat)
  | [] => [(n, [ctor])]
  | (key, ctors) :: rest =>
    if n = key then (key, ctors ++ [ctor]) :: rest
    else if n < key then (n, [ctor]) :: (key, ctors) :: rest
    else (key, ctors) :: insertOnTick n ctor rest

/-- The method `AddOnTick`, lines 90-93; `none` is the failed assertion `n > 0`. -/
def System.AddOnTick (s : System) (n : Int) (ctor : Nat) : Option System :=
  if n > 0 then some { s with onTick := insertOnTick n ctor s.onTick } else none

/-- The method `housekeeping`, lines 95-97. -/
def System.housekeeping (s : System) : System :=
  { s with ticks := wrapInt64 (s.ticks + 1) }

/-- Lines 63-70: the calls made for the dequeued requests, and whether the loop panicked on
a request whose kind has no constructor. -/
def System.dequeueLoop (s : System) (t : Int) : List SQE → List SchedulerCall × Bool
  | [] => ([], false)
  | sqe :: rest =>
    match s.onRequest.lookup sqe.Kind with
    | some ctor =>
      let (calls, failed) := System.dequeueLoop s t rest
      (.AddRequest ctor t sqe.Submission sqe.Callback :: calls, failed)
    | none => ([], true)

/-- Lines 73-79, over the bindings of `onTick` that remain, in ascending order of the key
(Modelled from the spec: `util.OrderedRangeKV` is not in src): the calls made, and whether
the loop panicked on a division by zero. -/
def System.tickLoop (s : System) (t : Int) : List (Int × List Nat) → List SchedulerCall × Bool
  | [] => ([], false)
  | (key, ctors) :: rest =>
    if key = 0 then ([], true)
    else
      let (calls, failed) := System.tickLoop s t rest
      ((if Int.tmod s.ticks key = 0 then ctors.map fun ctor => .AddTick ctor t s.cfg else [])
        ++ calls, failed)

/-- What a call of `Tick` leaves: the system, the calls made to the scheduler, in order, and
whether the call panicked. -/
structure Ticked where
  system : System
  calls : List SchedulerCall
  panicked : Bool
  deriving DecidableEq, Repr

/-- The method `Tick`, lines 58-84.  `apiDone` is the answer of `s.api.Done()` and `dequeued`
the entries `s.api.Dequeue` returns; `housekeeping` is deferred, so it runs on every path. -/
def System.Tick (s : System) (t : Int) (apiDone : Bool) (dequeued : List SQE) : Ticked :=
  if !apiDone then
    match System.dequeueLoop s t dequeued with
    | (requestCalls, true) => ⟨s.housekeeping, requestCalls, true⟩
    | (requestCalls, false) =>
      match System.tickLoop s t s.onTick with
      | (tickCalls, true) => ⟨s.housekeeping, requestCalls ++ tickCalls, true⟩
      | (tickCalls, false) =>
        ⟨s.housekeeping,
          requestCalls ++ tickCalls ++ [.Tick t s.cfg.CompletionBatchSize], false⟩
  else
    ⟨s.housekeeping, [.Tick t s.cfg.CompletionBatchSize], false⟩

/-- The bindings of `onTick` after the registrations `regs`, made in that order. -/
def onTickOf (regs : List (Int × Nat)) : List (Int × List Nat) :=
  regs.foldl (fun m reg => insertOnTick reg.1 reg.2 m) []

/-- The coroutines of tick constructors added to the scheduler, in order. -/
def tickAdds (calls : List SchedulerCall) : List (Nat × Int × Config) :=
  calls.filterMap fun
    | .AddTick ctor t cfg => some (ctor, t, cfg)
    | _ => none

/-- A system with the constructor 7 registered under period 1 and the constructors 8 and 9
under period 2, after `k` ticks. -/
def scenarioSystem (k : Int) : System :=
  { cfg := scenarioConfig, onRequest := [(1, 100)],
    onTick := onTickOf [(2, 8), (1, 7), (2, 9)], ticks := k }

/-- The value of `s.onTick[p]`: the constructors bound to the period `p`, none if `p` has no
binding. -/
def constructorsOf (p : Int) (m : List (Int × List Nat)) : List Nat :=
  (m.filter fun e => decide (e.1 = p)).flatMap fun e => e.2

/-- A new system with the constructor 7 registered under period 1. -/
def freshSystem : System :=
  { cfg := scenarioConfig, onRequest := [], onTick := [(1, [7])], ticks := 0 }

/-! ## Two passes in succession -/

/-- The ids of the commands of a list that move a task to Enqueued, in order. -/
def enqueuedIds (commands : List Command) : List String :=
  commands.filterMap fun
    | .UpdateTask u => if u.State = .Enqueued then some u.Id else none
    | _ => none

/-- The answer of the store to the read of a pass at time `now`. -/
def passReadResult (config : Config) (rows : Store) (now : Int) : Result :=
  { ReadTask := none
    ReadTasks := some (rows.readTasks { States := [.Init], Time := now, Limit := config.TaskBatchSize })
    UpdateTask := none }

/-! ## Lemmas on `CompleteTask` -/

theorem readTaskResult_eq_some {completion : Completion} {result : QueryTasksResult}
    (h : readTaskResult completion = some result) :
    ∃ store res0 rest, completion.Store = some store ∧ store.Results = res0 :: rest ∧
      res0.ReadTask = some result := by
  unfold readTaskResult at h
  split at h
  · simp at h
  · rename_i store hs
    split at h
    · simp at h
    · rename_i res0 rest hr
      exact ⟨store, res0, rest, hs, hr, h⟩

theorem completeTaskAfterUpdate_cases {σ : Type} (r : Request) (t : Task) (completedOn : Int)
    (retry : Coroutine σ → Run σ Response) (c : Coroutine σ) (res : Except GoError Completion) :
    (UpdateAnswered res 0 ∧ completeTaskAfterUpdate r t completedOn retry c res = retry c) ∨
    ((completeTaskAfterUpdate r t completedOn retry c res).c = c ∧
      (completeTaskAfterUpdate r t completedOn retry c res).subs = [] ∧
      ((completeTaskAfterUpdate r t completedOn retry c res).out = .panicked ∨
       (∃ err, res = .error err ∧ (completeTaskAfterUpdate r t completedOn retry c res).out =
          .returned none (some (NewResonateError ErrAIOStoreFailure "failed to complete task" err))) ∨
       (UpdateAnswered res 1 ∧ (completeTaskAfterUpdate r t completedOn retry c res).out =
          .returned (some (completeTaskResponse r StatusCreated
            (some (completedTask r t completedOn)))) none))) := by
  unfold completeTaskAfterUpdate
  split
  · right; simp
  · rename_i completion
    split
    · right; simp
    · rename_i store hs
      split
      · right; simp
      · rename_i res0 rest hr
        split
        · right; simp
        · rename_i result h0
          have hu : updateTaskResult completion = some result := by
            simp [updateTaskResult, hs, hr, h0]
          split
          · right; simp
          · split
            · rename_i h1
              right
              refine ⟨rfl, rfl, Or.inr (Or.inr ⟨⟨completion, result, rfl, hu, h1⟩, rfl⟩)⟩
            · rename_i h01 h1
              left
              refine ⟨⟨completion, result, rfl, hu, ?_⟩, rfl⟩
              rcases not_not.mp h01 with h | h
              · exact h
              · exact absurd h h1

theorem CompleteTask_entry {σ : Type} (W : World σ) (fuel : Nat) (c : Coroutine σ) (r : Request) :
    (∃ c1 res, YieldAndAwait W c (readTaskSubmission r) = (c1, res) ∧
      (CompleteTask W (fuel + 1) c r).c = c1 ∧
      (CompleteTask W (fuel + 1) c r).subs = [readTaskSubmission r] ∧
      ((CompleteTask W (fuel + 1) c r).out = .panicked ∨
       (∃ err, res = .error err ∧ (CompleteTask W (fuel + 1) c r).out =
          .returned none (some (NewResonateError ErrAIOStoreFailure "failed to read task" err))) ∨
       (∃ result rec0 recs err, ReadAnswered W c r c1 result ∧ result.RowsReturned = 1 ∧
          result.Records = rec0 :: recs ∧ rec0.Task = .error err ∧
          (CompleteTask W (fuel + 1) c r).out = .returned none (some (NewResonateError
            ErrAIOStoreSerializationFailure "failed to parse task record" err))) ∨
       (∃ result, ReadAnswered W c r c1 result ∧ result.RowsReturned = 0 ∧
          (CompleteTask W (fuel + 1) c r).out =
            .returned (some (completeTaskResponse r StatusTaskNotFound none)) none) ∨
       (∃ t, ReadRow W c r c1 t ∧
          (((t.State = .Completed ∨ t.State = .Timedout) ∧ (CompleteTask W (fuel + 1) c r).out =
              .returned (some (completeTaskResponse r StatusTaskAlreadyCompleted (some t))) none) ∨
           ((t.State = .Init ∨ t.State = .Enqueued) ∧ (CompleteTask W (fuel + 1) c r).out =
              .returned (some (completeTaskResponse r StatusTaskInvalidState (some t))) none) ∨
           (t.State = .Claimed ∧ t.Counter ≠ r.CompleteTask.Counter ∧
              (CompleteTask W (fuel + 1) c r).out =
              .returned (some (completeTaskResponse r StatusTaskInvalidCounter (some t))) none))))) ∨
    (∃ c1 t c2 res, ReadRow W c r c1 t ∧ t.State = .Claimed ∧ t.Counter = r.CompleteTask.Counter ∧
      YieldAndAwait W c1 (completeTaskSubmission r c1.time) = (c2, res) ∧
      CompleteTask W (fuel + 1) c r =
        ⟨(completeTaskAfterUpdate r t c1.time (fun c3 => CompleteTask W fuel c3 r) c2 res).c,
         readTaskSubmission r :: completeTaskSubmission r c1.time ::
           (completeTaskAfterUpdate r t c1.time (fun c3 => CompleteTask W fuel c3 r) c2 res).subs,
         (completeTaskAfterUpdate r t c1.time (fun c3 => CompleteTask W fuel c3 r) c2 res).out⟩) := by
  rcases hya : YieldAndAwait W c (readTaskSubmission r) with ⟨c1, res⟩
  cases res with
  | error err =>
    left
    refine ⟨c1, _, rfl, ?_, ?_, Or.inr (Or.inl ⟨err, rfl, ?_⟩)⟩ <;> simp [CompleteTask, hya]
  | ok completion =>
    cases hs : completion.Store with
    | none =>
      left
      refine ⟨c1, _, rfl, ?_, ?_, Or.inl ?_⟩ <;> simp [CompleteTask, hya, hs]
    | some store =>
      cases hr : store.Results with
      | nil =>
        left
        refine ⟨c1, _, rfl, ?_, ?_, Or.inl ?_⟩ <;> simp [CompleteTask, hya, hs, hr]
      | cons res0 rest =>
        cases h0 : res0.ReadTask with
        | none =>
          left
          refine ⟨c1, _, rfl, ?_, ?_, Or.inl ?_⟩ <;> simp [CompleteTask, hya, hs, hr, h0]
        | some result =>
          have hans : ReadAnswered W c r c1 result :=
            ⟨completion, hya, by simp [readTaskResult, hs, hr, h0]⟩
          by_cases h01 : result.RowsReturned = 0 ∨ result.RowsReturned = 1
          · by_cases h1 : result.RowsReturned = 1
            · cases hrec : result.Records with
              | nil =>
                left
                refine ⟨c1, _, rfl, ?_, ?_, Or.inl ?_⟩ <;>
                  simp [CompleteTask, hya, hs, hr, h0, h1, hrec]
              | cons rec0 recs =>
                cases ht : rec0.Task with
                | error err =>
                  left
                  refine ⟨c1, _, rfl, ?_, ?_, Or.inr (Or.inr (Or.inl
                    ⟨result, rec0, recs, err, hans, h1, hrec, ht, ?_⟩))⟩ <;>
                    simp [CompleteTask, hya, hs, hr, h0, h1, hrec, ht]
                | ok t =>
                  have hrow : ReadRow W c r c1 t := ⟨result, rec0, recs, hans, h1, hrec, ht⟩
                  by_cases hA : t.State = .Completed ∨ t.State = .Timedout
                  · left
                    refine ⟨c1, _, rfl, ?_, ?_, Or.inr (Or.inr (Or.inr (Or.inr
                      ⟨t, hrow, Or.inl ⟨hA, ?_⟩⟩)))⟩ <;>
                      simp [CompleteTask, hya, hs, hr, h0, h1, hrec, ht, hA]
                  · by_cases hB : t.State = .Init ∨ t.State = .Enqueued
                    · left
                      refine ⟨c1, _, rfl, ?_, ?_, Or.inr (Or.inr (Or.inr (Or.inr
                        ⟨t, hrow, Or.inr (Or.inl ⟨hB, ?_⟩)⟩)))⟩ <;>
                        simp [CompleteTask, hya, hs, hr, h0, h1, hrec, ht, hA, hB]
                    · have hC : t.State = .Claimed := by
                        cases hst : t.State <;> simp [hst] at hA hB ⊢
                      by_cases hD : t.Counter = r.CompleteTask.Counter
                      · right
                        rcases hup : YieldAndAwait W c1 (completeTaskSubmission r c1.time)
                          with ⟨c2, res2⟩
                        refine ⟨c1, t, c2, res2, hrow, hC, hD, hup, ?_⟩
                        simp [CompleteTask, hya, hs, hr, h0, h1, hrec, ht, hA, hB, hD, hup]
                      · left
                        refine ⟨c1, _, rfl, ?_, ?_, Or.inr (Or.inr (Or.inr (Or.inr
                          ⟨t, hrow, Or.inr (Or.inr ⟨hC, hD, ?_⟩)⟩)))⟩ <;>
                          simp [CompleteTask, hya, hs, hr, h0, h1, hrec, ht, hA, hB, hD]
            · have hz : result.RowsReturned = 0 := by tauto
              left
              refine ⟨c1, _, rfl, ?_, ?_, Or.inr (Or.inr (Or.inr (Or.inl ⟨result, hans, hz, ?_⟩)))⟩ <;>
                simp [CompleteTask, hya, hs, hr, h0, hz]
          · left
            refine ⟨c1, _, rfl, ?_, ?_, Or.inl ?_⟩ <;>
              simp [CompleteTask, hya, hs, hr, h0, h01]

/-- One entry of the handler body either stops after its read, or stops after its update, or
loses its update and re-enters the body. -/
theorem CompleteTask_step {σ : Type} (W : World σ) (fuel : Nat) (c : Coroutine σ) (r : Request) :
    (∃ c1 res, YieldAndAwait W c (readTaskSubmission r) = (c1, res) ∧
      (CompleteTask W (fuel + 1) c r).c = c1 ∧
      (CompleteTask W (fuel + 1) c r).subs = [readTaskSubmission r] ∧
      ((CompleteTask W (fuel + 1) c r).out = .panicked ∨
       (∃ e, (CompleteTask W (fuel + 1) c r).out = .returned none (some e) ∧
          (e.Code = ErrAIOStoreFailure ∨ e.Code = ErrAIOStoreSerializationFailure)) ∨
       (∃ st t, (CompleteTask W (fuel + 1) c r).out =
          .returned (some (completeTaskResponse r st t)) none ∧ st ≠ StatusCreated))) ∨
    (∃ c1 t c2 res, Proceeds W c r c1 t c2 res ∧
      (CompleteTask W (fuel + 1) c r).c = c2 ∧
      (CompleteTask W (fuel + 1) c r).subs =
        [readTaskSubmission r, completeTaskSubmission r c1.time] ∧
      ((CompleteTask W (fuel + 1) c r).out = .panicked ∨
       (∃ err, res = .error err ∧ (CompleteTask W (fuel + 1) c r).out =
          .returned none (some (NewResonateError ErrAIOStoreFailure "failed to complete task" err))) ∨
       (UpdateAnswered res 1 ∧ (CompleteTask W (fuel + 1) c r).out =
          .returned (some (completeTaskResponse r StatusCreated
            (some (completedTask r t c1.time)))) none))) ∨
    (∃ c1 t c2 res, Proceeds W c r c1 t c2 res ∧ UpdateAnswered res 0 ∧
      (CompleteTask W (fuel + 1) c r).c = (CompleteTask W fuel c2 r).c ∧
      (CompleteTask W (fuel + 1) c r).subs =
        readTaskSubmission r :: completeTaskSubmission r c1.time :: (CompleteTask W fuel c2 r).subs ∧
      (CompleteTask W (fuel + 1) c r).out = (CompleteTask W fuel c2 r).out) := by
  rcases CompleteTask_entry W fuel c r with h | h
  · left
    obtain ⟨c1, res, hya, hc, hsubs, hout⟩ := h
    refine ⟨c1, res, hya, hc, hsubs, ?_⟩
    rcases hout with h | ⟨err, -, h⟩ | ⟨_, _, _, err, -, -, -, -, h⟩ | ⟨_, -, -, h⟩ |
      ⟨t, -, ⟨-, h⟩ | ⟨-, h⟩ | ⟨-, -, h⟩⟩
    · exact Or.inl h
    · exact Or.inr (Or.inl ⟨_, h, Or.inl rfl⟩)
    · exact Or.inr (Or.inl ⟨_, h, Or.inr rfl⟩)
    · exact Or.inr (Or.inr ⟨_, _, h, by decide⟩)
    · exact Or.inr (Or.inr ⟨_, _, h, by decide⟩)
    · exact Or.inr (Or.inr ⟨_, _, h, by decide⟩)
    · exact Or.inr (Or.inr ⟨_, _, h, by decide⟩)
  · right
    obtain ⟨c1, t, c2, res, hrow, hst, hcnt, hup, hrun⟩ := h
    have hp : Proceeds W c r c1 t c2 res := ⟨hrow, hst, hcnt, hup⟩
    rcases completeTaskAfterUpdate_cases r t c1.time (fun c3 => CompleteTask W fuel c3 r) c2 res
      with ⟨h0, heq⟩ | ⟨hc, hsubs, hout⟩
    · right
      refine ⟨c1, t, c2, res, hp, h0, ?_, ?_, ?_⟩ <;> rw [hrun, heq]
    · left
      refine ⟨c1, t, c2, res, hp, ?_, ?_, ?_⟩
      · rw [hrun]; exact hc
      · rw [hrun]; simp [hsubs]
      · rw [hrun]; exact hout

/-- The runs that end with status Created: the last entry of the body read a Claimed row with
the request's counter, its update was answered with rows-affected = 1, and the response
carries the task synthesized from that row and from the time read before the update. -/
theorem CompleteTask_created {σ : Type} (W : World σ) (fuel : Nat) (c : Coroutine σ) (r : Request)
    (resp : Response) (e : Option ResonateError) (cr : CompleteTaskResponse)
    (hout : (CompleteTask W fuel c r).out = .returned (some resp) e)
    (hcr : resp.CompleteTask = some cr) (hst : cr.Status = StatusCreated) :
    ∃ pre c0 c1 t c2 res, Proceeds W c0 r c1 t c2 res ∧ UpdateAnswered res 1 ∧
      (pre = [] → c0 = c) ∧
      (CompleteTask W fuel c r).subs =
        pre ++ [readTaskSubmission r, completeTaskSubmission r c1.time] ∧
      (CompleteTask W fuel c r).c = c2 ∧
      cr.Task = some (completedTask r t c1.time) := by
  induction fuel generalizing c with
  | zero => simp [CompleteTask] at hout
  | succ n ih =>
    rcases CompleteTask_step W n c r with h | h | h
    · obtain ⟨c1, res, -, -, -, h | ⟨e', h, -⟩ | ⟨st, t, h, hne⟩⟩ := h
      · rw [h] at hout; simp at hout
      · rw [h] at hout; simp at hout
      · rw [h] at hout
        simp only [Outcome.returned.injEq, Option.some.injEq] at hout
        obtain ⟨rfl, -⟩ := hout
        simp only [completeTaskResponse, Option.some.injEq] at hcr
        subst hcr
        exact absurd hst hne
    · obtain ⟨c1, t, c2, res, hp, hc, hsubs, h | ⟨err, -, h⟩ | ⟨h1, h⟩⟩ := h
      · rw [h] at hout; simp at hout
      · rw [h] at hout; simp at hout
      · rw [h] at hout
        simp only [Outcome.returned.injEq, Option.some.injEq] at hout
        obtain ⟨rfl, -⟩ := hout
        simp only [completeTaskResponse, Option.some.injEq] at hcr
        subst hcr
        exact ⟨[], c, c1, t, c2, res, hp, h1, fun _ => rfl, by simpa using hsubs, hc, rfl⟩
    · obtain ⟨c1, t, c2, res, hp, h0, hc, hsubs, ho⟩ := h
      rw [ho] at hout
      obtain ⟨pre, c0', c1', t', c2', res', hp', h1', -, hsubs', hc', htask⟩ := ih c2 hout
      refine ⟨readTaskSubmission r :: completeTaskSubmission r c1.time :: pre, c0', c1', t', c2',
        res', hp', h1', by simp, ?_, ?_, htask⟩
      · rw [hsubs, hsubs']; simp
      · rw [hc, hc']

theorem readTaskSubmission_updates (r : Request) : (readTaskSubmission r).updates = [] := rfl

theorem completeTaskSubmission_updates (r : Request) (time : Int) :
    (completeTaskSubmission r time).updates = [completeTaskCommand r time] := rfl

/-- Where the updates of a run come from: an update is the submission that follows the read
of an entry that read a Claimed row with the request's counter, and it is built from the
request and from the time read after that read. -/
theorem CompleteTask_update_origin {σ : Type} (W : World σ) (fuel : Nat) (c : Coroutine σ)
    (r : Request) (pre : List Submission) (sub : Submission) (post : List Submission)
    (u : UpdateTaskCommand)
    (hsubs : (CompleteTask W fuel c r).subs = pre ++ sub :: post) (hu : u ∈ sub.updates) :
    ∃ pre' c0 c1 t c2 res, Proceeds W c0 r c1 t c2 res ∧ (pre' = [] → c0 = c) ∧
      pre = pre' ++ [readTaskSubmission r] ∧ sub = completeTaskSubmission r c1.time ∧
      u = completeTaskCommand r c1.time := by
  induction fuel generalizing c pre with
  | zero => simp [CompleteTask] at hsubs
  | succ n ih =>
    rcases CompleteTask_step W n c r with h | h | h
    · obtain ⟨c1, res, -, -, hs, -⟩ := h
      rw [hs] at hsubs
      cases pre with
      | nil =>
        simp only [List.nil_append, List.cons.injEq] at hsubs
        rw [← hsubs.1, readTaskSubmission_updates] at hu
        simp at hu
      | cons x pre' => simp at hsubs
    · obtain ⟨c1, t, c2, res, hp, -, hs, -⟩ := h
      rw [hs] at hsubs
      cases pre with
      | nil =>
        simp only [List.nil_append, List.cons.injEq] at hsubs
        rw [← hsubs.1, readTaskSubmission_updates] at hu
        simp at hu
      | cons x pre' =>
        cases pre' with
        | nil =>
          simp only [List.cons_append, List.nil_append, List.cons.injEq] at hsubs
          obtain ⟨rfl, rfl, -⟩ := hsubs
          rw [completeTaskSubmission_updates] at hu
          simp only [List.mem_singleton] at hu
          exact ⟨[], c, c1, t, c2, res, hp, fun _ => rfl, rfl, rfl, hu⟩
        | cons y pre'' => simp at hsubs
    · obtain ⟨c1, t, c2, res, hp, -, -, hs, -⟩ := h
      rw [hs] at hsubs
      cases pre with
      | nil =>
        simp only [List.nil_append, List.cons.injEq] at hsubs
        rw [← hsubs.1, readTaskSubmission_updates] at hu
        simp at hu
      | cons x pre' =>
        cases pre' with
        | nil =>
          simp only [List.cons_append, List.nil_append, List.cons.injEq] at hsubs
          obtain ⟨rfl, rfl, -⟩ := hsubs
          rw [completeTaskSubmission_updates] at hu
          simp only [List.mem_singleton] at hu
          exact ⟨[], c, c1, t, c2, res, hp, fun _ => rfl, rfl, rfl, hu⟩
        | cons y pre'' =>
          simp only [List.cons_append, List.cons.injEq] at hsubs
          obtain ⟨rfl, rfl, hrest⟩ := hsubs
          obtain ⟨p, c0', c1', t', c2', res', hp', -, hpre, hsub, hu'⟩ := ih c2 pre'' hrest
          refine ⟨readTaskSubmission r :: completeTaskSubmission r c1.time :: p, c0', c1', t',
            c2', res', hp', by simp, ?_, hsub, hu'⟩
          rw [hpre]; simp

/-- Every update command of a run is the command of lines 64-76 for some time. -/
theorem CompleteTask_updates {σ : Type} (W : World σ) (fuel : Nat) (c : Coroutine σ)
    (r : Request) (u : UpdateTaskCommand)
    (hu : u ∈ updateCommands (CompleteTask W fuel c r).subs) :
    ∃ time, u = completeTaskCommand r time := by
  simp only [updateCommands, List.mem_flatMap] at hu
  obtain ⟨sub, hsub, hu⟩ := hu
  obtain ⟨pre, post, hsplit⟩ := List.append_of_mem hsub
  obtain ⟨_, _, c1, _, _, _, -, -, -, -, h⟩ := CompleteTask_update_origin W fuel c r pre sub post u hsplit hu
  exact ⟨c1.time, h⟩

/-! ## Lemmas on the store -/

theorem eq_singleton_of_mem_of_length_le_one {α : Type} {l : List α} {a : α}
    (hmem : a ∈ l) (hlen : l.length ≤ 1) : l = [a] := by
  match l, hmem, hlen with
  | [x], hmem, _ => simp at hmem; rw [hmem]
  | _ :: _ :: _, _, hlen => simp at hlen

/-- With one row per id, reading an id that has a row returns that row alone. -/
theorem Store.readTask_of_mem {s : Store} (huniq : s.OneRowPerId) {row : TaskRecord}
    (hmem : row ∈ s) (cmd : ReadTaskCommand) (hid : row.Id = cmd.Id) :
    s.readTask cmd = { RowsReturned := 1, Records := [row] } := by
  have hf : (s.filter fun x => x.Id = cmd.Id) = [row] :=
    eq_singleton_of_mem_of_length_le_one (List.mem_filter.mpr ⟨hmem, by simpa using hid⟩)
      (huniq cmd.Id)
  simp [Store.readTask, hf]

/-- What the world made of one store answers to the read of `CompleteTask`. -/
theorem storeWorld_read (clock : Nat → Int) (queue : Handle → Task → Except GoError Bool)
    (s : StoreState) (now : Int) (r : Request) :
    YieldAndAwait (storeWorld clock queue) ⟨s, now⟩ (readTaskSubmission r) =
      (⟨{ rows := s.rows, resumed := s.resumed + 1,
          completions := s.completions ++ [.ok { Store := some { Results :=
            [{ ReadTask := some (s.rows.readTask { Id := r.CompleteTask.Id }),
               ReadTasks := none, UpdateTask := none }] }, Queue := none }] },
        clock (s.resumed + 1)⟩,
       .ok { Store := some { Results :=
            [{ ReadTask := some (s.rows.readTask { Id := r.CompleteTask.Id }),
               ReadTasks := none, UpdateTask := none }] }, Queue := none }) := by
  simp [YieldAndAwait, Yield, Await, storeWorld, readTaskSubmission, Store.execTransaction,
    Store.execCommand, List.getD_eq_getElem?_getD]

/-! ## Lemmas on the store with other writers -/

theorem observedWorld_store (stores : Nat → Store) (failure : Nat → Option GoError)
    (clock : Nat → Int) (s : ObservedState) (now : Int) (tags : Tags) (tx : Transaction)
    (hf : failure s.submitted = none) :
    ∃ comps, YieldAndAwait (observedWorld stores failure clock) ⟨s, now⟩ (.Store tags tx) =
      (⟨{ submitted := s.submitted + 1, completions := comps }, clock (s.submitted + 1)⟩,
       .ok { Store := some { Results := ((stores s.submitted).execTransaction tx.Commands).2 },
             Queue := none }) :=
  ⟨s.completions ++ [.ok { Store := some { Results :=
      ((stores s.submitted).execTransaction tx.Commands).2 }, Queue := none }],
    by simp [YieldAndAwait, Yield, Await, observedWorld, hf, List.getD_eq_getElem?_getD]⟩

theorem observedWorld_failure (stores : Nat → Store) (failure : Nat → Option GoError)
    (clock : Nat → Int) (s : ObservedState) (now : Int) (sub : Submission) (err : GoError)
    (hf : failure s.submitted = some err) :
    ∃ comps, YieldAndAwait (observedWorld stores failure clock) ⟨s, now⟩ sub =
      (⟨{ submitted := s.submitted + 1, completions := comps }, clock (s.submitted + 1)⟩,
       .error err) :=
  ⟨s.completions ++ [.error err],
    by simp [YieldAndAwait, Yield, Await, observedWorld, hf, List.getD_eq_getElem?_getD]⟩

/-- With one row per id, at most one row matches the guard of an update. -/
theorem Store.guard_filter_length_le_one {s : Store} (huniq : s.OneRowPerId)
    (u : UpdateTaskCommand) : (s.filter fun row => u.guard row).length ≤ 1 := by
  have h : (s.filter fun row => u.guard row) =
      (s.filter fun row => row.Id = u.Id).filter fun row => u.guard row := by
    rw [List.filter_filter]
    apply List.filter_congr
    intro row _
    simp only [UpdateTaskCommand.guard]
    by_cases hid : row.Id = u.Id <;> simp [hid]
  rw [h]
  exact le_trans (List.length_filter_le _ _) (huniq u.Id)

theorem TaskRecord.Task_ok {row : TaskRecord} {t : Resonate.Task} (h : row.Task = .ok t) :
    t.Id = row.Id ∧ t.State = row.State ∧ t.Counter = row.Counter ∧ t.Timeout = row.Timeout ∧
      t.Attempt = row.Attempt := by
  unfold TaskRecord.Task at h
  split at h
  · simp at h
  · simp only [Except.ok.injEq] at h
    subst h
    exact ⟨rfl, rfl, rfl, rfl, rfl⟩

/-- One entry of the handler body in a world with other writers: it returns after at most two
submissions, or it read the row Claimed with the request's counter, found no such row when
its update ran, and re-enters the body two submissions later. -/
theorem observed_entry (stores : Nat → Store) (failure : Nat → Option GoError)
    (clock : Nat → Int) (r : Request) (hone : ∀ n, (stores n).OneRowPerId) (fuel : Nat)
    (s : ObservedState) (now : Int) :
    ((CompleteTask (observedWorld stores failure clock) (fuel + 1) ⟨s, now⟩ r).out.settled = true ∧
      (CompleteTask (observedWorld stores failure clock) (fuel + 1) ⟨s, now⟩ r).subs.length ≤ 2) ∨
    (∃ a, a ∈ stores s.submitted ∧ a.Id = r.CompleteTask.Id ∧ a.State = .Claimed ∧
      a.Counter = r.CompleteTask.Counter ∧
      (∀ b, b ∈ stores (s.submitted + 1) → b.Id = r.CompleteTask.Id →
        ¬ (b.State = .Claimed ∧ b.Counter = r.CompleteTask.Counter)) ∧
      ∃ s2 now2, s2.submitted = s.submitted + 2 ∧
        (CompleteTask (observedWorld stores failure clock) (fuel + 1) ⟨s, now⟩ r).out =
          (CompleteTask (observedWorld stores failure clock) fuel ⟨s2, now2⟩ r).out ∧
        (CompleteTask (observedWorld stores failure clock) (fuel + 1) ⟨s, now⟩ r).subs.length =
          2 + (CompleteTask (observedWorld stores failure clock) fuel ⟨s2, now2⟩ r).subs.length) := by
  cases hf : failure s.submitted with
  | some err =>
    left
    obtain ⟨comps, hya⟩ :=
      observedWorld_failure stores failure clock s now (readTaskSubmission r) err hf
    simp [Outcome.settled, CompleteTask, hya]
  | none =>
    obtain ⟨comps, hya⟩ := observedWorld_store stores failure clock s now r.Tags
      { Commands := [.ReadTask { Id := r.CompleteTask.Id }] } hf
    change YieldAndAwait _ _ (readTaskSubmission r) = _ at hya
    simp only [Store.execTransaction, Store.execCommand, Store.readTask] at hya
    have hlen := hone s.submitted r.CompleteTask.Id
    cases hfil : (stores s.submitted).filter (fun row => row.Id = r.CompleteTask.Id) with
    | nil =>
      left
      rw [hfil] at hya
      simp [Outcome.settled, CompleteTask, hya]
    | cons a rest =>
      cases rest with
      | cons b rest' => rw [hfil] at hlen; simp at hlen
      | nil =>
        rw [hfil] at hya
        have ha : a ∈ stores s.submitted ∧ a.Id = r.CompleteTask.Id := by
          have : a ∈ (stores s.submitted).filter (fun row => row.Id = r.CompleteTask.Id) := by
            rw [hfil]; simp
          simpa using List.mem_filter.mp this
        cases ht : a.Task with
        | error err =>
          left
          simp [Outcome.settled, CompleteTask, hya, ht]
        | ok t =>
          obtain ⟨-, hts, htc, -, -⟩ := TaskRecord.Task_ok ht
          by_cases hA : t.State = .Completed ∨ t.State = .Timedout
          · left
            simp [Outcome.settled, CompleteTask, hya, ht, hA]
          · by_cases hB : t.State = .Init ∨ t.State = .Enqueued
            · left
              simp [Outcome.settled, CompleteTask, hya, ht, hA, hB]
            · have hC : t.State = .Claimed := by
                cases hst : t.State <;> simp [hst] at hA hB ⊢
              by_cases hD : t.Counter = r.CompleteTask.Counter
              · cases hf2 : failure (s.submitted + 1) with
                | some err =>
                  left
                  obtain ⟨comps2, hup⟩ := observedWorld_failure stores failure clock
                    { submitted := s.submitted + 1, completions := comps }
                    (clock (s.submitted + 1))
                    (completeTaskSubmission r (clock (s.submitted + 1))) err hf2
                  simp [Outcome.settled, CompleteTask, hya, ht, hA, hB, hD, hup,
                    completeTaskAfterUpdate]
                | none =>
                  obtain ⟨comps2, hup⟩ := observedWorld_store stores failure clock
                    { submitted := s.submitted + 1, completions := comps }
                    (clock (s.submitted + 1)) r.Tags
                    { Commands := [.UpdateTask (completeTaskCommand r (clock (s.submitted + 1)))] }
                    hf2
                  change YieldAndAwait _ _ (completeTaskSubmission r (clock (s.submitted + 1))) = _
                    at hup
                  simp only [Store.execTransaction, Store.execCommand, Store.updateTask] at hup
                  have hg := Store.guard_filter_length_le_one (hone (s.submitted + 1))
                    (completeTaskCommand r (clock (s.submitted + 1)))
                  cases hgf : (stores (s.submitted + 1)).filter (fun row =>
                      (completeTaskCommand r (clock (s.submitted + 1))).guard row) with
                  | cons b rest =>
                    cases rest with
                    | cons b' rest' => rw [hgf] at hg; simp at hg
                    | nil =>
                      left
                      rw [hgf] at hup
                      simp [Outcome.settled, CompleteTask, hya, ht, hA, hB, hD, hup,
                        completeTaskAfterUpdate]
                  | nil =>
                    right
                    rw [hgf] at hup
                    refine ⟨a, ha.1, ha.2, hts ▸ hC, htc ▸ hD, ?_,
                      { submitted := s.submitted + 1 + 1, completions := comps2 },
                      clock (s.submitted + 1 + 1), rfl, ?_, ?_⟩
                    · intro b hb hbid hbc
                      have : b ∈ (stores (s.submitted + 1)).filter (fun row =>
                          (completeTaskCommand r (clock (s.submitted + 1))).guard row) := by
                        apply List.mem_filter.mpr
                        refine ⟨hb, ?_⟩
                        simp [UpdateTaskCommand.guard, completeTaskCommand, hbid, hbc.1, hbc.2]
                      rw [hgf] at this
                      simp at this
                    · simp [CompleteTask, hya, ht, hA, hB, hD, hup, completeTaskAfterUpdate]
                    · simp [CompleteTask, hya, ht, hA, hB, hD, hup, completeTaskAfterUpdate]
                      omega
              · left
                simp [Outcome.settled, CompleteTask, hya, ht, hA, hB, hD]

theorem Outcome.settled_iff {α : Type} (out : Outcome α) :
    out.settled = true ↔ ∃ v e, out = .returned v e ∧ (v.isSome ∨ e.isSome) := by
  cases out with
  | returned v e =>
    constructor
    · intro h
      exact ⟨v, e, rfl, by simpa [Outcome.settled] using h⟩
    · rintro ⟨v1, e1, h, h1⟩
      cases h
      simpa [Outcome.settled] using h1
  | panicked => simp [Outcome.settled]
  | pending => simp [Outcome.settled]

/-- After a lost update, the row is never again found Claimed with the request's counter. -/
theorem TaskEvolves.no_second_chance {stores : Nat → Store} {id : String}
    (hev : TaskEvolves stores id) {k : Nat} {counter : Int} {a : TaskRecord}
    (ha : a ∈ stores k) (haid : a.Id = id) (hac : a.Counter = counter)
    (hlost : ∀ b, b ∈ stores (k + 1) → b.Id = id → ¬ (b.State = .Claimed ∧ b.Counter = counter))
    {a2 : TaskRecord} (ha2 : a2 ∈ stores (k + 2)) (ha2id : a2.Id = id) :
    ¬ (a2.State = .Claimed ∧ a2.Counter = counter) := by
  intro ⟨hst2, hc2⟩
  obtain ⟨b, hb, hbid⟩ := hev.kept k (k + 1) a (by omega) ha haid
  have h1 := hev.counterMono k (k + 1) a b (by omega) ha hb haid hbid
  have h2 := hev.counterMono (k + 1) (k + 2) b a2 (by omega) hb ha2 hbid ha2id
  have hbc : b.Counter = counter := by omega
  have hbs : b.State ≠ .Claimed := fun h => hlost b hb hbid ⟨h, hbc⟩
  have h3 := hev.claimIncreases (k + 1) (k + 2) b a2 (by omega) hb ha2 hbid ha2id hbs hst2
  omega

theorem contendedStores_succ {j : Nat} (hj : j ≠ 0) :
    contendedStores j = [{ scenarioRow with ProcessId := some "other", Counter := 8 }] := by
  unfold contendedStores
  rw [if_neg hj]

theorem contendedStores_mem {i : Nat} {a : TaskRecord} (ha : a ∈ contendedStores i) :
    a = scenarioRow ∨ a = { scenarioRow with ProcessId := some "other", Counter := 8 } := by
  unfold contendedStores at ha
  split at ha
  · exact Or.inl (List.mem_singleton.mp ha)
  · exact Or.inr (List.mem_singleton.mp ha)

theorem contendedStores_evolves : TaskEvolves contendedStores "t1" where
  oneRow := by
    intro n id
    unfold contendedStores
    split <;> (simp only [List.filter]; split <;> simp)
  kept := by
    intro i j a hij _ _
    refine ⟨{ scenarioRow with ProcessId := some "other", Counter := 8 }, ?_, rfl⟩
    rw [contendedStores_succ (by omega)]
    exact List.mem_singleton.mpr rfl
  counterMono := by
    intro i j a b hij ha hb _ _
    rw [contendedStores_succ (by omega)] at hb
    have hb := List.mem_singleton.mp hb
    rcases contendedStores_mem ha with h | h <;> subst h <;> subst hb <;> decide
  claimIncreases := by
    intro i j a b _ ha _ _ _ hna _
    rcases contendedStores_mem ha with h | h <;> subst h <;> exact absurd rfl hna

/-! ## Lemmas on `EnqueueTasks` -/

theorem Yield_time {σ : Type} (W : World σ) (c : Coroutine σ) (sub : Submission) :
    (Yield W c sub).1.time = c.time := rfl

theorem updateCommands_append (l1 l2 : List Submission) :
    updateCommands (l1 ++ l2) = updateCommands l1 ++ updateCommands l2 := by
  simp [updateCommands]

theorem updateCommands_cons (sub : Submission) (l : List Submission) :
    updateCommands (sub :: l) = sub.updates ++ updateCommands l := by
  simp [updateCommands]

theorem queuedTasks_append (l1 l2 : List Submission) :
    queuedTasks (l1 ++ l2) = queuedTasks l1 ++ queuedTasks l2 := by
  simp [queuedTasks]

/-- The first loop never moves the clock. -/
theorem enqueueFanOut_time {σ : Type} (W : World σ) (tags : Tags) (records : List TaskRecord)
    (c : Coroutine σ) : (enqueueFanOut W tags records c).c.time = c.time := by
  induction records generalizing c with
  | nil => rfl
  | cons rec rest ih =>
    unfold enqueueFanOut
    split
    · exact ih c
    · split
      · rw [ih]; rfl
      · exact ih c

/-- The first loop yields queue submissions only. -/
theorem enqueueFanOut_subs {σ : Type} (W : World σ) (tags : Tags) (records : List TaskRecord)
    (c : Coroutine σ) :
    ∀ sub ∈ (enqueueFanOut W tags records c).subs, ∃ t, sub = .Queue tags t := by
  induction records generalizing c with
  | nil => intro sub h; simp [enqueueFanOut] at h
  | cons rec rest ih =>
    unfold enqueueFanOut
    split
    · exact ih c
    · split
      · intro sub h
        simp only [List.mem_cons] at h
        rcases h with h | h
        · exact ⟨_, h⟩
        · exact ih _ sub h
      · exact ih c

theorem updateCommands_of_queue (tags : Tags) (subs : List Submission)
    (h : ∀ sub ∈ subs, ∃ t, sub = .Queue tags t) : updateCommands subs = [] := by
  induction subs with
  | nil => rfl
  | cons sub rest ih =>
    obtain ⟨t, rfl⟩ := h sub (List.mem_cons_self _ _)
    rw [updateCommands_cons, ih fun s hs => h s (List.mem_cons_of_mem _ hs)]
    rfl

/-- The first loop appends Timedout commands only, each built from a record that parses and
whose timeout has passed. -/
theorem enqueueFanOut_commands {σ : Type} (W : World σ) (tags : Tags)
    (records : List TaskRecord) (c : Coroutine σ) :
    ∀ cmd ∈ (enqueueFanOut W tags records c).commands,
      ∃ rec t, rec ∈ records ∧ rec.Task = .ok t ∧ t.Timeout ≤ c.time ∧
        cmd = .UpdateTask (timedoutCommand t) := by
  induction records generalizing c with
  | nil => intro cmd h; simp [enqueueFanOut] at h
  | cons rec rest ih =>
    unfold enqueueFanOut
    split
    · intro cmd h
      obtain ⟨rec', t, hm, hp, ht, hc⟩ := ih c cmd h
      exact ⟨rec', t, List.mem_cons_of_mem _ hm, hp, ht, hc⟩
    · rename_i t hparse
      split
      · intro cmd h
        obtain ⟨rec', t', hm, hp, ht, hc⟩ := ih _ cmd h
        exact ⟨rec', t', List.mem_cons_of_mem _ hm, hp, ht, hc⟩
      · rename_i hlt
        intro cmd h
        simp only [List.mem_cons] at h
        rcases h with h | h
        · exact ⟨rec, t, List.mem_cons_self _ _, hparse, not_lt.mp hlt, h⟩
        · obtain ⟨rec', t', hm, hp, ht, hc⟩ := ih c cmd h
          exact ⟨rec', t', List.mem_cons_of_mem _ hm, hp, ht, hc⟩

/-- The second loop appends Enqueued and Init commands only, each built from a record. -/
theorem enqueueCollect_commands {σ : Type} (W : World σ) (config : Config)
    (records : List TaskRecord) (awaiting : List (Option Handle)) (c : Coroutine σ) :
    ∀ cmd ∈ (enqueueCollect W config records awaiting c).commands,
      ∃ rec now, rec ∈ records ∧ (cmd = .UpdateTask (enqueuedCommand config rec now) ∨
        cmd = .UpdateTask (reenqueueCommand config rec now)) := by
  induction records generalizing awaiting c with
  | nil => intro cmd h; simp [enqueueCollect] at h
  | cons rec rest ih =>
    cases awaiting with
    | nil => intro cmd h; simp [enqueueCollect] at h
    | cons a hs =>
      cases a with
      | none =>
        intro cmd h
        simp only [enqueueCollect] at h
        obtain ⟨rec', now, hm, hc⟩ := ih hs c cmd h
        exact ⟨rec', now, List.mem_cons_of_mem _ hm, hc⟩
      | some h0 =>
        intro cmd h
        simp only [enqueueCollect] at h
        split at h
        · obtain ⟨rec', now, hm, hc⟩ := ih hs _ cmd h
          exact ⟨rec', now, List.mem_cons_of_mem _ hm, hc⟩
        · split at h
          · simp at h
          · split at h
            · simp only [List.mem_cons] at h
              rcases h with h | h
              · exact ⟨rec, _, List.mem_cons_self _ _, Or.inl h⟩
              · obtain ⟨rec', now, hm, hc⟩ := ih hs _ cmd h
                exact ⟨rec', now, List.mem_cons_of_mem _ hm, hc⟩
            · simp only [List.mem_cons] at h
              rcases h with h | h
              · exact ⟨rec, _, List.mem_cons_self _ _, Or.inr h⟩
              · obtain ⟨rec', now, hm, hc⟩ := ih hs _ cmd h
                exact ⟨rec', now, List.mem_cons_of_mem _ hm, hc⟩

theorem mem_store_updates {tags : Tags} {commands : List Command} {u : UpdateTaskCommand} :
    u ∈ (Submission.Store tags { Commands := commands }).updates ↔ .UpdateTask u ∈ commands := by
  simp only [Submission.updates, List.mem_filterMap]
  constructor
  · rintro ⟨cmd, hm, hc⟩
    cases cmd <;> simp at hc
    subst hc
    exact hm
  · intro h
    exact ⟨_, h, rfl⟩

/-- The submissions of the pass over the records: the queue submissions of the first loop,
then the transaction of all commands if there is one; nothing but the queue submissions if
the second loop panics. -/
theorem enqueueRecords_subs {σ : Type} (W : World σ) (config : Config) (tags : Tags)
    (records : List TaskRecord) (c : Coroutine σ) :
    (enqueueRecords W config tags records c).subs =
      (enqueueFanOut W tags records c).subs ++
        if (enqueueCollect W config records (enqueueFanOut W tags records c).awaiting
              (enqueueFanOut W tags records c).c).panicked = true ∨
            (enqueueFanOut W tags records c).commands ++
              (enqueueCollect W config records (enqueueFanOut W tags records c).awaiting
                (enqueueFanOut W tags records c).c).commands = []
        then []
        else [.Store tags { Commands := (enqueueFanOut W tags records c).commands ++
          (enqueueCollect W config records (enqueueFanOut W tags records c).awaiting
            (enqueueFanOut W tags records c).c).commands }] := by
  unfold enqueueRecords
  simp only
  by_cases hp : (enqueueCollect W config records (enqueueFanOut W tags records c).awaiting
      (enqueueFanOut W tags records c).c).panicked = true
  · simp [hp]
  · by_cases hc : (enqueueFanOut W tags records c).commands ++
        (enqueueCollect W config records (enqueueFanOut W tags records c).awaiting
          (enqueueFanOut W tags records c).c).commands = []
    · have hl : ¬ ((enqueueFanOut W tags records c).commands ++
        (enqueueCollect W config records (enqueueFanOut W tags records c).awaiting
          (enqueueFanOut W tags records c).c).commands).length > 0 := by
        rw [hc]; simp
      simp only [hp, hl, hc]
      simp
    · have hl : ((enqueueFanOut W tags records c).commands ++
        (enqueueCollect W config records (enqueueFanOut W tags records c).awaiting
          (enqueueFanOut W tags records c).c).commands).length > 0 :=
        List.length_pos.mpr hc
      simp only [hp, hl, hc]
      simp

/-- The outcome of the pass over the records. -/
theorem enqueueRecords_out {σ : Type} (W : World σ) (config : Config) (tags : Tags)
    (records : List TaskRecord) (c : Coroutine σ) :
    (enqueueRecords W config tags records c).out =
      if (enqueueCollect W config records (enqueueFanOut W tags records c).awaiting
            (enqueueFanOut W tags records c).c).panicked = true
      then .panicked else .returned none none := by
  unfold enqueueRecords
  simp only
  split
  · rfl
  · split <;> rfl

/-- The submissions of a pass whose read is answered with records. -/
theorem EnqueueTasks_of_read {σ : Type} (W : World σ) (config : Config) (tags : Tags)
    (c0 c1 : Coroutine σ) (records : List TaskRecord)
    (h : ReadTasksAnswered W config tags c0 c1 records) :
    (EnqueueTasks W config tags c0).subs =
      readTasksSubmission config tags c0.time :: (enqueueRecords W config tags records c1).subs ∧
    (EnqueueTasks W config tags c0).out = (enqueueRecords W config tags records c1).out ∧
    (EnqueueTasks W config tags c0).c = (enqueueRecords W config tags records c1).c := by
  obtain ⟨completion, res0, result, hya, hs, h0, rfl⟩ := h
  simp [EnqueueTasks, hya, hs, h0]

/-- Every update of a pass is one of the three commands of enqueueTasks.go. -/
theorem EnqueueTasks_updates {σ : Type} (W : World σ) (config : Config) (tags : Tags)
    (c : Coroutine σ) (u : UpdateTaskCommand)
    (hu : u ∈ updateCommands (EnqueueTasks W config tags c).subs) :
    (∃ t, u = timedoutCommand t) ∨ (∃ rec now, u = enqueuedCommand config rec now) ∨
      (∃ rec now, u = reenqueueCommand config rec now) := by
  have key : ∀ records c1, u ∈ updateCommands (enqueueRecords W config tags records c1).subs →
      (∃ t, u = timedoutCommand t) ∨ (∃ rec now, u = enqueuedCommand config rec now) ∨
        (∃ rec now, u = reenqueueCommand config rec now) := by
    intro records c1 h
    rw [enqueueRecords_subs, updateCommands_append,
      updateCommands_of_queue tags _ (enqueueFanOut_subs W tags records c1)] at h
    split at h
    · simp [updateCommands] at h
    · simp only [List.nil_append, updateCommands, List.flatMap_cons, List.flatMap_nil,
        List.append_nil] at h
      rw [mem_store_updates, List.mem_append] at h
      rcases h with h | h
      · obtain ⟨_, t, -, -, -, hc⟩ := enqueueFanOut_commands W tags records c1 _ h
        simp only [Command.UpdateTask.injEq] at hc
        exact Or.inl ⟨t, hc⟩
      · obtain ⟨rec, now, -, hc | hc⟩ := enqueueCollect_commands W config records _ _ _ h
        · simp only [Command.UpdateTask.injEq] at hc
          exact Or.inr (Or.inl ⟨rec, now, hc⟩)
        · simp only [Command.UpdateTask.injEq] at hc
          exact Or.inr (Or.inr ⟨rec, now, hc⟩)
  unfold EnqueueTasks at hu
  simp only at hu
  split at hu
  · simp [updateCommands, readTasksSubmission, Submission.updates] at hu
  · split at hu
    · simp [updateCommands, readTasksSubmission, Submission.updates] at hu
    · split at hu
      · split at hu
        · simp [updateCommands, readTasksSubmission, Submission.updates] at hu
        · rw [updateCommands_cons] at hu
          simp only [readTasksSubmission, Submission.updates, List.filterMap_cons,
            List.filterMap_nil, List.nil_append] at hu
          exact key _ _ hu
      · simp [updateCommands, readTasksSubmission, Submission.updates] at hu

/-! ## Lemmas on the commands of the two handlers -/

theorem emittedByCompleteTask_shape {u : UpdateTaskCommand} (h : EmittedByCompleteTask u) :
    ∃ r time, u = completeTaskCommand r time := by
  obtain ⟨σ, W, fuel, c, r, hu⟩ := h
  obtain ⟨time, ht⟩ := CompleteTask_updates W fuel c r u hu
  exact ⟨r, time, ht⟩

theorem emittedByEnqueueTasks_shape {u : UpdateTaskCommand} (h : EmittedByEnqueueTasks u) :
    (∃ t, u = timedoutCommand t) ∨ (∃ config rec now, u = enqueuedCommand config rec now) ∨
      (∃ config rec now, u = reenqueueCommand config rec now) := by
  obtain ⟨σ, W, config, tags, c, hu⟩ := h
  rcases EnqueueTasks_updates W config tags c u hu with h | ⟨rec, now, h⟩ | ⟨rec, now, h⟩
  · exact Or.inl h
  · exact Or.inr (Or.inl ⟨config, rec, now, h⟩)
  · exact Or.inr (Or.inr ⟨config, rec, now, h⟩)

/-- The update of scenario 1 is a command of `CompleteTask`. -/
theorem scenario_emitted :
    EmittedByCompleteTask (completeTaskCommand (scenarioRequest 7) 1000) :=
  ⟨StoreState, scenarioWorld, 1, scenarioStart, scenarioRequest 7, List.mem_singleton.mpr rfl⟩

theorem guard_iff (u : UpdateTaskCommand) (row : TaskRecord) :
    u.guard row = true ↔
      row.Id = u.Id ∧ row.State ∈ u.CurrentStates ∧ row.Counter = u.CurrentCounter := by
  simp [UpdateTaskCommand.guard, and_assoc]

/-- A command whose guard matches no row leaves the store as it is. -/
theorem Store.updateTask_of_no_match (s : Store) (u : UpdateTaskCommand)
    (h : ∀ row ∈ s, u.guard row = false) : s.updateTask u = (s, { RowsAffected := 0 }) := by
  have hmap : (s.map fun row => if u.guard row then u.write row else row) = s := by
    conv_rhs => rw [← List.map_id s]
    apply List.map_congr_left
    intro row hrow
    simp [h row hrow]
  have hfil : (s.filter fun row => u.guard row) = [] := by
    rw [List.filter_eq_nil_iff]
    intro row hrow
    simp [h row hrow]
  simp [Store.updateTask, hmap, hfil]

/-- A record whose timeout has passed adds one Timedout command to what the first loop does
on the other records, one empty entry to `awaiting`, and nothing else. -/
theorem enqueueFanOut_timedout {σ : Type} (W : World σ) (tags : Tags) (l1 : List TaskRecord)
    (rec : TaskRecord) (l2 : List TaskRecord) (t : Task) (c : Coroutine σ)
    (hparse : rec.Task = .ok t) (htime : t.Timeout ≤ c.time) :
    (enqueueFanOut W tags (l1 ++ rec :: l2) c).c = (enqueueFanOut W tags (l1 ++ l2) c).c ∧
    (enqueueFanOut W tags (l1 ++ rec :: l2) c).subs = (enqueueFanOut W tags (l1 ++ l2) c).subs ∧
    ∃ A B a1 a2,
      (enqueueFanOut W tags (l1 ++ rec :: l2) c).commands =
        A ++ .UpdateTask (timedoutCommand t) :: B ∧
      (enqueueFanOut W tags (l1 ++ l2) c).commands = A ++ B ∧
      a1.length = l1.length ∧
      (enqueueFanOut W tags (l1 ++ rec :: l2) c).awaiting = a1 ++ none :: a2 ∧
      (enqueueFanOut W tags (l1 ++ l2) c).awaiting = a1 ++ a2 := by
  induction l1 generalizing c with
  | nil =>
    have hlt : ¬ c.time < t.Timeout := not_lt.mpr htime
    refine ⟨?_, ?_, [], _, [], _, ?_, rfl, rfl, ?_, rfl⟩ <;>
      simp [enqueueFanOut, hparse, hlt]
  | cons x l1 ih =>
    simp only [List.cons_append]
    cases hx : x.Task with
    | error err =>
      obtain ⟨hc, hs, A, B, a1, a2, hA, hB, hl, h1, h2⟩ := ih c htime
      refine ⟨?_, ?_, A, B, none :: a1, a2, ?_, ?_, ?_, ?_, ?_⟩ <;>
        simp [enqueueFanOut, hx, hc, hs, hA, hB, hl, h1, h2]
    | ok tx =>
      by_cases hlt : c.time < tx.Timeout
      · obtain ⟨hc, hs, A, B, a1, a2, hA, hB, hl, h1, h2⟩ :=
          ih (Yield W c (queueSubmission tags tx)).1 (by rw [Yield_time]; exact htime)
        refine ⟨?_, ?_, A, B, some (Yield W c (queueSubmission tags tx)).2 :: a1, a2,
          ?_, ?_, ?_, ?_, ?_⟩ <;>
          simp [enqueueFanOut, hx, hlt, hc, hs, hA, hB, hl, h1, h2]
      · obtain ⟨hc, hs, A, B, a1, a2, hA, hB, hl, h1, h2⟩ := ih c htime
        refine ⟨?_, ?_, .UpdateTask (timedoutCommand tx) :: A, B, none :: a1, a2,
          ?_, ?_, ?_, ?_, ?_⟩ <;>
          simp [enqueueFanOut, hx, hlt, hc, hs, hA, hB, hl, h1, h2]

/-- The second loop skips a record whose entry of `awaiting` is empty. -/
theorem enqueueCollect_skip {σ : Type} (W : World σ) (config : Config) (l1 : List TaskRecord)
    (rec : TaskRecord) (l2 : List TaskRecord) (a1 a2 : List (Option Handle)) (c : Coroutine σ)
    (hlen : a1.length = l1.length) :
    enqueueCollect W config (l1 ++ rec :: l2) (a1 ++ none :: a2) c =
      enqueueCollect W config (l1 ++ l2) (a1 ++ a2) c := by
  induction l1 generalizing a1 c with
  | nil =>
    cases a1 with
    | nil => simp [enqueueCollect]
    | cons _ _ => simp at hlen
  | cons x l1 ih =>
    cases a1 with
    | nil => simp at hlen
    | cons a a1 =>
      simp only [List.length_cons, add_left_inj] at hlen
      cases a with
      | none => simp only [List.cons_append, enqueueCollect]; exact ih a1 c hlen
      | some h =>
        simp only [List.cons_append, enqueueCollect]
        rcases haw : Await W c h with ⟨c1, res⟩
        cases res with
        | error err => simp only; exact ih a1 c1 hlen
        | ok completion =>
          simp only
          cases completion.Queue with
          | none => rfl
          | some q => simp only [List.append_eq]; rw [ih a1 c1 hlen]

/-- The updates and the queued tasks of the pass over the records, when the second loop does
not panic: the queued tasks are those of the first loop, the updates are the commands of
the two loops. -/
theorem enqueueRecords_trace {σ : Type} (W : World σ) (config : Config) (tags : Tags)
    (records : List TaskRecord) (c : Coroutine σ)
    (hnp : (enqueueCollect W config records (enqueueFanOut W tags records c).awaiting
      (enqueueFanOut W tags records c).c).panicked = false) :
    updateCommands (enqueueRecords W config tags records c).subs =
      (Submission.Store tags { Commands := (enqueueFanOut W tags records c).commands ++
        (enqueueCollect W config records (enqueueFanOut W tags records c).awaiting
          (enqueueFanOut W tags records c).c).commands }).updates ∧
    queuedTasks (enqueueRecords W config tags records c).subs =
      queuedTasks (enqueueFanOut W tags records c).subs := by
  rw [enqueueRecords_subs, updateCommands_append, queuedTasks_append,
    updateCommands_of_queue tags _ (enqueueFanOut_subs W tags records c)]
  by_cases hc : (enqueueFanOut W tags records c).commands ++
      (enqueueCollect W config records (enqueueFanOut W tags records c).awaiting
        (enqueueFanOut W tags records c).c).commands = []
  · simp [hnp, hc, updateCommands, queuedTasks, Submission.updates]
  · simp [hnp, hc, updateCommands, queuedTasks]

theorem store_updates_append (tags : Tags) (l1 l2 : List Command) :
    (Submission.Store tags { Commands := l1 ++ l2 }).updates =
      (Submission.Store tags { Commands := l1 }).updates ++
        (Submission.Store tags { Commands := l2 }).updates := by
  simp [Submission.updates]

theorem store_updates_cons (tags : Tags) (u : UpdateTaskCommand) (l : List Command) :
    (Submission.Store tags { Commands := .UpdateTask u :: l }).updates =
      u :: (Submission.Store tags { Commands := l }).updates := by
  simp [Submission.updates]

theorem queuedTasks_cons_queue (tags : Tags) (t : Task) (l : List Submission) :
    queuedTasks (.Queue tags t :: l) = t :: queuedTasks l := by
  simp [queuedTasks]

theorem queuedTasks_cons_store (tags : Tags) (tx : Transaction) (l : List Submission) :
    queuedTasks (.Store tags tx :: l) = queuedTasks l := by
  simp [queuedTasks]

/-- When every record's timeout is still to come, the first loop appends no command and
queues every record that parses. -/
theorem enqueueFanOut_in_time {σ : Type} (W : World σ) (tags : Tags)
    (records : List TaskRecord) (c : Coroutine σ)
    (h : ∀ rec ∈ records, c.time < rec.Timeout) :
    (enqueueFanOut W tags records c).commands = [] ∧
    queuedTasks (enqueueFanOut W tags records c).subs =
      records.filterMap fun rec => rec.Task.toOption := by
  induction records generalizing c with
  | nil => exact ⟨rfl, rfl⟩
  | cons rec rest ih =>
    have hrest : ∀ c' : Coroutine σ, c'.time = c.time → ∀ r ∈ rest, c'.time < r.Timeout := by
      intro c' hc r hr
      rw [hc]
      exact h r (List.mem_cons_of_mem _ hr)
    cases hp : rec.Task with
    | error err =>
      obtain ⟨h1, h2⟩ := ih c (hrest c rfl)
      have hto : rec.Task.toOption = none := by rw [hp]; rfl
      refine ⟨?_, ?_⟩
      · simp only [enqueueFanOut, hp]; exact h1
      · simp only [enqueueFanOut, hp, List.filterMap_cons, hto]; exact h2
    | ok t =>
      have hlt : c.time < t.Timeout := by
        rw [(TaskRecord.Task_ok hp).2.2.2.1]
        exact h rec (List.mem_cons_self _ _)
      obtain ⟨h1, h2⟩ := ih (Yield W c (queueSubmission tags t)).1 (hrest _ (Yield_time W c _))
      have hto : rec.Task.toOption = some t := by rw [hp]; rfl
      refine ⟨?_, ?_⟩
      · simp only [enqueueFanOut, hp, hlt, if_true]; exact h1
      · simp only [enqueueFanOut, hp, hlt, if_true, List.filterMap_cons, hto, queueSubmission,
          queuedTasks_cons_queue]
        exact congrArg _ h2

theorem enqueueFanOut_nil {σ : Type} (W : World σ) (tags : Tags) (c : Coroutine σ) :
    enqueueFanOut W tags [] c = ⟨c, [], [], []⟩ := rfl

/-- The first loop over a batch in two parts. -/
theorem enqueueFanOut_append {σ : Type} (W : World σ) (tags : Tags) (l1 l2 : List TaskRecord)
    (c : Coroutine σ) :
    enqueueFanOut W tags (l1 ++ l2) c =
      ⟨(enqueueFanOut W tags l2 (enqueueFanOut W tags l1 c).c).c,
       (enqueueFanOut W tags l1 c).subs ++ (enqueueFanOut W tags l2 (enqueueFanOut W tags l1 c).c).subs,
       (enqueueFanOut W tags l1 c).commands ++
         (enqueueFanOut W tags l2 (enqueueFanOut W tags l1 c).c).commands,
       (enqueueFanOut W tags l1 c).awaiting ++
         (enqueueFanOut W tags l2 (enqueueFanOut W tags l1 c).c).awaiting⟩ := by
  induction l1 generalizing c with
  | nil => simp [enqueueFanOut]
  | cons x l1 ih =>
    simp only [List.cons_append]
    cases hx : x.Task with
    | error err => simp [enqueueFanOut, hx, ih]
    | ok t =>
      by_cases hlt : c.time < t.Timeout
      · simp [enqueueFanOut, hx, hlt, ih]
      · simp [enqueueFanOut, hx, hlt, ih]

/-- The slice `awaiting` has one entry per record. -/
theorem enqueueFanOut_awaiting_length {σ : Type} (W : World σ) (tags : Tags)
    (records : List TaskRecord) (c : Coroutine σ) :
    (enqueueFanOut W tags records c).awaiting.length = records.length := by
  induction records generalizing c with
  | nil => rfl
  | cons x l ih =>
    cases hx : x.Task with
    | error err => simp [enqueueFanOut, hx, ih]
    | ok t =>
      by_cases hlt : c.time < t.Timeout
      · simp [enqueueFanOut, hx, hlt, ih]
      · simp [enqueueFanOut, hx, hlt, ih]

/-- The second loop over a batch in two parts: it stops in the first part if it panics
there, and otherwise goes on with the second part in the context the first part leaves. -/
theorem enqueueCollect_append {σ : Type} (W : World σ) (config : Config)
    (l1 l2 : List TaskRecord) (a1 a2 : List (Option Handle)) (c : Coroutine σ)
    (hlen : a1.length = l1.length) :
    enqueueCollect W config (l1 ++ l2) (a1 ++ a2) c =
      if (enqueueCollect W config l1 a1 c).panicked = true then enqueueCollect W config l1 a1 c
      else
        ⟨(enqueueCollect W config l2 a2 (enqueueCollect W config l1 a1 c).c).c,
         (enqueueCollect W config l1 a1 c).commands ++
           (enqueueCollect W config l2 a2 (enqueueCollect W config l1 a1 c).c).commands,
         (enqueueCollect W config l2 a2 (enqueueCollect W config l1 a1 c).c).panicked⟩ := by
  induction l1 generalizing a1 c with
  | nil =>
    cases a1 with
    | nil => simp [enqueueCollect]
    | cons _ _ => simp at hlen
  | cons x l1 ih =>
    cases a1 with
    | nil => simp at hlen
    | cons a a1 =>
      simp only [List.length_cons, add_left_inj] at hlen
      cases a with
      | none =>
        simp only [List.cons_append, enqueueCollect]
        exact ih a1 c hlen
      | some h =>
        simp only [List.cons_append, enqueueCollect]
        rcases haw : Await W c h with ⟨c1, res⟩
        cases res with
        | error err => simp only; exact ih a1 c1 hlen
        | ok completion =>
          simp only
          cases completion.Queue with
          | none => simp
          | some q =>
            simp only [List.append_eq]
            rw [ih a1 c1 hlen]
            by_cases hp : (enqueueCollect W config l1 a1 c1).panicked = true
            · by_cases hq : q.Success = true <;> simp [hp, hq]
            · by_cases hq : q.Success = true <;> simp [hp, hq]

theorem wrapInt64_of_fits {x : Int} (h : fitsInt64 x) : wrapInt64 x = x := by
  obtain ⟨h1, h2⟩ := h
  unfold wrapInt64
  have : (x + 2 ^ 63) % 2 ^ 64 = x + 2 ^ 63 := Int.emod_eq_of_lt (by omega) (by omega)
  omega

theorem storeSubmissions_append (l1 l2 : List Submission) :
    storeSubmissions (l1 ++ l2) = storeSubmissions l1 ++ storeSubmissions l2 := by
  simp [storeSubmissions]

theorem storeSubmissions_of_queue (tags : Tags) (subs : List Submission)
    (h : ∀ sub ∈ subs, ∃ t, sub = .Queue tags t) : storeSubmissions subs = [] := by
  induction subs with
  | nil => rfl
  | cons sub rest ih =>
    obtain ⟨t, rfl⟩ := h sub (List.mem_cons_self _ _)
    simp only [storeSubmissions, List.filter_cons] at ih ⊢
    exact ih fun s hs => h s (List.mem_cons_of_mem _ hs)

/-- The store submissions of a pass whose read is answered: the read, then the transaction
of all commands if the second loop does not panic and there is a command. -/
theorem EnqueueTasks_storeSubmissions {σ : Type} (W : World σ) (config : Config) (tags : Tags)
    (c0 c1 : Coroutine σ) (records : List TaskRecord)
    (hread : ReadTasksAnswered W config tags c0 c1 records) :
    storeSubmissions (EnqueueTasks W config tags c0).subs =
      readTasksSubmission config tags c0.time ::
        if (enqueueCollect W config records (enqueueFanOut W tags records c1).awaiting
              (enqueueFanOut W tags records c1).c).panicked = true ∨
            (enqueueFanOut W tags records c1).commands ++
              (enqueueCollect W config records (enqueueFanOut W tags records c1).awaiting
                (enqueueFanOut W tags records c1).c).commands = []
        then []
        else [updateTasksSubmission tags ((enqueueFanOut W tags records c1).commands ++
          (enqueueCollect W config records (enqueueFanOut W tags records c1).awaiting
            (enqueueFanOut W tags records c1).c).commands)] := by
  obtain ⟨hsubs, -, -⟩ := EnqueueTasks_of_read W config tags c0 c1 records hread
  rw [hsubs, enqueueRecords_subs]
  have hq := storeSubmissions_of_queue tags _ (enqueueFanOut_subs W tags records c1)
  rw [← List.singleton_append, storeSubmissions_append, storeSubmissions_append, hq]
  split <;> simp [storeSubmissions, readTasksSubmission, updateTasksSubmission]

/-- The queued tasks of a pass whose read is answered are those of the first loop. -/
theorem EnqueueTasks_queuedTasks {σ : Type} (W : World σ) (config : Config) (tags : Tags)
    (c0 c1 : Coroutine σ) (records : List TaskRecord)
    (hread : ReadTasksAnswered W config tags c0 c1 records) :
    queuedTasks (EnqueueTasks W config tags c0).subs =
      queuedTasks (enqueueFanOut W tags records c1).subs := by
  obtain ⟨hsubs, -, -⟩ := EnqueueTasks_of_read W config tags c0 c1 records hread
  rw [hsubs, readTasksSubmission, queuedTasks_cons_store, enqueueRecords_subs,
    queuedTasks_append]
  split <;> simp [queuedTasks]

/-- A pass whose read is answered panics iff its second loop does. -/
theorem EnqueueTasks_panicked_iff {σ : Type} (W : World σ) (config : Config) (tags : Tags)
    (c0 c1 : Coroutine σ) (records : List TaskRecord)
    (hread : ReadTasksAnswered W config tags c0 c1 records) :
    (EnqueueTasks W config tags c0).out ≠ .panicked ↔
      (enqueueCollect W config records (enqueueFanOut W tags records c1).awaiting
        (enqueueFanOut W tags records c1).c).panicked = false := by
  obtain ⟨-, hout, -⟩ := EnqueueTasks_of_read W config tags c0 c1 records hread
  rw [hout, enqueueRecords_out]
  cases (enqueueCollect W config records (enqueueFanOut W tags records c1).awaiting
        (enqueueFanOut W tags records c1).c).panicked <;> simp

/-- The first loop around a record that parses and whose timeout is still to come: one Queue
submission for its task, its handle in `awaiting`, no command. -/
theorem enqueueFanOut_queued {σ : Type} (W : World σ) (tags : Tags) (l1 : List TaskRecord)
    (rec : TaskRecord) (l2 : List TaskRecord) (t : Task) (c : Coroutine σ)
    (hparse : rec.Task = .ok t) (htime : c.time < rec.Timeout) :
    enqueueFanOut W tags (l1 ++ rec :: l2) c =
      ⟨(enqueueFanOut W tags l2
          (Yield W (enqueueFanOut W tags l1 c).c (queueSubmission tags t)).1).c,
       (enqueueFanOut W tags l1 c).subs ++ queueSubmission tags t ::
         (enqueueFanOut W tags l2
          (Yield W (enqueueFanOut W tags l1 c).c (queueSubmission tags t)).1).subs,
       (enqueueFanOut W tags l1 c).commands ++
         (enqueueFanOut W tags l2
          (Yield W (enqueueFanOut W tags l1 c).c (queueSubmission tags t)).1).commands,
       (enqueueFanOut W tags l1 c).awaiting ++
         some (Yield W (enqueueFanOut W tags l1 c).c (queueSubmission tags t)).2 ::
         (enqueueFanOut W tags l2
          (Yield W (enqueueFanOut W tags l1 c).c (queueSubmission tags t)).1).awaiting⟩ := by
  have hlt : (enqueueFanOut W tags l1 c).c.time < t.Timeout := by
    rw [enqueueFanOut_time, (TaskRecord.Task_ok hparse).2.2.2.1]
    exact htime
  rw [enqueueFanOut_append]
  simp [enqueueFanOut, hparse, hlt]

/-- The second loop at a record whose handle is answered with a queue completion: one
command for the record, then the records that remain. -/
theorem enqueueCollect_queued {σ : Type} (W : World σ) (config : Config) (rec : TaskRecord)
    (rest : List TaskRecord) (h : Handle) (hs : List (Option Handle)) (c c1 : Coroutine σ)
    (completion : Completion) (q : QueueCompletion)
    (haw : Await W c h = (c1, .ok completion)) (hq : completion.Queue = some q) :
    enqueueCollect W config (rec :: rest) (some h :: hs) c =
      ⟨(enqueueCollect W config rest hs c1).c,
       .UpdateTask (queueResultCommand config rec q.Success c1.time) ::
         (enqueueCollect W config rest hs c1).commands,
       (enqueueCollect W config rest hs c1).panicked⟩ := by
  simp only [enqueueCollect, haw, hq, queueResultCommand]
  by_cases hsucc : q.Success = true <;> simp [hsucc]

/-- The second loop at a record whose handle is answered with an error: no command for the
record, then the records that remain. -/
theorem enqueueCollect_failed {σ : Type} (W : World σ) (config : Config) (rec : TaskRecord)
    (rest : List TaskRecord) (h : Handle) (hs : List (Option Handle)) (c c1 : Coroutine σ)
    (err : GoError) (haw : Await W c h = (c1, .error err)) :
    enqueueCollect W config (rec :: rest) (some h :: hs) c = enqueueCollect W config rest hs c1 := by
  simp only [enqueueCollect, haw]

/-- The two loops around a record that parses and whose timeout is still to come, when the
second loop does not panic before it reaches the record. -/
theorem enqueue_loops_queued {σ : Type} (W : World σ) (config : Config) (tags : Tags)
    (l1 : List TaskRecord) (rec : TaskRecord) (l2 : List TaskRecord) (t : Task)
    (c : Coroutine σ) (hparse : rec.Task = .ok t) (htime : c.time < rec.Timeout)
    (hq1 : (enqueueCollect W config l1 (enqueueFanOut W tags l1 c).awaiting
      (enqueueFanOut W tags (l1 ++ rec :: l2) c).c).panicked = false) :
    enqueueCollect W config (l1 ++ rec :: l2) (enqueueFanOut W tags (l1 ++ rec :: l2) c).awaiting
        (enqueueFanOut W tags (l1 ++ rec :: l2) c).c =
      ⟨(enqueueCollect W config (rec :: l2)
          (some (Yield W (enqueueFanOut W tags l1 c).c (queueSubmission tags t)).2 ::
            (enqueueFanOut W tags l2
              (Yield W (enqueueFanOut W tags l1 c).c (queueSubmission tags t)).1).awaiting)
          (enqueueCollect W config l1 (enqueueFanOut W tags l1 c).awaiting
            (enqueueFanOut W tags (l1 ++ rec :: l2) c).c).c).c,
       (enqueueCollect W config l1 (enqueueFanOut W tags l1 c).awaiting
            (enqueueFanOut W tags (l1 ++ rec :: l2) c).c).commands ++
         (enqueueCollect W config (rec :: l2)
          (some (Yield W (enqueueFanOut W tags l1 c).c (queueSubmission tags t)).2 ::
            (enqueueFanOut W tags l2
              (Yield W (enqueueFanOut W tags l1 c).c (queueSubmission tags t)).1).awaiting)
          (enqueueCollect W config l1 (enqueueFanOut W tags l1 c).awaiting
            (enqueueFanOut W tags (l1 ++ rec :: l2) c).c).c).commands,
       (enqueueCollect W config (rec :: l2)
          (some (Yield W (enqueueFanOut W tags l1 c).c (queueSubmission tags t)).2 ::
            (enqueueFanOut W tags l2
              (Yield W (enqueueFanOut W tags l1 c).c (queueSubmission tags t)).1).awaiting)
          (enqueueCollect W config l1 (enqueueFanOut W tags l1 c).awaiting
            (enqueueFanOut W tags (l1 ++ rec :: l2) c).c).c).panicked⟩ := by
  have hP := enqueueFanOut_queued W tags l1 rec l2 t c hparse htime
  have haw : (enqueueFanOut W tags (l1 ++ rec :: l2) c).awaiting =
      (enqueueFanOut W tags l1 c).awaiting ++
        some (Yield W (enqueueFanOut W tags l1 c).c (queueSubmission tags t)).2 ::
        (enqueueFanOut W tags l2
          (Yield W (enqueueFanOut W tags l1 c).c (queueSubmission tags t)).1).awaiting := by
    rw [hP]
  rw [haw, enqueueCollect_append W config l1 (rec :: l2) _ _ _
    (enqueueFanOut_awaiting_length W tags l1 c)]
  simp [hq1]

/-- The second loop does not panic in a first part of the batch if it does not panic at all. -/
theorem enqueueCollect_prefix_ok {σ : Type} (W : World σ) (config : Config)
    (l1 l2 : List TaskRecord) (a1 a2 : List (Option Handle)) (c : Coroutine σ)
    (hlen : a1.length = l1.length)
    (h : (enqueueCollect W config (l1 ++ l2) (a1 ++ a2) c).panicked = false) :
    (enqueueCollect W config l1 a1 c).panicked = false := by
  rw [enqueueCollect_append W config l1 l2 a1 a2 c hlen] at h
  cases hp : (enqueueCollect W config l1 a1 c).panicked with
  | false => rfl
  | true => rw [hp] at h; simp [hp] at h

/-- A record that does not parse adds one empty entry to `awaiting` and nothing else to what
the first loop does on the other records. -/
theorem enqueueFanOut_unparsed {σ : Type} (W : World σ) (tags : Tags) (l1 : List TaskRecord)
    (rec : TaskRecord) (l2 : List TaskRecord) (err : GoError) (c : Coroutine σ)
    (hparse : rec.Task = .error err) :
    (enqueueFanOut W tags (l1 ++ rec :: l2) c).c = (enqueueFanOut W tags (l1 ++ l2) c).c ∧
    (enqueueFanOut W tags (l1 ++ rec :: l2) c).subs = (enqueueFanOut W tags (l1 ++ l2) c).subs ∧
    (enqueueFanOut W tags (l1 ++ rec :: l2) c).commands =
      (enqueueFanOut W tags (l1 ++ l2) c).commands ∧
    (enqueueFanOut W tags (l1 ++ rec :: l2) c).awaiting =
      (enqueueFanOut W tags l1 c).awaiting ++ none ::
        (enqueueFanOut W tags l2 (enqueueFanOut W tags l1 c).c).awaiting ∧
    (enqueueFanOut W tags (l1 ++ l2) c).awaiting =
      (enqueueFanOut W tags l1 c).awaiting ++
        (enqueueFanOut W tags l2 (enqueueFanOut W tags l1 c).c).awaiting := by
  rw [enqueueFanOut_append W tags l1 (rec :: l2), enqueueFanOut_append W tags l1 l2]
  simp [enqueueFanOut, hparse]

/-- A pass over a batch with a record that does not parse is the pass over the batch without
that record. -/
theorem enqueueRecords_unparsed {σ : Type} (W : World σ) (config : Config) (tags : Tags)
    (l1 : List TaskRecord) (rec : TaskRecord) (l2 : List TaskRecord) (err : GoError)
    (c : Coroutine σ) (hparse : rec.Task = .error err) :
    enqueueRecords W config tags (l1 ++ rec :: l2) c = enqueueRecords W config tags (l1 ++ l2) c := by
  obtain ⟨hc, hs, hm, ha, ha0⟩ := enqueueFanOut_unparsed W tags l1 rec l2 err c hparse
  have hq : enqueueCollect W config (l1 ++ rec :: l2)
      (enqueueFanOut W tags (l1 ++ rec :: l2) c).awaiting
      (enqueueFanOut W tags (l1 ++ rec :: l2) c).c =
    enqueueCollect W config (l1 ++ l2) (enqueueFanOut W tags (l1 ++ l2) c).awaiting
      (enqueueFanOut W tags (l1 ++ l2) c).c := by
    rw [ha, ha0, hc]
    exact enqueueCollect_skip W config l1 rec l2 _ _ _ (enqueueFanOut_awaiting_length W tags l1 c)
  unfold enqueueRecords
  simp only [hq, hs, hm]
/-- The commands of the first loop: one Timedout command for each record that parses and
whose timeout has passed, in record order. -/
theorem enqueueFanOut_commands_eq {σ : Type} (W : World σ) (tags : Tags)
    (records : List TaskRecord) (c : Coroutine σ) :
    (enqueueFanOut W tags records c).commands = records.filterMap (timedoutResult c.time) := by
  induction records generalizing c with
  | nil => rfl
  | cons x l ih =>
    cases hx : x.Task with
    | error err => simp [enqueueFanOut, hx, ih, timedoutResult]
    | ok t =>
      by_cases hlt : c.time < t.Timeout
      · simp [enqueueFanOut, hx, hlt, ih, timedoutResult, Yield_time]
      · simp [enqueueFanOut, hx, hlt, ih, timedoutResult]

/-- A record with a handle in `awaiting` has no command from the first loop. -/
theorem enqueueFanOut_awaiting {σ : Type} (W : World σ) (tags : Tags)
    (records : List TaskRecord) (c : Coroutine σ) :
    List.Forall₂ (fun rec aw => aw.isSome = true → timedoutResult c.time rec = none) records
      (enqueueFanOut W tags records c).awaiting := by
  induction records generalizing c with
  | nil => exact List.Forall₂.nil
  | cons x l ih =>
    cases hx : x.Task with
    | error err =>
      simp only [enqueueFanOut, hx]
      exact List.Forall₂.cons (by simp) (ih c)
    | ok t =>
      by_cases hlt : c.time < t.Timeout
      · simp only [enqueueFanOut, hx, hlt, if_true]
        refine List.Forall₂.cons (by simp [timedoutResult, hx, hlt]) ?_
        have := ih (Yield W c (queueSubmission tags t)).1
        rw [Yield_time] at this
        exact this
      · simp only [enqueueFanOut, hx, hlt, if_false]
        exact List.Forall₂.cons (by simp) (ih c)

/-- The commands of the second loop: at most one per record, in record order, and only for
records that have a handle in `awaiting`. -/
theorem enqueueCollect_commands_eq {σ : Type} (W : World σ) (config : Config)
    (p : TaskRecord → Prop) (records : List TaskRecord) (awaiting : List (Option Handle))
    (c : Coroutine σ)
    (h : List.Forall₂ (fun rec aw => aw.isSome = true → p rec) records awaiting) :
    ∃ outcomes : List (Option (Bool × Int)),
      List.Forall₂ (fun rec o => o.isSome = true → p rec) records outcomes ∧
      (enqueueCollect W config records awaiting c).commands =
        (records.zip outcomes).filterMap (queueResult config) := by
  induction h generalizing c with
  | nil => exact ⟨[], List.Forall₂.nil, rfl⟩
  | @cons rec aw l aws hhead htail ih =>
    have hnone : ∀ c', ∃ outcomes : List (Option (Bool × Int)),
        List.Forall₂ (fun rec o => o.isSome = true → p rec) (rec :: l) outcomes ∧
        (enqueueCollect W config l aws c').commands =
          ((rec :: l).zip outcomes).filterMap (queueResult config) := by
      intro c'
      obtain ⟨os, hos, hc⟩ := ih c'
      exact ⟨none :: os, List.Forall₂.cons (by simp) hos, by simp [queueResult, hc]⟩
    cases aw with
    | none => simp only [enqueueCollect]; exact hnone c
    | some hd =>
      simp only [enqueueCollect]
      rcases haw : Await W c hd with ⟨c1, res⟩
      cases res with
      | error err => simp only; exact hnone c1
      | ok completion =>
        simp only
        cases completion.Queue with
        | none =>
          refine ⟨List.replicate (rec :: l).length none, ?_, ?_⟩
          · clear ih hnone haw
            have : ∀ rs : List TaskRecord, List.Forall₂
                (fun rec (o : Option (Bool × Int)) => o.isSome = true → p rec) rs
                (List.replicate rs.length none) := by
              intro rs
              induction rs with
              | nil => exact List.Forall₂.nil
              | cons r rs ihr => exact List.Forall₂.cons (by simp) ihr
            exact this (rec :: l)
          · have : ∀ rs : List TaskRecord,
                (rs.zip (List.replicate rs.length (none : Option (Bool × Int)))).filterMap
                  (queueResult config) = [] := by
              intro rs
              induction rs with
              | nil => rfl
              | cons r rs ihr => simpa [List.replicate_succ, queueResult] using ihr
            exact (this (rec :: l)).symm
        | some q =>
          obtain ⟨os, hos, hc⟩ := ih c1
          refine ⟨some (q.Success, c1.time) :: os,
            List.Forall₂.cons (fun _ => hhead rfl) hos, ?_⟩
          by_cases hs : q.Success = true <;>
            simp [hs, hc, queueResult, queueResultCommand]

/-- At most one command per record in the two loops together. -/
theorem commands_length_le (config : Config) (now : Int) (records : List TaskRecord)
    (outcomes : List (Option (Bool × Int)))
    (h : List.Forall₂ (fun rec o => o.isSome = true → timedoutResult now rec = none) records
      outcomes) :
    (records.filterMap (timedoutResult now)).length +
      ((records.zip outcomes).filterMap (queueResult config)).length ≤ records.length := by
  induction h with
  | nil => simp
  | @cons rec o l os hhead _ ih =>
    cases o with
    | none =>
      cases ht : timedoutResult now rec with
      | none =>
        simp only [List.zip_cons_cons, List.filterMap_cons, ht, queueResult, Option.map_none',
          List.length_cons] at ih ⊢
        omega
      | some cmd =>
        simp only [List.zip_cons_cons, List.filterMap_cons, ht, queueResult, Option.map_none',
          List.length_cons] at ih ⊢
        omega
    | some v =>
      have h0 := hhead rfl
      simp only [List.zip_cons_cons, List.filterMap_cons, h0, queueResult, Option.map_some',
        List.length_cons] at ih ⊢
      omega
/-! ## Lemmas on the record of yields and awaits -/

theorem logged_Yield {σ : Type} (W : World σ) (c : Coroutine (σ × List Event))
    (sub : Submission) :
    (Yield (logged W) c sub).1.state.2 =
      c.state.2 ++ [.yielded sub (Yield (logged W) c sub).2] := rfl

theorem logged_Await {σ : Type} (W : World σ) (c : Coroutine (σ × List Event)) (h : Handle) :
    (Await (logged W) c h).1.state.2 = c.state.2 ++ [.awaited h] := rfl

theorem logged_YieldAndAwait {σ : Type} (W : World σ) (c : Coroutine (σ × List Event))
    (sub : Submission) :
    (YieldAndAwait (logged W) c sub).1.state.2 =
      c.state.2 ++ [.yielded sub (Yield (logged W) c sub).2,
        .awaited (Yield (logged W) c sub).2] := by
  simp [YieldAndAwait, logged_Await, logged_Yield]

/-- The record of the first loop: one yield per queue submission, with the handle put in
`awaiting`. -/
theorem logged_enqueueFanOut {σ : Type} (W : World σ) (tags : Tags)
    (records : List TaskRecord) (c : Coroutine (σ × List Event)) :
    (enqueueFanOut (logged W) tags records c).c.state.2 =
      c.state.2 ++ List.zipWith Event.yielded (enqueueFanOut (logged W) tags records c).subs
        (enqueueFanOut (logged W) tags records c).awaiting.reduceOption := by
  induction records generalizing c with
  | nil => simp [enqueueFanOut]
  | cons x l ih =>
    cases hx : x.Task with
    | error err =>
      simp only [enqueueFanOut, hx, List.reduceOption_cons_of_none]
      exact ih c
    | ok t =>
      by_cases hlt : c.time < t.Timeout
      · simp only [enqueueFanOut, hx, hlt, if_true, List.reduceOption_cons_of_some,
          List.zipWith_cons_cons]
        rw [ih, logged_Yield]
        simp
      · simp only [enqueueFanOut, hx, hlt, if_false, List.reduceOption_cons_of_none]
        exact ih c

/-- The record of the second loop when it does not panic: one await per handle of
`awaiting`, in order. -/
theorem logged_enqueueCollect {σ : Type} (W : World σ) (config : Config)
    (records : List TaskRecord) (awaiting : List (Option Handle))
    (c : Coroutine (σ × List Event)) (hlen : awaiting.length = records.length)
    (hnp : (enqueueCollect (logged W) config records awaiting c).panicked = false) :
    (enqueueCollect (logged W) config records awaiting c).c.state.2 =
      c.state.2 ++ awaiting.reduceOption.map Event.awaited := by
  induction records generalizing awaiting c with
  | nil =>
    cases awaiting with
    | nil => simp [enqueueCollect]
    | cons _ _ => simp at hlen
  | cons x l ih =>
    cases awaiting with
    | nil => simp at hlen
    | cons a aws =>
      simp only [List.length_cons, add_left_inj] at hlen
      cases a with
      | none =>
        simp only [enqueueCollect, List.reduceOption_cons_of_none] at hnp ⊢
        exact ih aws c hlen hnp
      | some h =>
        simp only [enqueueCollect, List.reduceOption_cons_of_some, List.map_cons] at hnp ⊢
        have hlog := logged_Await W c h
        rcases haw : Await (logged W) c h with ⟨c1, res⟩
        rw [haw] at hlog hnp
        simp only at hlog
        cases res with
        | error err =>
          simp only at hnp ⊢
          rw [ih aws c1 hlen hnp, hlog]
          simp
        | ok completion =>
          simp only at hnp ⊢
          cases hq : completion.Queue with
          | none => rw [hq] at hnp; simp at hnp
          | some q =>
            rw [hq] at hnp
            simp only at hnp ⊢
            have hnp' : (enqueueCollect (logged W) config l aws c1).panicked = false := by
              by_cases hs : q.Success = true <;> simpa [hs] using hnp
            have := ih aws c1 hlen hnp'
            by_cases hs : q.Success = true <;> simp [hs, this, hlog]

/-- The context a pass over the records ends in. -/
theorem enqueueRecords_c {σ : Type} (W : World σ) (config : Config) (tags : Tags)
    (records : List TaskRecord) (c : Coroutine σ) :
    (enqueueRecords W config tags records c).c =
      if (enqueueCollect W config records (enqueueFanOut W tags records c).awaiting
            (enqueueFanOut W tags records c).c).panicked = true ∨
          (enqueueFanOut W tags records c).commands ++
            (enqueueCollect W config records (enqueueFanOut W tags records c).awaiting
              (enqueueFanOut W tags records c).c).commands = []
      then (enqueueCollect W config records (enqueueFanOut W tags records c).awaiting
            (enqueueFanOut W tags records c).c).c
      else (YieldAndAwait W (enqueueCollect W config records
          (enqueueFanOut W tags records c).awaiting (enqueueFanOut W tags records c).c).c
        (updateTasksSubmission tags ((enqueueFanOut W tags records c).commands ++
            (enqueueCollect W config records (enqueueFanOut W tags records c).awaiting
              (enqueueFanOut W tags records c).c).commands))).1 := by
  unfold enqueueRecords
  simp only
  by_cases hp : (enqueueCollect W config records (enqueueFanOut W tags records c).awaiting
      (enqueueFanOut W tags records c).c).panicked = true
  · simp [hp]
  · by_cases hc : (enqueueFanOut W tags records c).commands ++
        (enqueueCollect W config records (enqueueFanOut W tags records c).awaiting
          (enqueueFanOut W tags records c).c).commands = []
    · have hl : ¬ ((enqueueFanOut W tags records c).commands ++
        (enqueueCollect W config records (enqueueFanOut W tags records c).awaiting
          (enqueueFanOut W tags records c).c).commands).length > 0 := by
        rw [hc]; simp
      simp only [hp, hl, hc]
      simp
    · have hl : ((enqueueFanOut W tags records c).commands ++
        (enqueueCollect W config records (enqueueFanOut W tags records c).awaiting
          (enqueueFanOut W tags records c).c).commands).length > 0 :=
        List.length_pos.mpr hc
      simp only [hp, hl, hc]
      simp [updateTasksSubmission]
/-- After a lost update, the row is never again found Claimed with the request's counter. -/
theorem TaskLeavesClaimed.no_way_back {stores : Nat → Store} {id : String}
    (hev : TaskLeavesClaimed stores id) {k : Nat} {counter : Int} {a : TaskRecord}
    (ha : a ∈ stores k) (haid : a.Id = id) (has : a.State = .Claimed)
    (hac : a.Counter = counter)
    (hlost : ∀ b, b ∈ stores (k + 1) → b.Id = id → ¬ (b.State = .Claimed ∧ b.Counter = counter))
    {a2 : TaskRecord} (ha2 : a2 ∈ stores (k + 2)) (ha2id : a2.Id = id) :
    ¬ (a2.State = .Claimed ∧ a2.Counter = counter) := by
  intro ⟨hst2, hc2⟩
  obtain ⟨b, hb, hbid⟩ := hev.kept k (k + 1) a (by omega) ha haid
  have h1 := hev.counterMono k (k + 1) a b (by omega) ha hb haid hbid
  have h2 := hev.counterMono (k + 1) (k + 2) b a2 (by omega) hb ha2 hbid ha2id
  have hbc : b.Counter = counter := by omega
  have hbs : b.State ≠ .Claimed := fun h => hlost b hb hbid ⟨h, hbc⟩
  cases hterm : b.State.terminal with
  | true =>
    have := hev.terminalKept (k + 1) (k + 2) b a2 (by omega) hb ha2 hbid ha2id hterm
    rw [hst2] at this
    exact absurd this (by decide)
  | false =>
    have h3 := hev.leaveIncreases k (k + 1) a b (by omega) ha hb haid hbid has hbs hterm
    omega

theorem observedWorld_submitted (stores : Nat → Store) (failure : Nat → Option GoError)
    (clock : Nat → Int) (c : Coroutine ObservedState) (sub : Submission) :
    (YieldAndAwait (observedWorld stores failure clock) c sub).1.state.submitted =
      c.state.submitted + 1 := rfl

/-- A row read in the world with other writers is a row of the store observed then. -/
theorem observed_ReadRow (stores : Nat → Store) (failure : Nat → Option GoError)
    (clock : Nat → Int) (r : Request) (c c1 : Coroutine ObservedState) (t : Task)
    (h : ReadRow (observedWorld stores failure clock) c r c1 t) :
    c1.state.submitted = c.state.submitted + 1 ∧
    ∃ a, a ∈ stores c.state.submitted ∧ a.Id = r.CompleteTask.Id ∧ a.Task = .ok t := by
  obtain ⟨result, rec0, recs, ⟨completion, hya, hres⟩, -, hrec, hparse⟩ := h
  have hsub := observedWorld_submitted stores failure clock c (readTaskSubmission r)
  rw [hya] at hsub
  refine ⟨hsub, ?_⟩
  cases hf : failure c.state.submitted with
  | some err =>
    obtain ⟨comps, h⟩ := observedWorld_failure stores failure clock c.state c.time
      (readTaskSubmission r) err hf
    rw [hya] at h
    simp at h
  | none =>
    obtain ⟨comps, h⟩ := observedWorld_store stores failure clock c.state c.time r.Tags
      { Commands := [.ReadTask { Id := r.CompleteTask.Id }] } hf
    change YieldAndAwait _ c (readTaskSubmission r) = _ at h
    rw [hya] at h
    simp only [Store.execTransaction, Store.execCommand, Prod.mk.injEq, Except.ok.injEq] at h
    obtain ⟨-, hcomp⟩ := h
    rw [hcomp] at hres
    simp only [readTaskResult, Option.some.injEq] at hres
    rw [← hres] at hrec
    simp only [Store.readTask] at hrec
    have hmem : rec0 ∈ (stores c.state.submitted).filter
        (fun row => decide (row.Id = r.CompleteTask.Id)) := by
      rw [hrec]; exact List.mem_cons_self _ _
    obtain ⟨hm, hid⟩ := List.mem_filter.mp hmem
    exact ⟨rec0, hm, by simpa using hid, hparse⟩

/-- An update answered with rows-affected = 0 in the world with other writers found no row
Claimed with the request's counter. -/
theorem observed_update_lost (stores : Nat → Store) (failure : Nat → Option GoError)
    (clock : Nat → Int) (r : Request) (time : Int) (c1 c2 : Coroutine ObservedState)
    (res : Except GoError Completion)
    (hya : YieldAndAwait (observedWorld stores failure clock) c1
      (completeTaskSubmission r time) = (c2, res))
    (h0 : UpdateAnswered res 0) :
    ∀ b, b ∈ stores c1.state.submitted → b.Id = r.CompleteTask.Id →
      ¬ (b.State = .Claimed ∧ b.Counter = r.CompleteTask.Counter) := by
  obtain ⟨completion, result, rfl, hres, hrows⟩ := h0
  cases hf : failure c1.state.submitted with
  | some err =>
    obtain ⟨comps, h⟩ := observedWorld_failure stores failure clock c1.state c1.time
      (completeTaskSubmission r time) err hf
    rw [hya] at h
    simp at h
  | none =>
    obtain ⟨comps, h⟩ := observedWorld_store stores failure clock c1.state c1.time r.Tags
      { Commands := [.UpdateTask (completeTaskCommand r time)] } hf
    change YieldAndAwait _ c1 (completeTaskSubmission r time) = _ at h
    rw [hya] at h
    simp only [Store.execTransaction, Store.execCommand, Store.updateTask, Prod.mk.injEq,
      Except.ok.injEq] at h
    obtain ⟨-, hcomp⟩ := h
    rw [hcomp] at hres
    simp only [updateTaskResult, Option.some.injEq] at hres
    rw [← hres] at hrows
    simp only [Nat.cast_eq_zero, List.length_eq_zero] at hrows
    intro b hb hbid hbc
    have : b ∈ (stores c1.state.submitted).filter
        (fun row => (completeTaskCommand r time).guard row) := by
      apply List.mem_filter.mpr
      refine ⟨hb, ?_⟩
      simp [UpdateTaskCommand.guard, completeTaskCommand, hbid, hbc.1, hbc.2]
    rw [hrows] at this
    simp at this

theorem completeTaskSubmission_ne_read (r : Request) (time : Int) :
    completeTaskSubmission r time ≠ readTaskSubmission r := by
  simp [completeTaskSubmission, readTaskSubmission]

theorem readCount_read_cons (r : Request) (l : List Submission) :
    readCount r (readTaskSubmission r :: l) = readCount r l + 1 := by
  simp [readCount]

theorem readCount_update_cons (r : Request) (time : Int) (l : List Submission) :
    readCount r (completeTaskSubmission r time :: l) = readCount r l := by
  simp [readCount, completeTaskSubmission_ne_read]

/-- In the world with other writers, under the evolution of C19, the entry that follows a
lost update does not read a row Claimed with the request's counter. -/
theorem observed_no_second_update (stores : Nat → Store) (failure : Nat → Option GoError)
    (clock : Nat → Int) (r : Request) (hev : TaskLeavesClaimed stores r.CompleteTask.Id)
    (c c1 c2 : Coroutine ObservedState) (t : Task) (res : Except GoError Completion)
    (hp : Proceeds (observedWorld stores failure clock) c r c1 t c2 res)
    (h0 : UpdateAnswered res 0) (c1' : Coroutine ObservedState) (t' : Task)
    (hrow : ReadRow (observedWorld stores failure clock) c2 r c1' t') :
    ¬ (t'.State = .Claimed ∧ t'.Counter = r.CompleteTask.Counter) := by
  obtain ⟨hrow1, hst, hcnt, hup⟩ := hp
  obtain ⟨hs1, a, ha, haid, hat⟩ := observed_ReadRow stores failure clock r c c1 t hrow1
  obtain ⟨-, hts, htc, -, -⟩ := TaskRecord.Task_ok hat
  have hs2 : c2.state.submitted = c1.state.submitted + 1 := by
    have := observedWorld_submitted stores failure clock c1 (completeTaskSubmission r c1.time)
    rw [hup] at this
    exact this
  have hlost := observed_update_lost stores failure clock r c1.time c1 c2 res hup h0
  rw [hs1] at hlost
  obtain ⟨-, a2, ha2, ha2id, ha2t⟩ := observed_ReadRow stores failure clock r c2 c1' t' hrow
  obtain ⟨-, hts2, htc2, -, -⟩ := TaskRecord.Task_ok ha2t
  rw [hs2, hs1] at ha2
  rw [hts2, htc2]
  exact hev.no_way_back ha haid (hts ▸ hst) (htc ▸ hcnt) hlost ha2 ha2id

theorem contendedStores_leaves_claimed : TaskLeavesClaimed contendedStores "t1" where
  oneRow := contendedStores_evolves.oneRow
  kept := contendedStores_evolves.kept
  counterMono := contendedStores_evolves.counterMono
  leaveIncreases := by
    intro i j a b hij _ hb _ _ _ hnc _
    rw [contendedStores_succ (by omega)] at hb
    rw [List.mem_singleton.mp hb] at hnc
    exact absurd rfl hnc
  terminalKept := by
    intro i j a b _ ha _ _ _ hterm
    rcases contendedStores_mem ha with h | h <;> rw [h] at hterm <;>
      exact absurd hterm (by decide)

/-! ## Lemmas on the kernel loop -/

theorem constructorsOf_of_lt (n : Int) (m : List (Int × List Nat))
    (h : ∀ e ∈ m, n < e.1) : constructorsOf n m = [] := by
  have : (m.filter fun e => decide (e.1 = n)) = [] := by
    rw [List.filter_eq_nil_iff]
    intro e he
    have := h e he
    simp only [decide_eq_true_eq]
    omega
  simp [constructorsOf, this]

/-- `insertOnTick` keeps the keys in ascending order. -/
theorem insertOnTick_keys (n : Int) (ctor : Nat) (m : List (Int × List Nat))
    (h : (m.map Prod.fst).Pairwise (· < ·)) :
    ((insertOnTick n ctor m).map Prod.fst).Pairwise (· < ·) ∧
    ∀ e ∈ insertOnTick n ctor m, e.1 = n ∨ ∃ e' ∈ m, e'.1 = e.1 := by
  induction m with
  | nil => simp [insertOnTick]
  | cons hd rest ih =>
    obtain ⟨key, ctors⟩ := hd
    simp only [List.map_cons, List.pairwise_cons] at h
    obtain ⟨hhd, hrest⟩ := h
    unfold insertOnTick
    by_cases h1 : n = key
    · simp only [h1, if_true]
      refine ⟨by simp only [List.map_cons, List.pairwise_cons]; exact ⟨hhd, hrest⟩, ?_⟩
      intro e he
      simp only [List.mem_cons] at he
      rcases he with rfl | he
      · exact Or.inl rfl
      · exact Or.inr ⟨e, List.mem_cons_of_mem _ he, rfl⟩
    · by_cases h2 : n < key
      · simp only [h1, h2, if_false, if_true]
        refine ⟨?_, ?_⟩
        · simp only [List.map_cons, List.pairwise_cons]
          refine ⟨?_, hhd, hrest⟩
          intro a ha
          simp only [List.mem_cons] at ha
          rcases ha with rfl | ha
          · exact h2
          · exact lt_trans h2 (hhd a ha)
        · intro e he
          simp only [List.mem_cons] at he
          rcases he with rfl | rfl | he
          · exact Or.inl rfl
          · exact Or.inr ⟨_, List.mem_cons_self _ _, rfl⟩
          · exact Or.inr ⟨e, List.mem_cons_of_mem _ he, rfl⟩
      · simp only [h1, h2, if_false]
        obtain ⟨ih1, ih2⟩ := ih hrest
        refine ⟨?_, ?_⟩
        · simp only [List.map_cons, List.pairwise_cons]
          refine ⟨?_, ih1⟩
          intro a ha
          obtain ⟨e, he, rfl⟩ := List.mem_map.mp ha
          rcases ih2 e he with h | ⟨e', he', h⟩
          · rw [h]; omega
          · rw [← h]; exact hhd _ (List.mem_map_of_mem _ he')
        · intro e he
          simp only [List.mem_cons] at he
          rcases he with rfl | he
          · exact Or.inr ⟨_, List.mem_cons_self _ _, rfl⟩
          · rcases ih2 e he with h | ⟨e', he', h⟩
            · exact Or.inl h
            · exact Or.inr ⟨e', List.mem_cons_of_mem _ he', h⟩

/-- `insertOnTick` appends the constructor to the binding of its period and leaves the other
bindings as they are. -/
theorem constructorsOf_insertOnTick (n : Int) (ctor : Nat) (p : Int)
    (m : List (Int × List Nat)) (h : (m.map Prod.fst).Pairwise (· < ·)) :
    constructorsOf p (insertOnTick n ctor m) =
      if p = n then constructorsOf p m ++ [ctor] else constructorsOf p m := by
  induction m with
  | nil =>
    by_cases hp : p = n
    · simp [insertOnTick, constructorsOf, hp]
    · have : ¬ n = p := fun h => hp h.symm
      simp [insertOnTick, constructorsOf, hp, this]
  | cons hd rest ih =>
    obtain ⟨key, ctors⟩ := hd
    simp only [List.map_cons, List.pairwise_cons] at h
    obtain ⟨hhd, hrest⟩ := h
    have hgt : ∀ e ∈ rest, key < e.1 := fun e he => hhd _ (List.mem_map_of_mem _ he)
    unfold insertOnTick
    by_cases h1 : n = key
    · subst h1
      have hnil : constructorsOf n rest = [] := constructorsOf_of_lt n rest hgt
      by_cases hp : p = n
      · subst hp
        simp only [constructorsOf] at hnil ⊢
        simp [hnil]
      · have : ¬ n = p := fun h => hp h.symm
        simp [constructorsOf, hp, this]
    · by_cases h2 : n < key
      · simp only [h1, h2, if_false, if_true]
        by_cases hp : p = n
        · subst hp
          have hnil : constructorsOf p ((key, ctors) :: rest) = [] := by
            apply constructorsOf_of_lt
            intro e he
            simp only [List.mem_cons] at he
            rcases he with rfl | he
            · exact h2
            · exact lt_trans h2 (hgt e he)
          simp only [constructorsOf] at hnil ⊢
          simp [hnil]
        · have : ¬ n = p := fun h => hp h.symm
          simp [constructorsOf, hp, this]
      · simp only [h1, h2, if_false]
        have ih' := ih hrest
        by_cases hk : key = p
        · have hpn : ¬ p = n := fun h => h1 (h.symm.trans hk.symm)
          simp only [constructorsOf, hpn, if_false] at ih' ⊢
          simp [hk, ih']
        · simp only [constructorsOf] at ih' ⊢
          simp [hk, ih']

/-- The bindings after a list of registrations: keys in ascending order, all of them
registered periods, and under each period its constructors in registration order. -/
theorem onTickOf_spec (regs : List (Int × Nat)) :
    ((onTickOf regs).map Prod.fst).Pairwise (· < ·) ∧
    (∀ e ∈ onTickOf regs, ∃ reg ∈ regs, reg.1 = e.1) ∧
    ∀ p, constructorsOf p (onTickOf regs) = (regs.filter fun reg => decide (reg.1 = p)).map Prod.snd := by
  have key : ∀ (regs : List (Int × Nat)) (m : List (Int × List Nat)),
      (m.map Prod.fst).Pairwise (· < ·) →
      ((regs.foldl (fun m reg => insertOnTick reg.1 reg.2 m) m).map Prod.fst).Pairwise (· < ·) ∧
      (∀ e ∈ regs.foldl (fun m reg => insertOnTick reg.1 reg.2 m) m,
        (∃ reg ∈ regs, reg.1 = e.1) ∨ ∃ e' ∈ m, e'.1 = e.1) ∧
      ∀ p, constructorsOf p (regs.foldl (fun m reg => insertOnTick reg.1 reg.2 m) m) =
        constructorsOf p m ++ (regs.filter fun reg => decide (reg.1 = p)).map Prod.snd := by
    intro regs
    induction regs with
    | nil =>
      intro m hm
      exact ⟨hm, fun e he => Or.inr ⟨e, he, rfl⟩, fun p => by simp⟩
    | cons reg regs ih =>
      intro m hm
      obtain ⟨hs, hk⟩ := insertOnTick_keys reg.1 reg.2 m hm
      obtain ⟨ih1, ih2, ih3⟩ := ih (insertOnTick reg.1 reg.2 m) hs
      simp only [List.foldl_cons]
      refine ⟨ih1, ?_, ?_⟩
      · intro e he
        rcases ih2 e he with ⟨r, hr, h⟩ | ⟨e', he', h⟩
        · exact Or.inl ⟨r, List.mem_cons_of_mem _ hr, h⟩
        · rcases hk e' he' with h' | ⟨e'', he'', h'⟩
          · exact Or.inl ⟨reg, List.mem_cons_self _ _, h'.symm.trans h⟩
          · exact Or.inr ⟨e'', he'', h'.trans h⟩
      · intro p
        rw [ih3 p, constructorsOf_insertOnTick reg.1 reg.2 p m hm]
        by_cases hp : p = reg.1
        · have : reg.1 = p := hp.symm
          simp [hp, List.filter_cons]
        · have : ¬ reg.1 = p := fun h => hp h.symm
          simp [hp, this, List.filter_cons]
  obtain ⟨h1, h2, h3⟩ := key regs [] (by simp)
  refine ⟨h1, ?_, ?_⟩
  · intro e he
    rcases h2 e he with h | ⟨e', he', -⟩
    · exact h
    · simp at he'
  · intro p
    have := h3 p
    simpa [constructorsOf] using this

theorem tickAdds_append (l1 l2 : List SchedulerCall) :
    tickAdds (l1 ++ l2) = tickAdds l1 ++ tickAdds l2 := by
  simp [tickAdds]

/-- The request loop adds no coroutine of a tick constructor. -/
theorem tickAdds_dequeueLoop (s : System) (t : Int) (dequeued : List SQE) :
    tickAdds (System.dequeueLoop s t dequeued).1 = [] := by
  induction dequeued with
  | nil => rfl
  | cons sqe rest ih =>
    unfold System.dequeueLoop
    split
    · simpa [tickAdds] using ih
    · rfl

/-- The tick loop over bindings with keys other than 0: for each binding whose key divides
the tick counter, one coroutine per constructor, in order. -/
theorem tickLoop_spec (s : System) (t : Int) (m : List (Int × List Nat))
    (h : ∀ e ∈ m, e.1 ≠ 0) :
    (System.tickLoop s t m).2 = false ∧
    tickAdds (System.tickLoop s t m).1 = m.flatMap fun e =>
      if Int.tmod s.ticks e.1 = 0 then e.2.map fun ctor => (ctor, t, s.cfg) else [] := by
  induction m with
  | nil => exact ⟨rfl, rfl⟩
  | cons hd rest ih =>
    obtain ⟨key, ctors⟩ := hd
    have hk : key ≠ 0 := h (key, ctors) (List.mem_cons_self _ _)
    obtain ⟨ih1, ih2⟩ := ih fun e he => h e (List.mem_cons_of_mem _ he)
    have hmap : ∀ l : List Nat,
        tickAdds (l.map fun ctor => SchedulerCall.AddTick ctor t s.cfg) =
          l.map fun ctor => (ctor, t, s.cfg) := by
      intro l
      induction l with
      | nil => rfl
      | cons x l ihl => simpa [tickAdds] using ihl
    refine ⟨?_, ?_⟩
    · simp only [System.tickLoop, hk, if_false]
      exact ih1
    · simp only [System.tickLoop, hk, if_false, tickAdds_append, List.flatMap_cons, ih2]
      by_cases hd : Int.tmod s.ticks key = 0
      · simp [hd, hmap]
      · simp [hd, tickAdds]

theorem flatMap_congr_mem {α β : Type} (l : List α) (f g : α → List β)
    (h : ∀ a ∈ l, f a = g a) : l.flatMap f = l.flatMap g := by
  induction l with
  | nil => rfl
  | cons x l ih =>
    rw [List.flatMap_cons, List.flatMap_cons, h x (List.mem_cons_self _ _),
      ih fun a ha => h a (List.mem_cons_of_mem _ ha)]

/-! ## Lemmas on transactions of guarded updates -/

/-- With one row per id, the ids of the rows are pairwise distinct. -/
theorem Store.OneRowPerId.nodup {s : Store} (h : s.OneRowPerId) :
    (s.map fun row => row.Id).Nodup := by
  induction s with
  | nil => simp
  | cons x rest ih =>
    have hx := h x.Id
    simp only [List.filter_cons, decide_True, if_true, List.length_cons] at hx
    have hnil : (rest.filter fun row => decide (row.Id = x.Id)) = [] :=
      List.length_eq_zero.mp (by omega)
    have hrest : Store.OneRowPerId rest := by
      intro id
      have := h id
      simp only [List.filter_cons] at this
      split at this
      · simp only [List.length_cons] at this; omega
      · exact this
    simp only [List.map_cons, List.nodup_cons]
    refine ⟨?_, ih hrest⟩
    intro hmem
    obtain ⟨row, hrow, hid⟩ := List.mem_map.mp hmem
    have : row ∈ rest.filter fun row => decide (row.Id = x.Id) :=
      List.mem_filter.mpr ⟨hrow, by simpa using hid⟩
    rw [hnil] at this
    simp at this

/-- Pairwise distinct ids give one row per id. -/
theorem Store.OneRowPerId.of_nodup {s : Store} (h : (s.map fun row => row.Id).Nodup) :
    s.OneRowPerId := by
  intro id
  induction s with
  | nil => simp
  | cons x rest ih =>
    simp only [List.map_cons, List.nodup_cons] at h
    obtain ⟨hx, hrest⟩ := h
    simp only [List.filter_cons]
    split
    · rename_i hid
      simp only [decide_eq_true_eq] at hid
      have hnil : (rest.filter fun row => decide (row.Id = id)) = [] := by
        rw [List.filter_eq_nil_iff]
        intro row hrow
        simp only [decide_eq_true_eq]
        intro hrid
        exact hx (List.mem_map.mpr ⟨row, hrow, hrid.trans hid.symm⟩)
      simp [hnil]
    · exact ih hrest

/-- An update keeps the ids of the rows. -/
theorem Store.updateTask_ids (s : Store) (u : UpdateTaskCommand) :
    ((s.updateTask u).1.map fun row => row.Id) = s.map fun row => row.Id := by
  simp only [Store.updateTask, List.map_map]
  apply List.map_congr_left
  intro row _
  simp only [Function.comp]
  split <;> rfl

/-- A transaction keeps the ids of the rows. -/
theorem Store.execTransaction_ids (s : Store) (cmds : List Command) :
    ((s.execTransaction cmds).1.map fun row => row.Id) = s.map fun row => row.Id := by
  induction cmds generalizing s with
  | nil => rfl
  | cons cmd rest ih =>
    simp only [Store.execTransaction]
    cases cmd with
    | ReadTask c => simp only [Store.execCommand]; exact ih s
    | ReadTasks c => simp only [Store.execCommand]; exact ih s
    | UpdateTask u =>
      simp only [Store.execCommand]
      rw [ih, Store.updateTask_ids]

theorem Store.execTransaction_append (s : Store) (l1 l2 : List Command) :
    (s.execTransaction (l1 ++ l2)).1 = ((s.execTransaction l1).1.execTransaction l2).1 := by
  induction l1 generalizing s with
  | nil => rfl
  | cons cmd rest ih =>
    simp only [List.cons_append, Store.execTransaction]
    exact ih _

theorem Store.execTransaction_update_cons (s : Store) (u : UpdateTaskCommand)
    (rest : List Command) :
    (s.execTransaction (.UpdateTask u :: rest)).1 =
      ((s.updateTask u).1.execTransaction rest).1 := by
  simp [Store.execTransaction, Store.execCommand]

/-- A transaction of updates that write their own guard counter keeps the counter of the
rows of an id. -/
theorem Store.execTransaction_counter (id : String) (k : Int) (cmds : List Command)
    (s : Store)
    (hc : ∀ cmd ∈ cmds, ∃ u, cmd = .UpdateTask u ∧ u.Counter = u.CurrentCounter)
    (h : ∀ row ∈ s, row.Id = id → row.Counter = k) :
    ∀ row ∈ (s.execTransaction cmds).1, row.Id = id → row.Counter = k := by
  induction cmds generalizing s with
  | nil => exact h
  | cons cmd rest ih =>
    obtain ⟨u, rfl, hu⟩ := hc _ (List.mem_cons_self _ _)
    rw [Store.execTransaction_update_cons]
    apply ih _ fun c hcm => hc c (List.mem_cons_of_mem _ hcm)
    intro row hrow hid
    simp only [Store.updateTask, List.mem_map] at hrow
    obtain ⟨row0, hmem0, rfl⟩ := hrow
    split at hid
    · rename_i hg
      have := h row0 hmem0 hid
      obtain ⟨-, -, hcnt⟩ := (guard_iff u row0).mp hg
      simp only [hg, if_true, UpdateTaskCommand.write]
      rw [hu, ← hcnt]
      exact this
    · rename_i hg
      simp only [hg]
      exact h row0 hmem0 hid

/-- A transaction of updates guarded by `[Init]` never brings a row back to Init. -/
theorem Store.execTransaction_not_init (id : String) (cmds : List Command) (s : Store)
    (hc : ∀ cmd ∈ cmds, ∃ u, cmd = .UpdateTask u ∧ u.CurrentStates = [.Init])
    (h : ∀ row ∈ s, row.Id = id → row.State ≠ .Init) :
    ∀ row ∈ (s.execTransaction cmds).1, row.Id = id → row.State ≠ .Init := by
  induction cmds generalizing s with
  | nil => exact h
  | cons cmd rest ih =>
    obtain ⟨u, rfl, hu⟩ := hc _ (List.mem_cons_self _ _)
    rw [Store.execTransaction_update_cons]
    apply ih _ fun c hcm => hc c (List.mem_cons_of_mem _ hcm)
    intro row hrow hid
    simp only [Store.updateTask, List.mem_map] at hrow
    obtain ⟨row0, hmem0, rfl⟩ := hrow
    split at hid
    · rename_i hg
      obtain ⟨-, hst, -⟩ := (guard_iff u row0).mp hg
      rw [hu, List.mem_singleton] at hst
      exact absurd hst (h row0 hmem0 hid)
    · rename_i hg
      simp only [hg]
      exact h row0 hmem0 hid

/-- An update to Enqueued guarded by `[Init]` and by the counter the rows of its id have
leaves no row of that id in state Init. -/
theorem Store.updateTask_enqueued (u : UpdateTaskCommand) (s : Store)
    (hs : u.CurrentStates = [.Init]) (hst : u.State = .Enqueued)
    (h : ∀ row ∈ s, row.Id = u.Id → row.Counter = u.CurrentCounter) :
    ∀ row ∈ (s.updateTask u).1, row.Id = u.Id → row.State ≠ .Init := by
  intro row hrow hid
  simp only [Store.updateTask, List.mem_map] at hrow
  obtain ⟨row0, hmem0, rfl⟩ := hrow
  split at hid
  · rename_i hg
    simp only [hg, if_true, UpdateTaskCommand.write, hst]
    decide
  · rename_i hg
    simp only [hg]
    intro hinit
    simp only [Bool.false_eq_true, if_false] at hinit
    apply hg
    rw [guard_iff]
    exact ⟨hid, by rw [hs, hinit]; exact List.mem_singleton.mpr rfl, h row0 hmem0 hid⟩

/-! ## A pass in a world in which the handler is the only writer of the store -/

/-- What the world made of one store answers to the read of a pass. -/
theorem storeWorld_readTasks_eq (clock : Nat → Int)
    (queue : Handle → Task → Except GoError Bool) (config : Config) (tags : Tags)
    (s : StoreState) (now : Int) :
    YieldAndAwait (storeWorld clock queue) ⟨s, now⟩ (readTasksSubmission config tags now) =
      (⟨{ rows := s.rows, resumed := s.resumed + 1,
          completions := s.completions ++ [.ok { Store := some { Results :=
            [passReadResult config s.rows now] }, Queue := none }] },
        clock (s.resumed + 1)⟩,
       .ok { Store := some { Results := [passReadResult config s.rows now] }, Queue := none }) := by
  simp [YieldAndAwait, Yield, Await, storeWorld, readTasksSubmission, Store.execTransaction,
    Store.execCommand, List.getD_eq_getElem?_getD, passReadResult]

/-- In `storeWorld` the read of a pass is answered with the rows in state Init whose timeout
is still to come, up to the batch size, and leaves the table as it is. -/
theorem storeWorld_readTasks (clock : Nat → Int) (queue : Handle → Task → Except GoError Bool)
    (config : Config) (tags : Tags) (s : StoreState) (now : Int) :
    ∃ c1, c1.state.rows = s.rows ∧
      ReadTasksAnswered (storeWorld clock queue) config tags ⟨s, now⟩ c1
        (s.rows.readTasks { States := [.Init], Time := now, Limit := config.TaskBatchSize }).Records :=
  ⟨_, rfl, _, passReadResult config s.rows now, _,
    storeWorld_readTasks_eq clock queue config tags s now, rfl, rfl, rfl⟩

theorem storeWorld_Yield_queue (clock : Nat → Int) (queue : Handle → Task → Except GoError Bool)
    (c : Coroutine StoreState) (tags : Tags) (t : Task) :
    (Yield (storeWorld clock queue) c (queueSubmission tags t)).1.state.rows = c.state.rows := rfl

theorem storeWorld_Await (clock : Nat → Int) (queue : Handle → Task → Except GoError Bool)
    (c : Coroutine StoreState) (h : Handle) :
    (Await (storeWorld clock queue) c h).1.state.rows = c.state.rows := rfl

theorem storeWorld_transaction (clock : Nat → Int) (queue : Handle → Task → Except GoError Bool)
    (c : Coroutine StoreState) (tags : Tags) (commands : List Command) :
    (YieldAndAwait (storeWorld clock queue) c (updateTasksSubmission tags commands)).1.state.rows =
      (c.state.rows.execTransaction commands).1 := rfl

/-- The first loop leaves the table as it is. -/
theorem storeWorld_enqueueFanOut (clock : Nat → Int)
    (queue : Handle → Task → Except GoError Bool) (tags : Tags) (records : List TaskRecord)
    (c : Coroutine StoreState) :
    (enqueueFanOut (storeWorld clock queue) tags records c).c.state.rows = c.state.rows := by
  induction records generalizing c with
  | nil => rfl
  | cons rec rest ih =>
    unfold enqueueFanOut
    split
    · exact ih c
    · split
      · simp only
        rw [ih]
        rfl
      · exact ih c

/-- The second loop leaves the table as it is. -/
theorem storeWorld_enqueueCollect (clock : Nat → Int)
    (queue : Handle → Task → Except GoError Bool) (config : Config)
    (records : List TaskRecord) (awaiting : List (Option Handle)) (c : Coroutine StoreState) :
    (enqueueCollect (storeWorld clock queue) config records awaiting c).c.state.rows =
      c.state.rows := by
  induction records generalizing awaiting c with
  | nil => cases awaiting <;> rfl
  | cons rec rest ih =>
    cases awaiting with
    | nil => rfl
    | cons a hs =>
      cases a with
      | none => simp only [enqueueCollect]; exact ih hs c
      | some h =>
        have hA := storeWorld_Await clock queue c h
        simp only [enqueueCollect]
        cases hres : Await (storeWorld clock queue) c h with
        | mk c1 res =>
          rw [hres] at hA
          cases res with
          | error err => simp only; rw [ih]; exact hA
          | ok completion =>
            simp only
            cases completion.Queue with
            | none => exact hA
            | some q =>
              simp only
              split <;> (simp only; rw [ih]; exact hA)

/-- The commands of the first loop move no task to Enqueued. -/
theorem enqueueFanOut_enqueuedIds {σ : Type} (W : World σ) (tags : Tags)
    (records : List TaskRecord) (c : Coroutine σ) :
    enqueuedIds (enqueueFanOut W tags records c).commands = [] := by
  induction records generalizing c with
  | nil => rfl
  | cons rec rest ih =>
    unfold enqueueFanOut
    split
    · exact ih c
    · split
      · exact ih _
      · simp only [enqueuedIds, List.filterMap_cons, timedoutCommand]
        exact ih c

/-- The commands of the second loop move each record to Enqueued at most once: their ids are
ids of records, in record order. -/
theorem enqueueCollect_enqueuedIds {σ : Type} (W : World σ) (config : Config)
    (records : List TaskRecord) (awaiting : List (Option Handle)) (c : Coroutine σ) :
    (enqueuedIds (enqueueCollect W config records awaiting c).commands).Sublist
      (records.map fun rec => rec.Id) := by
  induction records generalizing awaiting c with
  | nil => cases awaiting <;> simp [enqueueCollect, enqueuedIds]
  | cons rec rest ih =>
    cases awaiting with
    | nil => simp [enqueueCollect, enqueuedIds]
    | cons a hs =>
      cases a with
      | none =>
        simp only [enqueueCollect, List.map_cons]
        exact (ih hs c).cons _
      | some h =>
        simp only [enqueueCollect, List.map_cons]
        cases hres : Await W c h with
        | mk c1 res =>
          cases res with
          | error err => exact (ih hs c1).cons _
          | ok completion =>
            simp only
            cases completion.Queue with
            | none => simp [enqueuedIds]
            | some q =>
              simp only
              split
              · simp only [enqueuedIds, List.filterMap_cons, enqueuedCommand, if_true]
                exact (ih hs c1).cons₂ _
              · simp only [enqueuedIds, List.filterMap_cons, reenqueueCommand]
                exact (ih hs c1).cons _

theorem enqueuedIds_append (l1 l2 : List Command) :
    enqueuedIds (l1 ++ l2) = enqueuedIds l1 ++ enqueuedIds l2 := by
  simp [enqueuedIds]

/-- Counting the updates to Enqueued of an id among the updates of a transaction. -/
theorem enqueued_count (tags : Tags) (id : String) (commands : List Command) :
    ((Submission.Store tags { Commands := commands }).updates.filter fun u =>
      decide (u.State = .Enqueued ∧ u.Id = id)).length = (enqueuedIds commands).count id := by
  simp only [Bool.decide_and]
  induction commands with
  | nil => rfl
  | cons cmd rest ih =>
    cases cmd with
    | ReadTask c => simpa [Submission.updates, enqueuedIds] using ih
    | ReadTasks c => simpa [Submission.updates, enqueuedIds] using ih
    | UpdateTask u =>
      rw [store_updates_cons]
      simp only [enqueuedIds, List.filterMap_cons] at ih ⊢
      by_cases hst : u.State = .Enqueued
      · by_cases hid : u.Id = id
        · simp [hst, hid, List.filter_cons, ih]
        · simp [hst, hid, List.filter_cons, ih, List.count_cons]
      · simp [hst, List.filter_cons, ih]

/-- The records a read returns are rows of the table, in table order, and have one of the
states asked for. -/
theorem Store.readTasks_records (s : Store) (cmd : ReadTasksCommand) :
    (s.readTasks cmd).Records.Sublist s ∧
    ∀ rec ∈ (s.readTasks cmd).Records, rec ∈ s ∧ rec.State ∈ cmd.States ∧ rec.Timeout > cmd.Time := by
  constructor
  · exact (List.take_sublist _ _).trans (List.filter_sublist _)
  · intro rec hrec
    have := List.mem_filter.mp (List.mem_of_mem_take hrec)
    simpa using this

/-- A pass in `storeWorld`, summed up: the table afterwards is the table before with the
commands of the pass run as one transaction (none if the pass submitted no update); the
updates to Enqueued are counted by `enqueuedIds`, which are ids of records read, each record
at most once; every command is guarded by `[Init]` and by the counter it writes, and an
update to Enqueued carries the id and the counter of a record read. -/
theorem storeWorld_pass (clock : Nat → Int) (queue : Handle → Task → Except GoError Bool)
    (config : Config) (tags : Tags) (s : StoreState) (now : Int) :
    ∃ commands : List Command,
      (EnqueueTasks (storeWorld clock queue) config tags ⟨s, now⟩).c.state.rows =
        (s.rows.execTransaction commands).1 ∧
      (∀ id, ((updateCommands (EnqueueTasks (storeWorld clock queue) config tags ⟨s, now⟩).subs).filter
          fun u => decide (u.State = .Enqueued ∧ u.Id = id)).length =
        (enqueuedIds commands).count id) ∧
      (enqueuedIds commands).Sublist
        ((s.rows.readTasks { States := [.Init], Time := now, Limit := config.TaskBatchSize }).Records.map
          fun rec => rec.Id) ∧
      ∀ cmd ∈ commands, ∃ u, cmd = .UpdateTask u ∧ u.CurrentStates = [.Init] ∧
        u.Counter = u.CurrentCounter ∧
        (u.State = .Enqueued → ∃ rec ∈ (s.rows.readTasks
            { States := [.Init], Time := now, Limit := config.TaskBatchSize }).Records,
          u.Id = rec.Id ∧ u.CurrentCounter = rec.Counter) := by
  obtain ⟨c1, hrows, hread⟩ := storeWorld_readTasks clock queue config tags s now
  obtain ⟨hsubs, -, hc⟩ := EnqueueTasks_of_read _ config tags _ c1 _ hread
  generalize (s.rows.readTasks
    { States := [.Init], Time := now, Limit := config.TaskBatchSize }).Records = records at *
  rw [hsubs, hc, enqueueRecords_subs, enqueueRecords_c]
  have hq := updateCommands_of_queue tags _
    (enqueueFanOut_subs (storeWorld clock queue) tags records c1)
  have hP := enqueueFanOut_commands (storeWorld clock queue) tags records c1
  have hQ := enqueueCollect_commands (storeWorld clock queue) config records
    (enqueueFanOut (storeWorld clock queue) tags records c1).awaiting
    (enqueueFanOut (storeWorld clock queue) tags records c1).c
  have hPid := enqueueFanOut_enqueuedIds (storeWorld clock queue) tags records c1
  have hQid := enqueueCollect_enqueuedIds (storeWorld clock queue) config records
    (enqueueFanOut (storeWorld clock queue) tags records c1).awaiting
    (enqueueFanOut (storeWorld clock queue) tags records c1).c
  have hQrows := storeWorld_enqueueCollect clock queue config records
    (enqueueFanOut (storeWorld clock queue) tags records c1).awaiting
    (enqueueFanOut (storeWorld clock queue) tags records c1).c
  rw [storeWorld_enqueueFanOut, hrows] at hQrows
  generalize (enqueueFanOut (storeWorld clock queue) tags records c1) = P at *
  generalize (enqueueCollect (storeWorld clock queue) config records P.awaiting P.c) = Q at *
  by_cases hcase : Q.panicked = true ∨ P.commands ++ Q.commands = []
  · refine ⟨[], ?_, ?_, ?_, ?_⟩
    · rw [if_pos hcase]; exact hQrows
    · intro id
      rw [if_pos hcase, List.append_nil, updateCommands_cons, hq]
      rfl
    · exact List.nil_sublist _
    · intro cmd h; simp at h
  · refine ⟨P.commands ++ Q.commands, ?_, ?_, ?_, ?_⟩
    · rw [if_neg hcase]
      exact (storeWorld_transaction clock queue Q.c tags _).trans (by rw [hQrows])
    · intro id
      rw [if_neg hcase, updateCommands_cons, updateCommands_append, hq]
      have : updateCommands [Submission.Store tags { Commands := P.commands ++ Q.commands }] =
          (Submission.Store tags { Commands := P.commands ++ Q.commands }).updates := by
        simp [updateCommands]
      rw [this]
      have hr : (readTasksSubmission config tags ({ state := s, time := now } :
          Coroutine StoreState).time).updates = [] := rfl
      rw [hr]
      exact enqueued_count tags id _
    · rw [enqueuedIds_append, hPid]
      exact hQid
    · intro cmd hcmd
      rcases List.mem_append.mp hcmd with h | h
      · obtain ⟨rec, t, -, -, -, rfl⟩ := hP cmd h
        exact ⟨_, rfl, rfl, rfl, fun hst => by simp [timedoutCommand] at hst⟩
      · obtain ⟨rec, t, hrec, rfl | rfl⟩ := hQ cmd h
        · exact ⟨_, rfl, rfl, rfl, fun _ => ⟨rec, hrec, rfl, rfl⟩⟩
        · exact ⟨_, rfl, rfl, rfl, fun hst => by simp [reenqueueCommand] at hst⟩
theorem mem_enqueuedIds {id : String} {commands : List Command} :
    id ∈ enqueuedIds commands ↔
      ∃ u, .UpdateTask u ∈ commands ∧ u.State = .Enqueued ∧ u.Id = id := by
  simp only [enqueuedIds, List.mem_filterMap]
  constructor
  · rintro ⟨cmd, hm, hc⟩
    cases cmd with
    | ReadTask c => simp at hc
    | ReadTasks c => simp at hc
    | UpdateTask u =>
      simp only at hc
      split at hc
      · rename_i hst
        exact ⟨u, hm, hst, by simpa using hc⟩
      · simp at hc
  · rintro ⟨u, hm, hst, hid⟩
    exact ⟨_, hm, by simp [hst, hid]⟩

/-- A transaction of commands guarded by `[Init]` and by the counter they write, one of which
moves the id to Enqueued with the counter the rows of the id have, leaves no row of the id
in state Init. -/
theorem Store.execTransaction_enqueued (s : Store) (commands : List Command)
    (u : UpdateTaskCommand) (hu : .UpdateTask u ∈ commands) (hst : u.State = .Enqueued)
    (hshape : ∀ cmd ∈ commands, ∃ v, cmd = .UpdateTask v ∧ v.CurrentStates = [.Init] ∧
      v.Counter = v.CurrentCounter)
    (hcounter : ∀ row ∈ s, row.Id = u.Id → row.Counter = u.CurrentCounter) :
    ∀ row ∈ (s.execTransaction commands).1, row.Id = u.Id → row.State ≠ .Init := by
  obtain ⟨A, B, rfl⟩ := List.append_of_mem hu
  rw [Store.execTransaction_append, Store.execTransaction_update_cons]
  have hA := Store.execTransaction_counter u.Id u.CurrentCounter A s
    (fun cmd h => by
      obtain ⟨v, hv, -, hc⟩ := hshape cmd (List.mem_append_left _ h)
      exact ⟨v, hv, hc⟩) hcounter
  have hus : u.CurrentStates = [.Init] := by
    obtain ⟨v, hv, hs, -⟩ := hshape (.UpdateTask u)
      (List.mem_append_right _ (List.mem_cons_self _ _))
    cases hv
    exact hs
  have hU := Store.updateTask_enqueued u _ hus hst hA
  exact Store.execTransaction_not_init u.Id B _
    (fun cmd h => by
      obtain ⟨v, hv, hs, -⟩ := hshape cmd (List.mem_append_right _ (List.mem_cons_of_mem _ h))
      exact ⟨v, hv, hs⟩) hU
/-! ## Lemmas on the entries of `CompleteTask` -/

/-- An entry whose update is lost comes before the entries of the tail call. -/
theorem Enters.after_lost_update {σ : Type} {W : World σ} {r : Request}
    {c c1 c2 c0 : Coroutine σ} {t : Task} {res : Except GoError Completion}
    {pre : List Submission} (hp : Proceeds W c r c1 t c2 res) (h0 : UpdateAnswered res 0)
    (h : Enters W r c2 c0 pre) :
    Enters W r c c0 (readTaskSubmission r :: completeTaskSubmission r c1.time :: pre) := by
  induction h with
  | call => exact Enters.again Enters.call hp h0
  | again _ hp' h0' ih => exact Enters.again ih hp' h0'

/-- The entry contexts of a run are fixed by the number of submissions made before. -/
theorem Enters.unique {σ : Type} {W : World σ} {r : Request} {c a b : Coroutine σ}
    {pa pb : List Submission} (ha : Enters W r c a pa) (hb : Enters W r c b pb)
    (hlen : pa.length = pb.length) : a = b ∧ pa = pb := by
  induction ha generalizing b pb with
  | call =>
    cases hb with
    | call => exact ⟨rfl, rfl⟩
    | again _ _ _ => simp at hlen
  | @again a0 a1 a2 pa0 ta resa ha0 hpa _ ih =>
    cases hb with
    | call => simp at hlen
    | @again b0 b1 b2 pb0 tb resb hb0 hpb _ =>
      have hl : pa0.length = pb0.length := by simpa using hlen
      obtain ⟨rfl, rfl⟩ := ih hb0 hl
      obtain ⟨⟨_, _, _, ⟨_, hya, _⟩, _⟩, _, _, hua⟩ := hpa
      obtain ⟨⟨_, _, _, ⟨_, hyb, _⟩, _⟩, _, _, hub⟩ := hpb
      rw [hya] at hyb
      cases hyb
      rw [hua] at hub
      cases hub
      exact ⟨rfl, rfl⟩

/-- Where the updates of a run come from: an update is the submission that follows the read
of an entry of the run, which read a Claimed row with the request's counter, and it is
built from the request and from the time read after that read. -/
theorem CompleteTask_update_entered {σ : Type} (W : World σ) (fuel : Nat) (c : Coroutine σ)
    (r : Request) (pre : List Submission) (sub : Submission) (post : List Submission)
    (u : UpdateTaskCommand)
    (hsubs : (CompleteTask W fuel c r).subs = pre ++ sub :: post) (hu : u ∈ sub.updates) :
    ∃ pre' c0 c1 t c2 res, Enters W r c c0 pre' ∧ Proceeds W c0 r c1 t c2 res ∧
      pre = pre' ++ [readTaskSubmission r] ∧ sub = completeTaskSubmission r c1.time ∧
      u = completeTaskCommand r c1.time := by
  induction fuel generalizing c pre with
  | zero => simp [CompleteTask] at hsubs
  | succ n ih =>
    rcases CompleteTask_step W n c r with h | h | h
    · obtain ⟨c1, res, -, -, hs, -⟩ := h
      rw [hs] at hsubs
      cases pre with
      | nil =>
        simp only [List.nil_append, List.cons.injEq] at hsubs
        rw [← hsubs.1, readTaskSubmission_updates] at hu
        simp at hu
      | cons x pre' => simp at hsubs
    · obtain ⟨c1, t, c2, res, hp, -, hs, -⟩ := h
      rw [hs] at hsubs
      cases pre with
      | nil =>
        simp only [List.nil_append, List.cons.injEq] at hsubs
        rw [← hsubs.1, readTaskSubmission_updates] at hu
        simp at hu
      | cons x pre' =>
        cases pre' with
        | nil =>
          simp only [List.cons_append, List.nil_append, List.cons.injEq] at hsubs
          obtain ⟨rfl, rfl, -⟩ := hsubs
          rw [completeTaskSubmission_updates] at hu
          simp only [List.mem_singleton] at hu
          exact ⟨[], c, c1, t, c2, res, Enters.call, hp, rfl, rfl, hu⟩
        | cons y pre'' => simp at hsubs
    · obtain ⟨c1, t, c2, res, hp, h0, -, hs, -⟩ := h
      rw [hs] at hsubs
      cases pre with
      | nil =>
        simp only [List.nil_append, List.cons.injEq] at hsubs
        rw [← hsubs.1, readTaskSubmission_updates] at hu
        simp at hu
      | cons x pre' =>
        cases pre' with
        | nil =>
          simp only [List.cons_append, List.nil_append, List.cons.injEq] at hsubs
          obtain ⟨rfl, rfl, -⟩ := hsubs
          rw [completeTaskSubmission_updates] at hu
          simp only [List.mem_singleton] at hu
          exact ⟨[], c, c1, t, c2, res, Enters.call, hp, rfl, rfl, hu⟩
        | cons y pre'' =>
          simp only [List.cons_append, List.cons.injEq] at hsubs
          obtain ⟨rfl, rfl, hrest⟩ := hsubs
          obtain ⟨p, c0', c1', t', c2', res', hent, hp', hpre, hsub, hu'⟩ := ih c2 pre'' hrest
          refine ⟨readTaskSubmission r :: completeTaskSubmission r c1.time :: p, c0', c1', t',
            c2', res', hent.after_lost_update hp h0, hp', ?_, hsub, hu'⟩
          rw [hpre]; simp

/-! ## Claims on `CompleteTask` -/

/-- C1: the status of the response is fixed by what the read returns: no row gives
TaskNotFound (4043) with a null task; a row in state Completed or Timedout gives
TaskAlreadyCompleted (4036); a row in state Init or Enqueued gives TaskInvalidState (4038); a
row in state Claimed with another counter than the request's gives TaskInvalidCounter
(4037).  In each case the handler returns a response and no error, the task of the response
is the row as read, the read is the only submission, and it holds no update. -/
theorem C1_status_from_read {σ : Type} (W : World σ) (fuel : Nat) (c c1 : Coroutine σ)
    (r : Request) (result : QueryTasksResult) (hread : ReadAnswered W c r c1 result) :
    (result.RowsReturned = 0 →
      ∃ resp cr, CompleteTask W (fuel + 1) c r =
          ⟨c1, [readTaskSubmission r], .returned (some resp) none⟩ ∧
        resp.CompleteTask = some cr ∧ cr.Status = StatusTaskNotFound ∧ cr.Status = 4043 ∧
        cr.Task = none) ∧
    (∀ rec0 recs t, result.RowsReturned = 1 → result.Records = rec0 :: recs → rec0.Task = .ok t →
      ((t.State = .Completed ∨ t.State = .Timedout) →
        ∃ resp cr, CompleteTask W (fuel + 1) c r =
            ⟨c1, [readTaskSubmission r], .returned (some resp) none⟩ ∧
          resp.CompleteTask = some cr ∧ cr.Status = StatusTaskAlreadyCompleted ∧
          cr.Status = 4036 ∧ cr.Task = some t) ∧
      ((t.State = .Init ∨ t.State = .Enqueued) →
        ∃ resp cr, CompleteTask W (fuel + 1) c r =
            ⟨c1, [readTaskSubmission r], .returned (some resp) none⟩ ∧
          resp.CompleteTask = some cr ∧ cr.Status = StatusTaskInvalidState ∧
          cr.Status = 4038 ∧ cr.Task = some t) ∧
      (t.State = .Claimed → t.Counter ≠ r.CompleteTask.Counter →
        ∃ resp cr, CompleteTask W (fuel + 1) c r =
            ⟨c1, [readTaskSubmission r], .returned (some resp) none⟩ ∧
          resp.CompleteTask = some cr ∧ cr.Status = StatusTaskInvalidCounter ∧
          cr.Status = 4037 ∧ cr.Task = some t)) ∧
    storeSubmissions [readTaskSubmission r] = [readTaskSubmission r] ∧
    updateCommands [readTaskSubmission r] = [] := by
  obtain ⟨completion, hread, hres⟩ := hread
  obtain ⟨store, hs, res0, rest, hr, h0⟩ : ∃ store, completion.Store = some store ∧
      ∃ res0 rest, store.Results = res0 :: rest ∧ res0.ReadTask = some result := by
    unfold readTaskResult at hres
    split at hres
    · simp at hres
    · rename_i store hs
      refine ⟨store, hs, ?_⟩
      split at hres
      · simp at hres
      · rename_i res0 rest hr
        exact ⟨res0, rest, hr, hres⟩
  refine ⟨?_, ?_, rfl, rfl⟩
  · intro h
    refine ⟨completeTaskResponse r StatusTaskNotFound none, ⟨StatusTaskNotFound, none⟩, ?_, rfl,
      rfl, rfl, rfl⟩
    simp [CompleteTask, hread, hs, hr, h0, h]
  · intro rec0 recs t h1 hrec ht
    refine ⟨?_, ?_, ?_⟩
    · intro hst
      refine ⟨completeTaskResponse r StatusTaskAlreadyCompleted (some t),
        ⟨StatusTaskAlreadyCompleted, some t⟩, ?_, rfl, rfl, rfl, rfl⟩
      simp [CompleteTask, hread, hs, hr, h0, h1, hrec, ht, hst]
    · intro hst
      have : ¬ (t.State = .Completed ∨ t.State = .Timedout) := by
        rcases hst with h | h <;> simp [h]
      refine ⟨completeTaskResponse r StatusTaskInvalidState (some t),
        ⟨StatusTaskInvalidState, some t⟩, ?_, rfl, rfl, rfl, rfl⟩
      simp [CompleteTask, hread, hs, hr, h0, h1, hrec, ht, hst, this]
    · intro hst hc
      refine ⟨completeTaskResponse r StatusTaskInvalidCounter (some t),
        ⟨StatusTaskInvalidCounter, some t⟩, ?_, rfl, rfl, rfl, rfl⟩
      simp [CompleteTask, hread, hs, hr, h0, h1, hrec, ht, hst, hc]

/-- Scenario 3 of §8: `Complete("t1", 8)` on the row `Claimed, counter = 7` answers
TaskInvalidCounter (4037) with the row as read, after one submission. -/
theorem C1_status_from_read_witness :
    scenarioRow.Task = .ok scenarioClaimed ∧
    ∃ resp cr, CompleteTask scenarioWorld (0 + 1) scenarioStart (scenarioRequest 8) =
        ⟨(YieldAndAwait scenarioWorld scenarioStart (readTaskSubmission (scenarioRequest 8))).1,
          [readTaskSubmission (scenarioRequest 8)], .returned (some resp) none⟩ ∧
      resp.CompleteTask = some cr ∧ cr.Status = StatusTaskInvalidCounter ∧ cr.Status = 4037 ∧
      cr.Task = some scenarioClaimed :=
  ⟨rfl, ((C1_status_from_read scenarioWorld 0 scenarioStart
    (YieldAndAwait scenarioWorld scenarioStart (readTaskSubmission (scenarioRequest 8))).1
    (scenarioRequest 8) { RowsReturned := 1, Records := [scenarioRow] }
    ⟨_, rfl, rfl⟩).2.1 scenarioRow [] scenarioClaimed rfl rfl rfl).2.2 rfl (by decide)⟩

/-- C2: in every run that returns status Created, the task of the response has state
Completed, the id and the counter of the request, no process id, the message, timeout and
created_on of the row that was read, and completed_on equal to the time read by the entry
whose update committed, which is also the completed_on of that update. -/
theorem C2_created_task {σ : Type} (W : World σ) (fuel : Nat) (c : Coroutine σ) (r : Request)
    (resp : Response) (e : Option ResonateError) (cr : CompleteTaskResponse)
    (hout : (CompleteTask W fuel c r).out = .returned (some resp) e)
    (hcr : resp.CompleteTask = some cr) (hst : cr.Status = StatusCreated) :
    ∃ pre c0 c1 t c2 res task, Proceeds W c0 r c1 t c2 res ∧ UpdateAnswered res 1 ∧
      (pre = [] → c0 = c) ∧
      (CompleteTask W fuel c r).subs =
        pre ++ [readTaskSubmission r, completeTaskSubmission r c1.time] ∧
      (CompleteTask W fuel c r).c = c2 ∧
      (completeTaskCommand r c1.time).CompletedOn = some c1.time ∧
      cr.Task = some task ∧ task.State = .Completed ∧ task.Id = r.CompleteTask.Id ∧
      task.Counter = r.CompleteTask.Counter ∧ task.CompletedOn = some c1.time ∧
      task.ProcessId = none ∧ task.Message = t.Message ∧ task.Timeout = t.Timeout ∧
      task.CreatedOn = t.CreatedOn := by
  obtain ⟨pre, c0, c1, t, c2, res, hp, h1, hc0, hsubs, hc, htask⟩ :=
    CompleteTask_created W fuel c r resp e cr hout hcr hst
  exact ⟨pre, c0, c1, t, c2, res, _, hp, h1, hc0, hsubs, hc, rfl, htask, rfl, rfl, rfl, rfl, rfl,
    rfl, rfl, rfl⟩

/-- Scenario 1 of §8: the row `t1, Claimed, counter = 7` at t = 1000 and `Complete("t1", 7)`. -/
theorem C2_created_task_witness :
    (CompleteTask scenarioWorld 1 scenarioStart (scenarioRequest 7)).out =
      .returned (some (completeTaskResponse (scenarioRequest 7) StatusCreated
        (some scenarioCompleted))) none ∧
    scenarioCompleted.CompletedOn = some 1000 ∧
    ∃ pre c0 c1 t c2 res task,
      Proceeds scenarioWorld c0 (scenarioRequest 7) c1 t c2 res ∧ UpdateAnswered res 1 ∧
      (pre = [] → c0 = scenarioStart) ∧
      (CompleteTask scenarioWorld 1 scenarioStart (scenarioRequest 7)).subs =
        pre ++ [readTaskSubmission (scenarioRequest 7),
          completeTaskSubmission (scenarioRequest 7) c1.time] ∧
      (CompleteTask scenarioWorld 1 scenarioStart (scenarioRequest 7)).c = c2 ∧
      (completeTaskCommand (scenarioRequest 7) c1.time).CompletedOn = some c1.time ∧
      some scenarioCompleted = some task ∧
      task.State = .Completed ∧ task.Id = "t1" ∧ task.Counter = 7 ∧
      task.CompletedOn = some c1.time ∧ task.ProcessId = none ∧ task.Message = t.Message ∧
      task.Timeout = t.Timeout ∧ task.CreatedOn = t.CreatedOn :=
  ⟨rfl, rfl, C2_created_task scenarioWorld 1 scenarioStart (scenarioRequest 7)
    (completeTaskResponse (scenarioRequest 7) StatusCreated (some scenarioCompleted)) none
    ⟨StatusCreated, some scenarioCompleted⟩ rfl rfl rfl⟩

/-- C3: an UpdateTask command is submitted only right after a read of the run that returned
a row in state Claimed whose counter is the request's: the read is made in a context in
which the run enters the handler body (the context of the call, or the one left by a lost
update), which the submissions made before determine; and every such command has the
request's id, state Completed, completed_on equal to the time read after that read, no
process id, the request's counter, and the guard `current_states = [Claimed]`,
`current_counter` = the request's counter. -/
theorem C3_update_only_when_claimed {σ : Type} (W : World σ) (fuel : Nat) (c : Coroutine σ)
    (r : Request) (pre : List Submission) (sub : Submission) (post : List Submission)
    (u : UpdateTaskCommand)
    (hsubs : (CompleteTask W fuel c r).subs = pre ++ sub :: post) (hu : u ∈ sub.updates) :
    ∃ pre' c0 c1 t, Enters W r c c0 pre' ∧ (∀ c0', Enters W r c c0' pre' → c0' = c0) ∧
      ReadRow W c0 r c1 t ∧ t.State = .Claimed ∧
      t.Counter = r.CompleteTask.Counter ∧ (pre' = [] → c0 = c) ∧
      pre = pre' ++ [readTaskSubmission r] ∧ sub = completeTaskSubmission r c1.time ∧
      u.Id = r.CompleteTask.Id ∧ u.State = .Completed ∧ u.CompletedOn = some c1.time ∧
      u.ProcessId = none ∧ u.Counter = r.CompleteTask.Counter ∧
      u.CurrentStates = [.Claimed] ∧ u.CurrentCounter = r.CompleteTask.Counter := by
  obtain ⟨pre', c0, c1, t, c2, res, hent, ⟨hrow, hst, hcnt, -⟩, hpre, hsub, rfl⟩ :=
    CompleteTask_update_entered W fuel c r pre sub post u hsubs hu
  refine ⟨pre', c0, c1, t, hent, fun c0' h => (h.unique hent rfl).1, hrow, hst, hcnt, ?_, hpre,
    hsub, rfl, rfl, rfl, rfl, rfl, rfl, rfl⟩
  rintro rfl
  exact ((Enters.call (W := W) (r := r) (c := c)).unique hent rfl).1.symm

/-- Scenario 1 of §8: the update of `Complete("t1", 7)` follows the read of the Claimed row.
With stores in which the first update is lost and the row is read Claimed with counter 7
again, the second update follows the read of the second entry. -/
theorem C3_update_only_when_claimed_witness :
    ((CompleteTask scenarioWorld 1 scenarioStart (scenarioRequest 7)).subs =
      [readTaskSubmission (scenarioRequest 7)] ++
        completeTaskSubmission (scenarioRequest 7) 1000 :: [] ∧
    ∃ pre' c0 c1 t, Enters scenarioWorld (scenarioRequest 7) scenarioStart c0 pre' ∧
      (∀ c0', Enters scenarioWorld (scenarioRequest 7) scenarioStart c0' pre' → c0' = c0) ∧
      ReadRow scenarioWorld c0 (scenarioRequest 7) c1 t ∧ t.State = .Claimed ∧
      t.Counter = (scenarioRequest 7).CompleteTask.Counter ∧ (pre' = [] → c0 = scenarioStart) ∧
      [readTaskSubmission (scenarioRequest 7)] = pre' ++ [readTaskSubmission (scenarioRequest 7)] ∧
      completeTaskSubmission (scenarioRequest 7) 1000 =
        completeTaskSubmission (scenarioRequest 7) c1.time ∧
      (completeTaskCommand (scenarioRequest 7) 1000).Id = (scenarioRequest 7).CompleteTask.Id ∧
      (completeTaskCommand (scenarioRequest 7) 1000).State = .Completed ∧
      (completeTaskCommand (scenarioRequest 7) 1000).CompletedOn = some c1.time ∧
      (completeTaskCommand (scenarioRequest 7) 1000).ProcessId = none ∧
      (completeTaskCommand (scenarioRequest 7) 1000).Counter =
        (scenarioRequest 7).CompleteTask.Counter ∧
      (completeTaskCommand (scenarioRequest 7) 1000).CurrentStates = [.Claimed] ∧
      (completeTaskCommand (scenarioRequest 7) 1000).CurrentCounter =
        (scenarioRequest 7).CompleteTask.Counter) ∧
    ((CompleteTask (observedWorld relapsingStores (fun _ => none) scenarioClock) 2
        ⟨⟨0, []⟩, 1000⟩ (scenarioRequest 7)).subs =
      [readTaskSubmission (scenarioRequest 7), completeTaskSubmission (scenarioRequest 7) 1000,
        readTaskSubmission (scenarioRequest 7)] ++
        completeTaskSubmission (scenarioRequest 7) 2000 :: [] ∧
    ∃ pre' c0 c1 t,
      Enters (observedWorld relapsingStores (fun _ => none) scenarioClock) (scenarioRequest 7)
        ⟨⟨0, []⟩, 1000⟩ c0 pre' ∧
      (∀ c0', Enters (observedWorld relapsingStores (fun _ => none) scenarioClock)
        (scenarioRequest 7) ⟨⟨0, []⟩, 1000⟩ c0' pre' → c0' = c0) ∧
      ReadRow (observedWorld relapsingStores (fun _ => none) scenarioClock) c0
        (scenarioRequest 7) c1 t ∧ t.State = .Claimed ∧
      t.Counter = (scenarioRequest 7).CompleteTask.Counter ∧
      (pre' = [] → c0 = ⟨⟨0, []⟩, 1000⟩) ∧
      [readTaskSubmission (scenarioRequest 7), completeTaskSubmission (scenarioRequest 7) 1000,
        readTaskSubmission (scenarioRequest 7)] = pre' ++ [readTaskSubmission (scenarioRequest 7)] ∧
      completeTaskSubmission (scenarioRequest 7) 2000 =
        completeTaskSubmission (scenarioRequest 7) c1.time ∧
      (completeTaskCommand (scenarioRequest 7) 2000).Id = (scenarioRequest 7).CompleteTask.Id ∧
      (completeTaskCommand (scenarioRequest 7) 2000).State = .Completed ∧
      (completeTaskCommand (scenarioRequest 7) 2000).CompletedOn = some c1.time ∧
      (completeTaskCommand (scenarioRequest 7) 2000).ProcessId = none ∧
      (completeTaskCommand (scenarioRequest 7) 2000).Counter =
        (scenarioRequest 7).CompleteTask.Counter ∧
      (completeTaskCommand (scenarioRequest 7) 2000).CurrentStates = [.Claimed] ∧
      (completeTaskCommand (scenarioRequest 7) 2000).CurrentCounter =
        (scenarioRequest 7).CompleteTask.Counter) :=
  ⟨⟨rfl, C3_update_only_when_claimed scenarioWorld 1 scenarioStart (scenarioRequest 7)
    [readTaskSubmission (scenarioRequest 7)] (completeTaskSubmission (scenarioRequest 7) 1000) []
    (completeTaskCommand (scenarioRequest 7) 1000) rfl (List.mem_singleton.mpr rfl)⟩,
   ⟨rfl, C3_update_only_when_claimed (observedWorld relapsingStores (fun _ => none) scenarioClock)
    2 ⟨⟨0, []⟩, 1000⟩ (scenarioRequest 7)
    [readTaskSubmission (scenarioRequest 7), completeTaskSubmission (scenarioRequest 7) 1000,
      readTaskSubmission (scenarioRequest 7)]
    (completeTaskSubmission (scenarioRequest 7) 2000) []
    (completeTaskCommand (scenarioRequest 7) 2000) rfl (List.mem_singleton.mpr rfl)⟩⟩

/-- C4: over a store with one row per id in which the handler is the only writer, a
`CompleteTask` for an id whose row is in state Completed makes its read and nothing else,
for every counter and at every time: it submits no update and leaves the table as it is;
and when the row is a task (its record parses) it returns a response and no error, with
status TaskAlreadyCompleted (4036) and the task of that row (its id, state, counter,
timeout and completed_on). -/
theorem C4_completed_is_absorbing (clock : Nat → Int)
    (queue : Handle → Task → Except GoError Bool) (s : StoreState) (now : Int) (fuel : Nat)
    (r : Request) (row : TaskRecord)
    (huniq : s.rows.OneRowPerId) (hmem : row ∈ s.rows) (hid : row.Id = r.CompleteTask.Id)
    (hstate : row.State = .Completed) :
    (∀ t, row.Task = .ok t → ∃ resp cr,
      (CompleteTask (storeWorld clock queue) (fuel + 1) ⟨s, now⟩ r).out =
        .returned (some resp) none ∧
      resp.CompleteTask = some cr ∧ cr.Status = StatusTaskAlreadyCompleted ∧ cr.Status = 4036 ∧
      cr.Task = some t ∧ t.Id = row.Id ∧ t.State = .Completed ∧ t.Counter = row.Counter ∧
      t.Timeout = row.Timeout ∧ t.CompletedOn = row.CompletedOn) ∧
    (CompleteTask (storeWorld clock queue) (fuel + 1) ⟨s, now⟩ r).c.state.rows = s.rows ∧
    (CompleteTask (storeWorld clock queue) (fuel + 1) ⟨s, now⟩ r).subs = [readTaskSubmission r] ∧
    updateCommands (CompleteTask (storeWorld clock queue) (fuel + 1) ⟨s, now⟩ r).subs = [] := by
  have hread := Store.readTask_of_mem huniq hmem { Id := r.CompleteTask.Id } hid
  have hya := storeWorld_read clock queue s now r
  rw [hread] at hya
  cases hparse : row.Task with
  | error err =>
    have hrun : CompleteTask (storeWorld clock queue) (fuel + 1) ⟨s, now⟩ r =
        ⟨(YieldAndAwait (storeWorld clock queue) ⟨s, now⟩ (readTaskSubmission r)).1,
          [readTaskSubmission r],
          .returned none (some (NewResonateError ErrAIOStoreSerializationFailure
            "failed to parse task record" err))⟩ := by
      simp [CompleteTask, hya, hparse]
    rw [hrun, hya]
    exact ⟨fun t ht => by simp at ht, rfl, rfl, rfl⟩
  | ok t =>
    have hfields : t.Id = row.Id ∧ t.State = .Completed ∧ t.Counter = row.Counter ∧
        t.Timeout = row.Timeout ∧ t.CompletedOn = row.CompletedOn := by
      unfold TaskRecord.Task at hparse
      split at hparse
      · simp at hparse
      · simp only [Except.ok.injEq] at hparse
        rw [← hparse]; exact ⟨rfl, hstate, rfl, rfl, rfl⟩
    have hrun : CompleteTask (storeWorld clock queue) (fuel + 1) ⟨s, now⟩ r =
        ⟨(YieldAndAwait (storeWorld clock queue) ⟨s, now⟩ (readTaskSubmission r)).1,
          [readTaskSubmission r],
          .returned (some (completeTaskResponse r StatusTaskAlreadyCompleted (some t))) none⟩ := by
      simp [CompleteTask, hya, hparse, hfields.2.1]
    rw [hrun, hya]
    refine ⟨?_, rfl, rfl, rfl⟩
    intro t' ht'
    cases ht'
    exact ⟨_, ⟨StatusTaskAlreadyCompleted, some t⟩, rfl, rfl, rfl, rfl, rfl, hfields⟩

/-- Scenarios 1 and 2 of §8: after `Complete("t1", 7)` at t = 1000 on the Claimed row,
`Complete("t1", 7)` at t = 2000 answers TaskAlreadyCompleted with the completed row, and
completed_on = 1000 is still in the store. -/
theorem C4_completed_is_absorbing_witness :
    (CompleteTask scenarioWorld 1 scenarioStart (scenarioRequest 7)).c.time = 1000 ∧
    scenarioClock ((CompleteTask scenarioWorld 1 scenarioStart (scenarioRequest 7)).c.state.resumed + 1)
      = 2000 ∧
    (CompleteTask scenarioWorld 1 scenarioStart (scenarioRequest 7)).c.state.rows =
      [{ scenarioRow with ProcessId := none, State := .Completed, CompletedOn := some 1000 }] ∧
    scenarioCompleted.CompletedOn = some 1000 ∧
    (∃ resp cr,
      (CompleteTask scenarioWorld (0 + 1)
        ⟨(CompleteTask scenarioWorld 1 scenarioStart (scenarioRequest 7)).c.state, 2000⟩
        (scenarioRequest 7)).out = .returned (some resp) none ∧
      resp.CompleteTask = some cr ∧ cr.Status = StatusTaskAlreadyCompleted ∧ cr.Status = 4036 ∧
      cr.Task = some scenarioCompleted ∧ scenarioCompleted.Id = "t1" ∧
      scenarioCompleted.State = .Completed ∧ scenarioCompleted.Counter = 7 ∧
      scenarioCompleted.Timeout = 10000 ∧ scenarioCompleted.CompletedOn = some 1000) ∧
    (CompleteTask scenarioWorld (0 + 1)
        ⟨(CompleteTask scenarioWorld 1 scenarioStart (scenarioRequest 7)).c.state, 2000⟩
        (scenarioRequest 7)).c.state.rows =
      (CompleteTask scenarioWorld 1 scenarioStart (scenarioRequest 7)).c.state.rows ∧
    (CompleteTask scenarioWorld (0 + 1)
        ⟨(CompleteTask scenarioWorld 1 scenarioStart (scenarioRequest 7)).c.state, 2000⟩
        (scenarioRequest 7)).subs = [readTaskSubmission (scenarioRequest 7)] ∧
    updateCommands (CompleteTask scenarioWorld (0 + 1)
        ⟨(CompleteTask scenarioWorld 1 scenarioStart (scenarioRequest 7)).c.state, 2000⟩
        (scenarioRequest 7)).subs = [] := by
  have h := C4_completed_is_absorbing scenarioClock scenarioQueue
      (CompleteTask scenarioWorld 1 scenarioStart (scenarioRequest 7)).c.state 2000 0
      (scenarioRequest 7)
      { scenarioRow with ProcessId := none, State := .Completed, CompletedOn := some 1000 }
      (by
        intro id
        change (List.filter (fun row => decide (row.Id = id))
          [{ scenarioRow with ProcessId := none, State := .Completed, CompletedOn := some 1000 }]).length ≤ 1
        simp only [List.filter]
        split <;> simp)
      (List.mem_singleton.mpr rfl) rfl rfl
  exact ⟨rfl, rfl, rfl, rfl, h.1 scenarioCompleted rfl, h.2⟩

/-- C5: `CompleteTask` terminates.  Along every sequence of stores observed by the handler in
which the task's row is kept, its counter never decreases and a claim strictly increases it,
with updates that commit iff their guard matches the row, with any failures of the store and
any clock, the handler returns a response or an error; two entries of the body are enough,
so it makes at most four submissions.  The body is re-entered only after an update answered
with rows-affected = 0. -/
theorem C5_complete_task_terminates (stores : Nat → Store) (failure : Nat → Option GoError)
    (clock : Nat → Int) (r : Request) (hev : TaskEvolves stores r.CompleteTask.Id)
    (s : ObservedState) (now : Int) :
    (∃ n, ∀ fuel, n ≤ fuel →
      (∃ v e, (CompleteTask (observedWorld stores failure clock) fuel ⟨s, now⟩ r).out =
          .returned v e ∧ (v.isSome ∨ e.isSome)) ∧
      (CompleteTask (observedWorld stores failure clock) fuel ⟨s, now⟩ r).subs.length ≤ 2 * n) ∧
    (∀ fuel, 2 < (CompleteTask (observedWorld stores failure clock) (fuel + 1) ⟨s, now⟩ r).subs.length →
      ∃ c1 t c2 res, Proceeds (observedWorld stores failure clock) ⟨s, now⟩ r c1 t c2 res ∧
        UpdateAnswered res 0) := by
  refine ⟨⟨2, ?_⟩, ?_⟩
  swap
  · intro fuel hlen
    rcases CompleteTask_step (observedWorld stores failure clock) fuel ⟨s, now⟩ r with h | h | h
    · obtain ⟨_, _, -, -, hs, -⟩ := h
      rw [hs] at hlen; simp at hlen
    · obtain ⟨_, _, _, _, -, -, hs, -⟩ := h
      rw [hs] at hlen; simp at hlen
    · obtain ⟨c1, t, c2, res, hp, h0, -⟩ := h
      exact ⟨c1, t, c2, res, hp, h0⟩
  intro fuel hfuel
  obtain ⟨m, rfl⟩ : ∃ m, fuel = m + 1 + 1 := ⟨fuel - 2, by omega⟩
  rcases observed_entry stores failure clock r hev.oneRow (m + 1) s now with ⟨h, hl⟩ | h
  · exact ⟨(Outcome.settled_iff _).mp h, by omega⟩
  · obtain ⟨a, ha, haid, -, hac, hlost, s2, now2, hs2, hout, hlen⟩ := h
    rcases observed_entry stores failure clock r hev.oneRow m s2 now2 with ⟨h, hl⟩ | h
    · rw [hout, hlen]
      exact ⟨(Outcome.settled_iff _).mp h, by omega⟩
    · obtain ⟨a2, ha2, ha2id, ha2s, ha2c, -⟩ := h
      rw [hs2] at ha2
      exact absurd ⟨ha2s, ha2c⟩ (hev.no_second_chance ha haid hac hlost ha2 ha2id)

/-- Scenario 1 of §8 with a lost update: the row is claimed again with counter 8 between the
read and the update of `Complete("t1", 7)`; the handler re-enters its body once and answers
TaskInvalidCounter. -/
theorem C5_complete_task_terminates_witness :
    TaskEvolves contendedStores (scenarioRequest 7).CompleteTask.Id ∧
    (∃ t, (CompleteTask (observedWorld contendedStores (fun _ => none) scenarioClock) 2
        ⟨⟨0, []⟩, 1000⟩ (scenarioRequest 7)).out =
      .returned (some (completeTaskResponse (scenarioRequest 7) StatusTaskInvalidCounter
        (some t))) none) ∧
    ∃ n, ∀ fuel, n ≤ fuel →
      (∃ v e, (CompleteTask (observedWorld contendedStores (fun _ => none) scenarioClock) fuel
          ⟨⟨0, []⟩, 1000⟩ (scenarioRequest 7)).out = .returned v e ∧ (v.isSome ∨ e.isSome)) ∧
      (CompleteTask (observedWorld contendedStores (fun _ => none) scenarioClock) fuel
          ⟨⟨0, []⟩, 1000⟩ (scenarioRequest 7)).subs.length ≤ 2 * n :=
  ⟨contendedStores_evolves, ⟨_, rfl⟩,
    (C5_complete_task_terminates contendedStores (fun _ => none) scenarioClock (scenarioRequest 7)
      contendedStores_evolves ⟨0, []⟩ 1000).1⟩

/-- C9: a failed read and a failed update make the handler return no response and an error
of code AIOStoreFailure (5001) that wraps the original error; a row that does not parse
makes it return no response and an error of code AIOStoreSerializationFailure (5002); and
whenever a response is returned the error is nil, the kind is CompleteTask and the tags are
the request's, while an error is never returned together with a response. -/
theorem C9_errors_and_envelope {σ : Type} (W : World σ) (r : Request) :
    (∀ fuel c c1 err, YieldAndAwait W c (readTaskSubmission r) = (c1, .error err) →
      ∃ e, (CompleteTask W (fuel + 1) c r).out = .returned none (some e) ∧
        e.Code = ErrAIOStoreFailure ∧ e.Code = 5001 ∧ e.Unwrap = err) ∧
    (∀ fuel c c1 t c2 err, Proceeds W c r c1 t c2 (.error err) →
      ∃ e, (CompleteTask W (fuel + 1) c r).out = .returned none (some e) ∧
        e.Code = ErrAIOStoreFailure ∧ e.Code = 5001 ∧ e.Unwrap = err) ∧
    (∀ fuel c c1 result rec0 recs err, ReadAnswered W c r c1 result → result.RowsReturned = 1 →
      result.Records = rec0 :: recs → rec0.Task = .error err →
      ∃ e, (CompleteTask W (fuel + 1) c r).out = .returned none (some e) ∧
        e.Code = ErrAIOStoreSerializationFailure ∧ e.Code = 5002 ∧ e.Unwrap = err) ∧
    (∀ fuel c v e, (CompleteTask W fuel c r).out = .returned v e →
      (∃ resp, v = some resp ∧ e = none ∧ resp.Kind = .CompleteTask ∧ resp.Tags = r.Tags) ∨
      (v = none ∧ ∃ er, e = some er ∧
        (er.Code = ErrAIOStoreFailure ∨ er.Code = ErrAIOStoreSerializationFailure))) := by
  refine ⟨?_, ?_, ?_, ?_⟩
  · intro fuel c c1 err hya
    exact ⟨NewResonateError ErrAIOStoreFailure "failed to read task" err,
      by simp [CompleteTask, hya], rfl, rfl, rfl⟩
  · intro fuel c c1 t c2 err hp
    obtain ⟨⟨result, rec0, recs, ⟨completion, hya, hres⟩, h1, hrec, ht⟩, hst, hcnt, hup⟩ := hp
    obtain ⟨store, res0, rest, hs, hr, h0⟩ := readTaskResult_eq_some hres
    refine ⟨NewResonateError ErrAIOStoreFailure "failed to complete task" err, ?_, rfl, rfl, rfl⟩
    simp [CompleteTask, hya, hs, hr, h0, h1, hrec, ht, hst, hcnt, hup, completeTaskAfterUpdate]
  · intro fuel c c1 result rec0 recs err hans h1 hrec ht
    obtain ⟨completion, hya, hres⟩ := hans
    obtain ⟨store, res0, rest, hs, hr, h0⟩ := readTaskResult_eq_some hres
    exact ⟨NewResonateError ErrAIOStoreSerializationFailure "failed to parse task record" err,
      by simp [CompleteTask, hya, hs, hr, h0, h1, hrec, ht], rfl, rfl, rfl⟩
  · intro fuel
    induction fuel with
    | zero => intro c v e h; simp [CompleteTask] at h
    | succ n ih =>
      intro c v e hout
      rcases CompleteTask_step W n c r with h | h | h
      · obtain ⟨c1, res, -, -, -, h | ⟨e', h, hcode⟩ | ⟨st, t, h, -⟩⟩ := h
        · rw [h] at hout; simp at hout
        · rw [h] at hout
          simp only [Outcome.returned.injEq] at hout
          exact Or.inr ⟨hout.1.symm, e', hout.2.symm, hcode⟩
        · rw [h] at hout
          simp only [Outcome.returned.injEq] at hout
          exact Or.inl ⟨_, hout.1.symm, hout.2.symm, rfl, rfl⟩
      · obtain ⟨c1, t, c2, res, -, -, -, h | ⟨err, -, h⟩ | ⟨-, h⟩⟩ := h
        · rw [h] at hout; simp at hout
        · rw [h] at hout
          simp only [Outcome.returned.injEq] at hout
          exact Or.inr ⟨hout.1.symm, _, hout.2.symm, Or.inl rfl⟩
        · rw [h] at hout
          simp only [Outcome.returned.injEq] at hout
          exact Or.inl ⟨_, hout.1.symm, hout.2.symm, rfl, rfl⟩
      · obtain ⟨c1, t, c2, res, -, -, -, -, ho⟩ := h
        rw [ho] at hout
        exact ih c2 v e hout

/-- A store that is down: the read fails and the handler returns the error 5001 wrapping it. -/
theorem C9_errors_and_envelope_witness :
    YieldAndAwait (failingWorld "store down") ⟨(), 0⟩ (readTaskSubmission (scenarioRequest 7)) =
      (⟨(), 0⟩, .error "store down") ∧
    ∃ e, (CompleteTask (failingWorld "store down") (0 + 1) ⟨(), 0⟩ (scenarioRequest 7)).out =
        .returned none (some e) ∧
      e.Code = ErrAIOStoreFailure ∧ e.Code = 5001 ∧ e.Unwrap = "store down" :=
  ⟨rfl, (C9_errors_and_envelope (failingWorld "store down") (scenarioRequest 7)).1 0 ⟨(), 0⟩
    ⟨(), 0⟩ "store down" rfl⟩

/-! ## Claims on the commands of the two handlers -/

/-- C6 as stated fails: the update of scenario 1 commits against the Claimed row with
counter 7 and leaves the counter at 7, although the transition is Claimed→Completed and not
one of the three transitions out of Init. -/
theorem C6_counterexample :
    completeTaskCommand (scenarioRequest 7) 1000 ∈
      updateCommands (CompleteTask scenarioWorld 1 scenarioStart (scenarioRequest 7)).subs ∧
    (completeTaskCommand (scenarioRequest 7) 1000).guard scenarioRow = true ∧
    ¬ (((completeTaskCommand (scenarioRequest 7) 1000).write scenarioRow).Counter =
          scenarioRow.Counter ↔
        scenarioRow.State = .Init ∧
          (((completeTaskCommand (scenarioRequest 7) 1000).write scenarioRow).State = .Enqueued ∨
           ((completeTaskCommand (scenarioRequest 7) 1000).write scenarioRow).State = .Init ∨
           ((completeTaskCommand (scenarioRequest 7) 1000).write scenarioRow).State = .Timedout)) := by
  refine ⟨List.mem_singleton.mpr rfl, rfl, ?_⟩
  intro h
  have := h.mp rfl
  exact absurd this.1 (by decide)

/-- C6, amended: a committed update of `CompleteTask` or `EnqueueTasks` never lowers the
counter, and the counter is unchanged iff the transition is Init→Enqueued, Init→Init,
Init→Timedout or Claimed→Completed; these are the only transitions the two handlers write,
so the counter is always unchanged. -/
theorem C6_counter_unchanged (u : UpdateTaskCommand) (row : TaskRecord)
    (hu : EmittedByCompleteTask u ∨ EmittedByEnqueueTasks u) (hg : u.guard row = true) :
    row.Counter ≤ (u.write row).Counter ∧
    ((u.write row).Counter = row.Counter ↔
      (row.State = .Init ∧ ((u.write row).State = .Enqueued ∨ (u.write row).State = .Init ∨
        (u.write row).State = .Timedout)) ∨
      (row.State = .Claimed ∧ (u.write row).State = .Completed)) ∧
    (u.write row).Counter = row.Counter := by
  obtain ⟨-, hst, hcnt⟩ := (guard_iff u row).mp hg
  have key : (u.write row).Counter = row.Counter ∧
      ((row.State = .Init ∧ ((u.write row).State = .Enqueued ∨ (u.write row).State = .Init ∨
        (u.write row).State = .Timedout)) ∨
      (row.State = .Claimed ∧ (u.write row).State = .Completed)) := by
    rcases hu with h | h
    · obtain ⟨r, time, rfl⟩ := emittedByCompleteTask_shape h
      simp only [completeTaskCommand, List.mem_singleton] at hst hcnt
      exact ⟨hcnt.symm, Or.inr ⟨hst, rfl⟩⟩
    · rcases emittedByEnqueueTasks_shape h with ⟨t, rfl⟩ | ⟨config, rec, now, rfl⟩ | ⟨config, rec, now, rfl⟩
      · simp only [timedoutCommand, List.mem_singleton] at hst hcnt
        exact ⟨hcnt.symm, Or.inl ⟨hst, Or.inr (Or.inr rfl)⟩⟩
      · simp only [enqueuedCommand, List.mem_singleton] at hst hcnt
        exact ⟨hcnt.symm, Or.inl ⟨hst, Or.inl rfl⟩⟩
      · simp only [reenqueueCommand, List.mem_singleton] at hst hcnt
        exact ⟨hcnt.symm, Or.inl ⟨hst, Or.inr (Or.inl rfl)⟩⟩
  exact ⟨le_of_eq key.1.symm, ⟨fun _ => key.2, fun _ => key.1⟩, key.1⟩

/-- The update of scenario 1, committed against the row of scenario 1. -/
theorem C6_counter_unchanged_witness :
    (completeTaskCommand (scenarioRequest 7) 1000).guard scenarioRow = true ∧
    scenarioRow.Counter ≤ ((completeTaskCommand (scenarioRequest 7) 1000).write scenarioRow).Counter ∧
    (((completeTaskCommand (scenarioRequest 7) 1000).write scenarioRow).Counter =
        scenarioRow.Counter ↔
      (scenarioRow.State = .Init ∧
        (((completeTaskCommand (scenarioRequest 7) 1000).write scenarioRow).State = .Enqueued ∨
         ((completeTaskCommand (scenarioRequest 7) 1000).write scenarioRow).State = .Init ∨
         ((completeTaskCommand (scenarioRequest 7) 1000).write scenarioRow).State = .Timedout)) ∨
      (scenarioRow.State = .Claimed ∧
        ((completeTaskCommand (scenarioRequest 7) 1000).write scenarioRow).State = .Completed)) ∧
    ((completeTaskCommand (scenarioRequest 7) 1000).write scenarioRow).Counter =
      scenarioRow.Counter :=
  ⟨rfl, C6_counter_unchanged (completeTaskCommand (scenarioRequest 7) 1000) scenarioRow
    (Or.inl scenario_emitted) rfl⟩

/-- C7: the guard of every update of `CompleteTask` is `[Claimed]` and the guard of every
update of `EnqueueTasks` is `[Init]`; so no such update matches a row in state Completed or
Timedout, and in a store with one row per id whose row for the command's id is terminal the
update affects no row and leaves the store as it is. -/
theorem C7_terminal_rows_reject_updates (u : UpdateTaskCommand)
    (hu : EmittedByCompleteTask u ∨ EmittedByEnqueueTasks u) :
    (EmittedByCompleteTask u → u.CurrentStates = [.Claimed]) ∧
    (EmittedByEnqueueTasks u → u.CurrentStates = [.Init]) ∧
    (∀ row : TaskRecord, row.State = .Completed ∨ row.State = .Timedout → u.guard row = false) ∧
    (∀ (s : Store) (row : TaskRecord), s.OneRowPerId → row ∈ s → row.Id = u.Id →
      row.State = .Completed ∨ row.State = .Timedout →
      s.updateTask u = (s, { RowsAffected := 0 })) := by
  have h1 : EmittedByCompleteTask u → u.CurrentStates = [.Claimed] := by
    intro h
    obtain ⟨r, time, rfl⟩ := emittedByCompleteTask_shape h
    rfl
  have h2 : EmittedByEnqueueTasks u → u.CurrentStates = [.Init] := by
    intro h
    rcases emittedByEnqueueTasks_shape h with ⟨t, rfl⟩ | ⟨config, rec, now, rfl⟩ | ⟨config, rec, now, rfl⟩ <;> rfl
  have h3 : ∀ row : TaskRecord, row.State = .Completed ∨ row.State = .Timedout →
      u.guard row = false := by
    intro row hterm
    have hcs : u.CurrentStates = [.Claimed] ∨ u.CurrentStates = [.Init] :=
      hu.elim (fun h => Or.inl (h1 h)) (fun h => Or.inr (h2 h))
    cases hgd : u.guard row with
    | false => rfl
    | true =>
      obtain ⟨-, hst, -⟩ := (guard_iff u row).mp hgd
      rcases hcs with h | h <;> rw [h] at hst <;> simp only [List.mem_singleton] at hst <;>
        rcases hterm with ht | ht <;> rw [ht] at hst <;> exact absurd hst (by decide)
  refine ⟨h1, h2, h3, ?_⟩
  intro s row huniq hmem hid hterm
  apply Store.updateTask_of_no_match
  intro row' hmem'
  cases hgd : u.guard row' with
  | false => rfl
  | true =>
    have hid' : row'.Id = u.Id := ((guard_iff u row').mp hgd).1
    have hf : (s.filter fun x => x.Id = u.Id) = [row] :=
      eq_singleton_of_mem_of_length_le_one (List.mem_filter.mpr ⟨hmem, by simpa using hid⟩)
        (huniq u.Id)
    have : row' ∈ (s.filter fun x => x.Id = u.Id) :=
      List.mem_filter.mpr ⟨hmem', by simpa using hid'⟩
    rw [hf, List.mem_singleton] at this
    rw [this, h3 row hterm] at hgd
    exact absurd hgd (by decide)

/-- The update of scenario 1 against the completed row of scenario 2. -/
theorem C7_terminal_rows_reject_updates_witness :
    (completeTaskCommand (scenarioRequest 7) 1000).guard
      { scenarioRow with ProcessId := none, State := .Completed, CompletedOn := some 1000 } = false ∧
    Store.updateTask
      [{ scenarioRow with ProcessId := none, State := .Completed, CompletedOn := some 1000 }]
      (completeTaskCommand (scenarioRequest 7) 2000) =
      ([{ scenarioRow with ProcessId := none, State := .Completed, CompletedOn := some 1000 }],
        { RowsAffected := 0 }) :=
  ⟨(C7_terminal_rows_reject_updates (completeTaskCommand (scenarioRequest 7) 1000)
      (Or.inl scenario_emitted)).2.2.1 _ (Or.inl rfl), rfl⟩

/-- C8: an update of `CompleteTask` or `EnqueueTasks` sets completed_on iff the state it
writes is Completed or Timedout; hence, if every row of a store has completed_on set iff its
state is terminal, the same holds in every store reached by running such updates. -/
theorem C8_completed_on_iff_terminal :
    (∀ u, EmittedByCompleteTask u ∨ EmittedByEnqueueTasks u →
      (u.CompletedOn.isSome = true ↔ (u.State = .Completed ∨ u.State = .Timedout))) ∧
    (∀ s0 s : Store, s0.CompletedOnIffTerminal → Reachable s0 s → s.CompletedOnIffTerminal) := by
  have h1 : ∀ u, EmittedByCompleteTask u ∨ EmittedByEnqueueTasks u →
      (u.CompletedOn.isSome = true ↔ (u.State = .Completed ∨ u.State = .Timedout)) := by
    intro u hu
    rcases hu with h | h
    · obtain ⟨r, time, rfl⟩ := emittedByCompleteTask_shape h
      simp [completeTaskCommand]
    · rcases emittedByEnqueueTasks_shape h with ⟨t, rfl⟩ | ⟨config, rec, now, rfl⟩ | ⟨config, rec, now, rfl⟩
      · simp [timedoutCommand]
      · simp [enqueuedCommand]
      · simp [reenqueueCommand]
  refine ⟨h1, ?_⟩
  intro s0 s h0 hreach
  induction hreach with
  | start => exact h0
  | @commit s u _ hu ih =>
    intro row hrow
    simp only [Store.updateTask, List.mem_map] at hrow
    obtain ⟨row0, hmem0, hrow0⟩ := hrow
    split at hrow0
    · subst hrow0
      have := h1 u hu
      cases hst : u.State <;> cases hco : u.CompletedOn <;>
        simp [UpdateTaskCommand.write, State.terminal, hst, hco] at this ⊢
    · subst hrow0
      exact ih row0 hmem0

/-- The store of scenario 1 before and after its update. -/
theorem C8_completed_on_iff_terminal_witness :
    Store.CompletedOnIffTerminal [scenarioRow] ∧
    Store.CompletedOnIffTerminal
      (Store.updateTask [scenarioRow] (completeTaskCommand (scenarioRequest 7) 1000)).1 :=
  ⟨by intro row hrow; rw [List.mem_singleton.mp hrow]; rfl,
    C8_completed_on_iff_terminal.2 [scenarioRow] _
      (by intro row hrow; rw [List.mem_singleton.mp hrow]; rfl)
      (Reachable.commit Reachable.start (Or.inl scenario_emitted))⟩

/-! ## Claims on `EnqueueTasks` -/

/-- C10: in a pass whose read is answered at time t with a record that parses and whose
timeout is at most t, the record adds exactly one UpdateTask to the updates the pass makes
for the other records, and no Queue submission; the command has state Timedout,
completed_on = the record's timeout, the record's counter and attempt, and the guard
`current_states = [Init]`, `current_counter` = the record's counter. -/
theorem C10_timed_out_record {σ : Type} (W : World σ) (config : Config) (tags : Tags)
    (c0 c1 : Coroutine σ) (l1 : List TaskRecord) (rec : TaskRecord) (l2 : List TaskRecord)
    (t : Task) (hread : ReadTasksAnswered W config tags c0 c1 (l1 ++ rec :: l2))
    (hparse : rec.Task = .ok t) (htime : rec.Timeout ≤ c1.time)
    (hnp : (EnqueueTasks W config tags c0).out ≠ .panicked) :
    ∃ A B u, updateCommands (EnqueueTasks W config tags c0).subs = A ++ u :: B ∧
      updateCommands (enqueueRecords W config tags (l1 ++ l2) c1).subs = A ++ B ∧
      queuedTasks (EnqueueTasks W config tags c0).subs =
        queuedTasks (enqueueRecords W config tags (l1 ++ l2) c1).subs ∧
      u.Id = rec.Id ∧ u.State = .Timedout ∧ u.CompletedOn = some rec.Timeout ∧
      u.Counter = rec.Counter ∧ u.Attempt = rec.Attempt ∧ u.ProcessId = none ∧
      u.CurrentStates = [.Init] ∧ u.CurrentCounter = rec.Counter := by
  obtain ⟨hsubs, hout, -⟩ := EnqueueTasks_of_read W config tags c0 c1 _ hread
  obtain ⟨hid, -, hcnt, hto, hatt⟩ := TaskRecord.Task_ok hparse
  obtain ⟨hc, hs, A, B, a1, a2, hA, hB, hl, h1, h2⟩ :=
    enqueueFanOut_timedout W tags l1 rec l2 t c1 hparse (hto ▸ htime)
  have hq : enqueueCollect W config (l1 ++ rec :: l2)
      (enqueueFanOut W tags (l1 ++ rec :: l2) c1).awaiting
      (enqueueFanOut W tags (l1 ++ rec :: l2) c1).c =
    enqueueCollect W config (l1 ++ l2) (enqueueFanOut W tags (l1 ++ l2) c1).awaiting
      (enqueueFanOut W tags (l1 ++ l2) c1).c := by
    rw [h1, h2, hc]
    exact enqueueCollect_skip W config l1 rec l2 a1 a2 _ hl
  have hp : (enqueueCollect W config (l1 ++ rec :: l2)
      (enqueueFanOut W tags (l1 ++ rec :: l2) c1).awaiting
      (enqueueFanOut W tags (l1 ++ rec :: l2) c1).c).panicked = false := by
    rw [hout, enqueueRecords_out] at hnp
    cases hpp : (enqueueCollect W config (l1 ++ rec :: l2)
      (enqueueFanOut W tags (l1 ++ rec :: l2) c1).awaiting
      (enqueueFanOut W tags (l1 ++ rec :: l2) c1).c).panicked with
    | false => rfl
    | true => rw [hpp] at hnp; simp at hnp
  obtain ⟨hu, hqd⟩ := enqueueRecords_trace W config tags (l1 ++ rec :: l2) c1 hp
  obtain ⟨hu0, hqd0⟩ := enqueueRecords_trace W config tags (l1 ++ l2) c1 (hq ▸ hp)
  refine ⟨(Submission.Store tags { Commands := A }).updates,
    (Submission.Store tags { Commands := B ++ (enqueueCollect W config (l1 ++ l2)
      (enqueueFanOut W tags (l1 ++ l2) c1).awaiting
      (enqueueFanOut W tags (l1 ++ l2) c1).c).commands }).updates,
    timedoutCommand t, ?_, ?_, ?_, hid, rfl, by rw [← hto]; rfl, hcnt, hatt, rfl, rfl, hcnt⟩
  · rw [hsubs, updateCommands_cons, hu, hq, hA, List.append_assoc, store_updates_append,
      List.cons_append, store_updates_cons]
    rfl
  · rw [hu0, hB, List.append_assoc, store_updates_append]
  · rw [hsubs, hqd0, ← hs, ← hqd]
    rfl

/-- Scenario 6 of §8: the rows t3 (timeout 500) and t4 (timeout 5000) read by a pass that is
resumed at t = 1000: one `UpdateTask(t3 → Timedout, completed_on = 500)` and no `Queue(t3)`. -/
theorem C10_timed_out_record_witness :
    updateCommands (EnqueueTasks scenarioWorld scenarioConfig [] scenarioPassStart).subs =
      [{ Id := "t3", ProcessId := none, State := .Timedout, Counter := 0, Attempt := 0,
         Frequency := 0, Expiration := 0, CompletedOn := some 500, CurrentStates := [.Init],
         CurrentCounter := 0 },
       { Id := "t4", ProcessId := none, State := .Enqueued, Counter := 0, Attempt := 0,
         Frequency := 0, Expiration := 3000, CompletedOn := none, CurrentStates := [.Init],
         CurrentCounter := 0 }] ∧
    (queuedTasks (EnqueueTasks scenarioWorld scenarioConfig [] scenarioPassStart).subs).map
      (fun t => t.Id) = ["t4"] ∧
    ∃ A B u,
      updateCommands (EnqueueTasks scenarioWorld scenarioConfig [] scenarioPassStart).subs =
        A ++ u :: B ∧
      updateCommands (enqueueRecords scenarioWorld scenarioConfig [] ([] ++ [scenarioRow4])
        (YieldAndAwait scenarioWorld scenarioPassStart
          (readTasksSubmission scenarioConfig [] scenarioPassStart.time)).1).subs = A ++ B ∧
      queuedTasks (EnqueueTasks scenarioWorld scenarioConfig [] scenarioPassStart).subs =
        queuedTasks (enqueueRecords scenarioWorld scenarioConfig [] ([] ++ [scenarioRow4])
          (YieldAndAwait scenarioWorld scenarioPassStart
            (readTasksSubmission scenarioConfig [] scenarioPassStart.time)).1).subs ∧
      u.Id = scenarioRow3.Id ∧ u.State = .Timedout ∧ u.CompletedOn = some scenarioRow3.Timeout ∧
      u.Counter = scenarioRow3.Counter ∧ u.Attempt = scenarioRow3.Attempt ∧ u.ProcessId = none ∧
      u.CurrentStates = [.Init] ∧ u.CurrentCounter = scenarioRow3.Counter :=
  ⟨rfl, rfl, C10_timed_out_record scenarioWorld scenarioConfig [] scenarioPassStart
    (YieldAndAwait scenarioWorld scenarioPassStart
      (readTasksSubmission scenarioConfig [] scenarioPassStart.time)).1
    [] scenarioRow3 [scenarioRow4] _ ⟨_, _, _, rfl, rfl, rfl, rfl⟩ rfl (by decide) (by decide)⟩

/-- C11 as stated fails when the clock moves between the partition of the records and the
completion of the queue submission: the row t4 (timeout 5000) is read by a pass resumed at
t = 1000, its queue completion is awaited at t = 2000, and with TaskEnqueueDelay = 2000 ms
the update to Enqueued carries expiration = 4000, not 1000 + 2000. -/
theorem C11_counterexample :
    (∃ c1, ReadTasksAnswered (storeWorld advancingClock scenarioQueue) scenarioConfig []
        advancingPassStart c1 [scenarioRow4] ∧ c1.time = 1000 ∧ c1.time < scenarioRow4.Timeout) ∧
    Milliseconds scenarioConfig.TaskEnqueueDelay = 2000 ∧
    updateCommands (EnqueueTasks (storeWorld advancingClock scenarioQueue) scenarioConfig []
        advancingPassStart).subs =
      [{ Id := "t4", ProcessId := none, State := .Enqueued, Counter := 0, Attempt := 0,
         Frequency := 0, Expiration := 4000, CompletedOn := none, CurrentStates := [.Init],
         CurrentCounter := 0 }] ∧
    (4000 : Int) ≠ 1000 + 2000 :=
  ⟨⟨_, ⟨_, _, _, rfl, rfl, rfl, rfl⟩, rfl, by decide⟩, by decide, rfl, by decide⟩

/-- C11, amended: in a pass whose read is answered at time t with a record that parses and
whose timeout is greater than t, the first loop yields one Queue submission carrying the
record's task, between those of the records before and after it; and when the await of its
handle gives a queue completion, the transaction of the pass holds one command for the
record, after the commands of the records before it and before those of the records after
it: to state Enqueued with the record's attempt on success, to state Init with the record's
attempt + 1 on failure, in both cases with the record's id and counter, the guard
`current_states = [Init]`, `current_counter` = the record's counter, and expiration = t' +
TaskEnqueueDelay in milliseconds, where t' is the time read once the completion has been
awaited, in 64-bit arithmetic. -/
theorem C11_queued_record {σ : Type} (W : World σ) (config : Config) (tags : Tags)
    (c0 c1 : Coroutine σ) (l1 : List TaskRecord) (rec : TaskRecord) (l2 : List TaskRecord)
    (t : Task) (hread : ReadTasksAnswered W config tags c0 c1 (l1 ++ rec :: l2))
    (hparse : rec.Task = .ok t) (htime : c1.time < rec.Timeout) :
    let P1 := enqueueFanOut W tags l1 c1
    let y := Yield W P1.c (queueSubmission tags t)
    let P2 := enqueueFanOut W tags l2 y.1
    let Q1 := enqueueCollect W config l1 P1.awaiting P2.c
    let a := Await W Q1.c y.2
    let Q2 := enqueueCollect W config l2 P2.awaiting a.1
    queuedTasks (EnqueueTasks W config tags c0).subs =
      queuedTasks P1.subs ++ t :: queuedTasks P2.subs ∧
    ∀ completion q, (EnqueueTasks W config tags c0).out ≠ .panicked →
      a.2 = .ok completion → completion.Queue = some q →
      ∃ u, storeSubmissions (EnqueueTasks W config tags c0).subs =
          [readTasksSubmission config tags c0.time,
           updateTasksSubmission tags
            (P1.commands ++ P2.commands ++ (Q1.commands ++ .UpdateTask u :: Q2.commands))] ∧
        u.Id = rec.Id ∧ u.Counter = rec.Counter ∧ u.CurrentStates = [.Init] ∧
        u.CurrentCounter = rec.Counter ∧ u.ProcessId = none ∧ u.CompletedOn = none ∧
        u.Expiration = wrapInt64 (a.1.time + Milliseconds config.TaskEnqueueDelay) ∧
        (fitsInt64 (a.1.time + Milliseconds config.TaskEnqueueDelay) →
          u.Expiration = a.1.time + Milliseconds config.TaskEnqueueDelay) ∧
        (a.1.time = c1.time → fitsInt64 (c1.time + Milliseconds config.TaskEnqueueDelay) →
          u.Expiration = c1.time + Milliseconds config.TaskEnqueueDelay) ∧
        (q.Success = true → u.State = .Enqueued ∧ u.Attempt = rec.Attempt) ∧
        (q.Success = false → u.State = .Init ∧ u.Attempt = wrapInt64 (rec.Attempt + 1) ∧
          (fitsInt64 (rec.Attempt + 1) → u.Attempt = rec.Attempt + 1)) := by
  intro P1 y P2 Q1 a Q2
  have hP := enqueueFanOut_queued W tags l1 rec l2 t c1 hparse htime
  have hPc : (enqueueFanOut W tags (l1 ++ rec :: l2) c1).c = P2.c := by rw [hP]
  have hPs : (enqueueFanOut W tags (l1 ++ rec :: l2) c1).subs =
      P1.subs ++ queueSubmission tags t :: P2.subs := by rw [hP]
  have hPm : (enqueueFanOut W tags (l1 ++ rec :: l2) c1).commands =
      P1.commands ++ P2.commands := by rw [hP]
  have hPa : (enqueueFanOut W tags (l1 ++ rec :: l2) c1).awaiting =
      P1.awaiting ++ some y.2 :: P2.awaiting := by rw [hP]
  refine ⟨?_, ?_⟩
  · rw [EnqueueTasks_queuedTasks W config tags c0 c1 _ hread, hPs, queuedTasks_append,
      queueSubmission, queuedTasks_cons_queue]
  · intro completion q hnp ha hq
    have hQ := (EnqueueTasks_panicked_iff W config tags c0 c1 _ hread).mp hnp
    have hQ1 : Q1.panicked = false := by
      apply enqueueCollect_prefix_ok W config l1 (rec :: l2) P1.awaiting (some y.2 :: P2.awaiting)
        P2.c (enqueueFanOut_awaiting_length W tags l1 c1)
      rw [← hPa, ← hPc]
      exact hQ
    have hloops := enqueue_loops_queued W config tags l1 rec l2 t c1 hparse htime
      (by rw [hPc]; exact hQ1)
    have haw : Await W Q1.c y.2 = (a.1, .ok completion) := by
      rw [← ha]
    have hstep := enqueueCollect_queued W config rec l2 y.2 P2.awaiting Q1.c a.1 completion q
      haw hq
    rw [hPc] at hloops
    change enqueueCollect W config (l1 ++ rec :: l2) _ _ =
      ⟨(enqueueCollect W config (rec :: l2) (some y.2 :: P2.awaiting) Q1.c).c,
        Q1.commands ++ (enqueueCollect W config (rec :: l2) (some y.2 :: P2.awaiting) Q1.c).commands,
        (enqueueCollect W config (rec :: l2) (some y.2 :: P2.awaiting) Q1.c).panicked⟩ at hloops
    rw [hstep] at hloops
    rw [← hPc] at hloops
    have hstore := EnqueueTasks_storeSubmissions W config tags c0 c1 _ hread
    rw [hloops, hPm] at hstore
    refine ⟨queueResultCommand config rec q.Success a.1.time, ?_, ?_⟩
    · rw [hstore]
      have hq2 : Q2.panicked = false := by
        rw [hloops] at hQ
        exact hQ
      rw [if_neg]
      · rintro (h | h)
        · rw [show Q2.panicked = true from h] at hq2
          exact absurd hq2 (by decide)
        · simp at h
    · have hexp : (queueResultCommand config rec q.Success a.1.time).Expiration =
          wrapInt64 (a.1.time + Milliseconds config.TaskEnqueueDelay) := by
        unfold queueResultCommand
        split <;> rfl
      refine ⟨?_, ?_, ?_, ?_, ?_, ?_, hexp, ?_, ?_, ?_, ?_⟩
      · unfold queueResultCommand; split <;> rfl
      · unfold queueResultCommand; split <;> rfl
      · unfold queueResultCommand; split <;> rfl
      · unfold queueResultCommand; split <;> rfl
      · unfold queueResultCommand; split <;> rfl
      · unfold queueResultCommand; split <;> rfl
      · intro hfit
        rw [hexp, wrapInt64_of_fits hfit]
      · intro hsame hfit
        rw [hexp, hsame, wrapInt64_of_fits hfit]
      · intro hs
        simp [queueResultCommand, hs, enqueuedCommand]
      · intro hs
        refine ⟨by simp [queueResultCommand, hs, reenqueueCommand],
          by simp [queueResultCommand, hs, reenqueueCommand], ?_⟩
        intro hfit
        simp [queueResultCommand, hs, reenqueueCommand, wrapInt64_of_fits hfit]

/-- Scenario 6 of §8: the record t4 (timeout 5000) in a pass at t = 1000 whose clock does not
move, with TaskEnqueueDelay = 2000 ms and a successful queue submission: one Queue(t4) and
one `UpdateTask(t4 → Enqueued, expiration = 3000)`. -/
theorem C11_queued_record_witness :
    (queuedTasks (EnqueueTasks scenarioWorld scenarioConfig [] scenarioPassStart).subs).map
      (fun t => t.Id) = ["t4"] ∧
    ∃ u : UpdateTaskCommand, u.Id = "t4" ∧ u.State = .Enqueued ∧ u.Expiration = 3000 ∧
      u.Attempt = 0 ∧ u.Counter = 0 ∧ u.CurrentStates = [.Init] ∧ u.CurrentCounter = 0 ∧
      storeSubmissions (EnqueueTasks scenarioWorld scenarioConfig [] scenarioPassStart).subs =
        [readTasksSubmission scenarioConfig [] 0,
         updateTasksSubmission [] [.UpdateTask (timedoutCommand
           { Id := "t3", ProcessId := none, State := .Init, Message := "M3", Timeout := 500,
             Counter := 0, Attempt := 0, Frequency := 0, Expiration := 0, CreatedOn := 0,
             CompletedOn := none }), .UpdateTask u]] := by
  refine ⟨rfl, ?_⟩
  obtain ⟨u, hstore, hid, hcnt, hcs, hcc, -, -, -, -, hexp, hsucc, -⟩ :=
    (C11_queued_record scenarioWorld scenarioConfig [] scenarioPassStart
      (YieldAndAwait scenarioWorld scenarioPassStart
        (readTasksSubmission scenarioConfig [] scenarioPassStart.time)).1
      [scenarioRow3] scenarioRow4 [] _ ⟨_, _, _, rfl, rfl, rfl, rfl⟩ rfl (by decide)).2
      { Store := none, Queue := some { Success := true } } { Success := true }
      (by decide) rfl rfl
  exact ⟨u, hid, (hsucc rfl).1, hexp rfl (by unfold fitsInt64; decide), (hsucc rfl).2, hcnt,
    hcs, hcc, hstore⟩

/-- C12 as stated fails for a failed await when the clock moves: with the rows t4 and t6 read
at t = 1000, a clock that advances by 1000 at every resumption, and a queue that refuses
t4, the await of t4 resumes the pass at 2000 and the await of t6 at 3000, so t6 is moved to
Enqueued with expiration 3000 + 2000 = 5000; in the batch without t4 the await of t6
resumes the pass at 2000 and the expiration is 4000. -/
theorem C12_counterexample :
    (∃ c1, ReadTasksAnswered (storeWorld advancingClock refusingQueue) scenarioConfig []
        refusedPassStart c1 ([] ++ scenarioRow4 :: [scenarioRow6]) ∧ c1.time = 1000) ∧
    (∃ c1, ReadTasksAnswered (storeWorld advancingClock refusingQueue) scenarioConfig []
        lonePassStart c1 ([] ++ [scenarioRow6]) ∧ c1.time = 1000) ∧
    (queuedTasks (EnqueueTasks (storeWorld advancingClock refusingQueue) scenarioConfig []
        refusedPassStart).subs).map (fun t => t.Id) = ["t4", "t6"] ∧
    (updateCommands (EnqueueTasks (storeWorld advancingClock refusingQueue) scenarioConfig []
        refusedPassStart).subs).map (fun u => (u.Id, u.State, u.Expiration)) =
      [("t6", .Enqueued, 5000)] ∧
    (updateCommands (EnqueueTasks (storeWorld advancingClock refusingQueue) scenarioConfig []
        lonePassStart).subs).map (fun u => (u.Id, u.State, u.Expiration)) =
      [("t6", .Enqueued, 4000)] ∧
    (EnqueueTasks (storeWorld advancingClock refusingQueue) scenarioConfig []
        refusedPassStart).out = .returned none none :=
  ⟨⟨_, ⟨_, _, _, rfl, rfl, rfl, rfl⟩, rfl⟩, ⟨_, ⟨_, _, _, rfl, rfl, rfl, rfl⟩, rfl⟩,
    by decide, by decide, by decide, rfl⟩

/-- C12, amended: in a pass whose read is answered, a record that does not parse is skipped:
the pass is, submission for submission, the pass over the batch without that record.  A
record whose queue handle is awaited with an error has been queued and gets no command, and
the pass goes on: the transaction holds the commands of the records before it, then those
of the records after it, which the second loop computes from the context in which the
failed await resumed the pass (so with the time read after that resumption, not the time a
batch without the record would read).  In neither case does the pass return an error: it
returns (nil, nil) unless it panics. -/
theorem C12_failed_records_are_skipped {σ : Type} (W : World σ) (config : Config) (tags : Tags)
    (c0 c1 : Coroutine σ) (l1 : List TaskRecord) (rec : TaskRecord) (l2 : List TaskRecord)
    (hread : ReadTasksAnswered W config tags c0 c1 (l1 ++ rec :: l2)) :
    (∀ err, rec.Task = .error err →
      (EnqueueTasks W config tags c0).subs =
        readTasksSubmission config tags c0.time :: (enqueueRecords W config tags (l1 ++ l2) c1).subs ∧
      (EnqueueTasks W config tags c0).out = (enqueueRecords W config tags (l1 ++ l2) c1).out ∧
      (EnqueueTasks W config tags c0).c = (enqueueRecords W config tags (l1 ++ l2) c1).c) ∧
    (∀ t, rec.Task = .ok t → c1.time < rec.Timeout →
      let P1 := enqueueFanOut W tags l1 c1
      let y := Yield W P1.c (queueSubmission tags t)
      let P2 := enqueueFanOut W tags l2 y.1
      let Q1 := enqueueCollect W config l1 P1.awaiting P2.c
      let a := Await W Q1.c y.2
      let Q2 := enqueueCollect W config l2 P2.awaiting a.1
      queuedTasks (EnqueueTasks W config tags c0).subs =
        queuedTasks P1.subs ++ t :: queuedTasks P2.subs ∧
      ∀ err, (EnqueueTasks W config tags c0).out ≠ .panicked → a.2 = .error err →
        storeSubmissions (EnqueueTasks W config tags c0).subs =
          readTasksSubmission config tags c0.time ::
            if P1.commands ++ P2.commands ++ (Q1.commands ++ Q2.commands) = [] then []
            else [updateTasksSubmission tags
              (P1.commands ++ P2.commands ++ (Q1.commands ++ Q2.commands))]) ∧
    (∀ v e, (EnqueueTasks W config tags c0).out ≠ .returned v (some e)) ∧
    ((EnqueueTasks W config tags c0).out ≠ .panicked →
      (EnqueueTasks W config tags c0).out = .returned none none) := by
  obtain ⟨hsubs, hout, hc⟩ := EnqueueTasks_of_read W config tags c0 c1 _ hread
  have hret : (EnqueueTasks W config tags c0).out = .panicked ∨
      (EnqueueTasks W config tags c0).out = .returned none none := by
    rw [hout, enqueueRecords_out]
    split
    · exact Or.inl rfl
    · exact Or.inr rfl
  refine ⟨?_, ?_, ?_, ?_⟩
  · intro err hparse
    rw [hsubs, hout, hc, enqueueRecords_unparsed W config tags l1 rec l2 err c1 hparse]
    exact ⟨rfl, rfl, rfl⟩
  · intro t hparse htime P1 y P2 Q1 a Q2
    have hP := enqueueFanOut_queued W tags l1 rec l2 t c1 hparse htime
    have hPs : (enqueueFanOut W tags (l1 ++ rec :: l2) c1).subs =
        P1.subs ++ queueSubmission tags t :: P2.subs := by rw [hP]
    refine ⟨by rw [EnqueueTasks_queuedTasks W config tags c0 c1 _ hread, hPs, queuedTasks_append,
      queueSubmission, queuedTasks_cons_queue], ?_⟩
    intro err hnp ha
    have hPc : (enqueueFanOut W tags (l1 ++ rec :: l2) c1).c = P2.c := by rw [hP]
    have hPm : (enqueueFanOut W tags (l1 ++ rec :: l2) c1).commands =
        P1.commands ++ P2.commands := by rw [hP]
    have hPa : (enqueueFanOut W tags (l1 ++ rec :: l2) c1).awaiting =
        P1.awaiting ++ some y.2 :: P2.awaiting := by rw [hP]
    have hQ := (EnqueueTasks_panicked_iff W config tags c0 c1 _ hread).mp hnp
    have hQ1 : Q1.panicked = false := by
      apply enqueueCollect_prefix_ok W config l1 (rec :: l2) P1.awaiting (some y.2 :: P2.awaiting)
        P2.c (enqueueFanOut_awaiting_length W tags l1 c1)
      rw [← hPa, ← hPc]
      exact hQ
    have hloops := enqueue_loops_queued W config tags l1 rec l2 t c1 hparse htime
      (by rw [hPc]; exact hQ1)
    have haw : Await W Q1.c y.2 = (a.1, .error err) := by
      rw [← ha]
    have hstep := enqueueCollect_failed W config rec l2 y.2 P2.awaiting Q1.c a.1 err haw
    rw [hPc] at hloops
    change enqueueCollect W config (l1 ++ rec :: l2) _ _ =
      ⟨(enqueueCollect W config (rec :: l2) (some y.2 :: P2.awaiting) Q1.c).c,
        Q1.commands ++ (enqueueCollect W config (rec :: l2) (some y.2 :: P2.awaiting) Q1.c).commands,
        (enqueueCollect W config (rec :: l2) (some y.2 :: P2.awaiting) Q1.c).panicked⟩ at hloops
    rw [hstep] at hloops
    rw [← hPc] at hloops
    have hstore := EnqueueTasks_storeSubmissions W config tags c0 c1 _ hread
    rw [hloops, hPm] at hstore
    have hq2 : Q2.panicked = false := by
      rw [hloops] at hQ
      exact hQ
    rw [hstore]
    simp only [show (enqueueCollect W config l2 P2.awaiting a.1).panicked = false from hq2,
      Bool.false_eq_true, false_or]
  · intro v e h
    rcases hret with h' | h' <;> rw [h'] at h <;> simp at h
  · intro hnp
    rcases hret with h' | h'
    · exact absurd h' hnp
    · exact h'

/-- A batch with a row that does not parse, and the batch t4, t6 of which the queue refuses
t4 while the clock advances: t4 is queued and gets no command, t6 is moved to Enqueued with
the time read after its own await. -/
theorem C12_failed_records_are_skipped_witness :
    ((EnqueueTasks scenarioWorld scenarioConfig [] garbledPassStart).subs =
        readTasksSubmission scenarioConfig [] garbledPassStart.time ::
          (enqueueRecords scenarioWorld scenarioConfig [] ([scenarioRow3] ++ [scenarioRow4])
            (YieldAndAwait scenarioWorld garbledPassStart
              (readTasksSubmission scenarioConfig [] garbledPassStart.time)).1).subs ∧
      (EnqueueTasks scenarioWorld scenarioConfig [] garbledPassStart).out =
        (enqueueRecords scenarioWorld scenarioConfig [] ([scenarioRow3] ++ [scenarioRow4])
            (YieldAndAwait scenarioWorld garbledPassStart
              (readTasksSubmission scenarioConfig [] garbledPassStart.time)).1).out ∧
      (EnqueueTasks scenarioWorld scenarioConfig [] garbledPassStart).c =
        (enqueueRecords scenarioWorld scenarioConfig [] ([scenarioRow3] ++ [scenarioRow4])
            (YieldAndAwait scenarioWorld garbledPassStart
              (readTasksSubmission scenarioConfig [] garbledPassStart.time)).1).c) ∧
    (updateCommands (EnqueueTasks scenarioWorld scenarioConfig [] garbledPassStart).subs).map
      (fun u => (u.Id, u.State)) = [("t3", .Timedout), ("t4", .Enqueued)] ∧
    (updateCommands (EnqueueTasks (storeWorld scenarioClock brokenQueue) scenarioConfig []
      scenarioPassStart).subs).map (fun u => (u.Id, u.State)) = [("t3", .Timedout)] ∧
    (EnqueueTasks (storeWorld scenarioClock brokenQueue) scenarioConfig []
      scenarioPassStart).out = .returned none none ∧
    storeSubmissions (EnqueueTasks (storeWorld advancingClock refusingQueue) scenarioConfig []
        refusedPassStart).subs =
      [readTasksSubmission scenarioConfig [] 1000,
       updateTasksSubmission [] [.UpdateTask (enqueuedCommand scenarioConfig scenarioRow6 3000)]] ∧
    (enqueuedCommand scenarioConfig scenarioRow6 3000).Expiration = 5000 :=
  ⟨(C12_failed_records_are_skipped scenarioWorld scenarioConfig [] garbledPassStart
      (YieldAndAwait scenarioWorld garbledPassStart
        (readTasksSubmission scenarioConfig [] garbledPassStart.time)).1
      [scenarioRow3] garbledRow [scenarioRow4] ⟨_, _, _, rfl, rfl, rfl, rfl⟩).1
      "invalid character" rfl,
    rfl, rfl, rfl,
    ((C12_failed_records_are_skipped (storeWorld advancingClock refusingQueue) scenarioConfig []
      refusedPassStart
      (YieldAndAwait (storeWorld advancingClock refusingQueue) refusedPassStart
        (readTasksSubmission scenarioConfig [] refusedPassStart.time)).1
      [] scenarioRow4 [scenarioRow6] ⟨_, _, _, rfl, rfl, rfl, rfl⟩).2.1
      scenarioTask4 rfl (by decide)).2 "queue down" (by decide) rfl,
    by decide⟩

/-- C13: after its read a pass makes at most one more store submission: the transaction of
all accumulated commands if there is one (and the second loop has not panicked), nothing
otherwise.  The transaction holds at most one command per record: first the Timedout
commands of the first loop, one for each record that parses and whose timeout has passed,
in record order, then the commands of the second loop, at most one per record and none for
a record of the first kind, in record order.  In the record of yields and awaits of a pass
that does not panic, the yield of the transaction comes after the awaits of all the handles
the first loop collected, which come after all the queue yields. -/
theorem C13_one_transaction_after_awaits {σ : Type} (W : World σ) (config : Config)
    (tags : Tags) :
    (∀ (c0 c1 : Coroutine σ) (records : List TaskRecord),
      ReadTasksAnswered W config tags c0 c1 records →
      let P := enqueueFanOut W tags records c1
      let Q := enqueueCollect W config records P.awaiting P.c
      storeSubmissions (EnqueueTasks W config tags c0).subs =
        readTasksSubmission config tags c0.time ::
          (if Q.panicked = true ∨ P.commands ++ Q.commands = [] then []
           else [updateTasksSubmission tags (P.commands ++ Q.commands)]) ∧
      (P.commands ++ Q.commands).length ≤ records.length ∧
      P.commands = records.filterMap (timedoutResult c1.time) ∧
      ∃ outcomes : List (Option (Bool × Int)),
        List.Forall₂ (fun rec o => o.isSome = true → timedoutResult c1.time rec = none)
          records outcomes ∧
        Q.commands = (records.zip outcomes).filterMap (queueResult config)) ∧
    (∀ (c0 c1 : Coroutine (σ × List Event)) (records : List TaskRecord),
      ReadTasksAnswered (logged W) config tags c0 c1 records →
      (EnqueueTasks (logged W) config tags c0).out ≠ .panicked →
      let P := enqueueFanOut (logged W) tags records c1
      let Q := enqueueCollect (logged W) config records P.awaiting P.c
      ∃ h0 tail, (EnqueueTasks (logged W) config tags c0).c.state.2 =
          c0.state.2 ++ [.yielded (readTasksSubmission config tags c0.time) h0, .awaited h0] ++
            List.zipWith Event.yielded P.subs P.awaiting.reduceOption ++
            P.awaiting.reduceOption.map Event.awaited ++ tail ∧
        (P.commands ++ Q.commands = [] → tail = []) ∧
        (P.commands ++ Q.commands ≠ [] → ∃ hf, tail =
          [.yielded (updateTasksSubmission tags (P.commands ++ Q.commands)) hf, .awaited hf])) := by
  refine ⟨?_, ?_⟩
  · intro c0 c1 records hread P Q
    obtain ⟨outcomes, hfor, hcmds⟩ := enqueueCollect_commands_eq W config
      (fun rec => timedoutResult c1.time rec = none) records P.awaiting P.c
      (enqueueFanOut_awaiting W tags records c1)
    have hP := enqueueFanOut_commands_eq W tags records c1
    refine ⟨EnqueueTasks_storeSubmissions W config tags c0 c1 records hread, ?_, hP,
      outcomes, hfor, hcmds⟩
    rw [List.length_append, show P.commands = _ from hP, show Q.commands = _ from hcmds]
    exact commands_length_le config c1.time records outcomes hfor
  · intro c0 c1 records hread hnp P Q
    obtain ⟨-, -, hc⟩ := EnqueueTasks_of_read (logged W) config tags c0 c1 records hread
    have hQ : Q.panicked = false :=
      (EnqueueTasks_panicked_iff (logged W) config tags c0 c1 records hread).mp hnp
    have hc1 : c1.state.2 = c0.state.2 ++
        [.yielded (readTasksSubmission config tags c0.time)
            (Yield (logged W) c0 (readTasksSubmission config tags c0.time)).2,
          .awaited (Yield (logged W) c0 (readTasksSubmission config tags c0.time)).2] := by
      obtain ⟨completion, _, _, hya, -⟩ := hread
      have := logged_YieldAndAwait W c0 (readTasksSubmission config tags c0.time)
      rw [hya] at this
      exact this
    have hPlog : P.c.state.2 = c1.state.2 ++
        List.zipWith Event.yielded P.subs P.awaiting.reduceOption :=
      logged_enqueueFanOut W tags records c1
    have hQlog : Q.c.state.2 = P.c.state.2 ++ P.awaiting.reduceOption.map Event.awaited :=
      logged_enqueueCollect W config records P.awaiting P.c
        (enqueueFanOut_awaiting_length (logged W) tags records c1) hQ
    rw [hc, enqueueRecords_c]
    by_cases hcm : P.commands ++ Q.commands = []
    · refine ⟨(Yield (logged W) c0 (readTasksSubmission config tags c0.time)).2, [], ?_,
        fun _ => rfl, fun h => absurd hcm h⟩
      rw [if_pos (Or.inr hcm)]
      rw [show (enqueueCollect (logged W) config records P.awaiting P.c).c.state.2 = _ from hQlog,
        hPlog, hc1]
      simp
    · refine ⟨(Yield (logged W) c0 (readTasksSubmission config tags c0.time)).2,
        [.yielded (updateTasksSubmission tags (P.commands ++ Q.commands))
            (Yield (logged W) Q.c (updateTasksSubmission tags (P.commands ++ Q.commands))).2,
          .awaited (Yield (logged W) Q.c
            (updateTasksSubmission tags (P.commands ++ Q.commands))).2],
        ?_, fun h => absurd h hcm, fun _ => ⟨_, rfl⟩⟩
      rw [if_neg (by
        rintro (h | h)
        · rw [show Q.panicked = true from h] at hQ; exact absurd hQ (by decide)
        · exact hcm h)]
      rw [logged_YieldAndAwait,
        show (enqueueCollect (logged W) config records P.awaiting P.c).c.state.2 = _ from hQlog,
        hPlog, hc1]
/-- Scenario 6 of §8: the read, `Queue(t4)`, the await of its handle, then the one
transaction with the Timedout command of t3 before the Enqueued command of t4. -/
theorem C13_one_transaction_after_awaits_witness :
    (EnqueueTasks (logged scenarioWorld) scenarioConfig [] recordedPassStart).c.state.2 =
      [.yielded (readTasksSubmission scenarioConfig [] 0) 0, .awaited 0,
       .yielded (queueSubmission [] scenarioTask4) 1, .awaited 1,
       .yielded (updateTasksSubmission []
          [.UpdateTask (timedoutCommand scenarioTask3),
           .UpdateTask (enqueuedCommand scenarioConfig scenarioRow4 1000)]) 2,
       .awaited 2] ∧
    (timedoutCommand scenarioTask3).CompletedOn = some 500 ∧
    (enqueuedCommand scenarioConfig scenarioRow4 1000).Expiration = 3000 ∧
    (storeSubmissions (EnqueueTasks scenarioWorld scenarioConfig [] scenarioPassStart).subs).length
      = 2 ∧
    ((enqueueFanOut scenarioWorld [] [scenarioRow3, scenarioRow4]
        (YieldAndAwait scenarioWorld scenarioPassStart
          (readTasksSubmission scenarioConfig [] scenarioPassStart.time)).1).commands ++
      (enqueueCollect scenarioWorld scenarioConfig [scenarioRow3, scenarioRow4]
        (enqueueFanOut scenarioWorld [] [scenarioRow3, scenarioRow4]
          (YieldAndAwait scenarioWorld scenarioPassStart
            (readTasksSubmission scenarioConfig [] scenarioPassStart.time)).1).awaiting
        (enqueueFanOut scenarioWorld [] [scenarioRow3, scenarioRow4]
          (YieldAndAwait scenarioWorld scenarioPassStart
            (readTasksSubmission scenarioConfig [] scenarioPassStart.time)).1).c).commands).length
      ≤ [scenarioRow3, scenarioRow4].length :=
  ⟨rfl, rfl, rfl, rfl,
    ((C13_one_transaction_after_awaits scenarioWorld scenarioConfig []).1 scenarioPassStart
      (YieldAndAwait scenarioWorld scenarioPassStart
        (readTasksSubmission scenarioConfig [] scenarioPassStart.time)).1
      [scenarioRow3, scenarioRow4] ⟨_, _, _, rfl, rfl, rfl, rfl⟩).2.1⟩

/-- C14: over a store with one row per task id of which the passes are the only writer (reads
answered with the rows in the states asked for whose timeout is still to come, updates
committed iff the guard matches), two passes run one after the other, at any times, with
any configurations and any queue outcomes, submit in total at most one update to Enqueued for
each task id; the table keeps one row per id. -/
theorem C14_enqueued_at_most_once (clock : Nat → Int)
    (queue : Handle → Task → Except GoError Bool) (config1 config2 : Config)
    (tags1 tags2 : Tags) (s : StoreState) (now1 now2 : Int) (huniq : s.rows.OneRowPerId) :
    let W := storeWorld clock queue
    let R1 := EnqueueTasks W config1 tags1 ⟨s, now1⟩
    let R2 := EnqueueTasks W config2 tags2 ⟨R1.c.state, now2⟩
    R1.c.state.rows.OneRowPerId ∧
    ∀ id : String, ((updateCommands R1.subs ++ updateCommands R2.subs).filter fun u =>
      decide (u.State = .Enqueued ∧ u.Id = id)).length ≤ 1 := by
  intro W R1 R2
  obtain ⟨cmds1, hrows1, hcount1, hsub1, hshape1⟩ :=
    storeWorld_pass clock queue config1 tags1 s now1
  obtain ⟨cmds2, -, hcount2, hsub2, -⟩ :=
    storeWorld_pass clock queue config2 tags2 R1.c.state now2
  have huniq1 : R1.c.state.rows.OneRowPerId := by
    apply Store.OneRowPerId.of_nodup
    rw [hrows1, Store.execTransaction_ids]
    exact huniq.nodup
  have hnd1 : (enqueuedIds cmds1).Nodup :=
    (huniq.nodup.sublist ((Store.readTasks_records s.rows _).1.map _)).sublist hsub1
  have hnd2 : (enqueuedIds cmds2).Nodup :=
    (huniq1.nodup.sublist ((Store.readTasks_records R1.c.state.rows _).1.map _)).sublist hsub2
  refine ⟨huniq1, fun id => ?_⟩
  have e1 : ((updateCommands R1.subs).filter fun u =>
      decide (u.State = .Enqueued ∧ u.Id = id)).length = (enqueuedIds cmds1).count id :=
    hcount1 id
  have e2 : ((updateCommands R2.subs).filter fun u =>
      decide (u.State = .Enqueued ∧ u.Id = id)).length = (enqueuedIds cmds2).count id :=
    hcount2 id
  rw [List.filter_append, List.length_append, e1, e2]
  have l1 := List.nodup_iff_count_le_one.mp hnd1 id
  have l2 := List.nodup_iff_count_le_one.mp hnd2 id
  by_cases hmem : id ∈ enqueuedIds cmds1
  · have hnot : id ∉ enqueuedIds cmds2 := by
      intro hmem2
      obtain ⟨u, hu, hst, rfl⟩ := mem_enqueuedIds.mp hmem
      obtain ⟨v, hv, -, -, hrec⟩ := hshape1 _ hu
      cases hv
      obtain ⟨rec, hrec, hid, hcnt⟩ := hrec hst
      have hrow := ((Store.readTasks_records s.rows _).2 rec hrec).1
      have hfilter : (s.rows.filter fun x => x.Id = u.Id) = [rec] :=
        eq_singleton_of_mem_of_length_le_one
          (List.mem_filter.mpr ⟨hrow, by simpa using hid.symm⟩) (huniq u.Id)
      have hcounter : ∀ row ∈ s.rows, row.Id = u.Id → row.Counter = u.CurrentCounter := by
        intro row hr hrid
        have : row ∈ s.rows.filter fun x => x.Id = u.Id :=
          List.mem_filter.mpr ⟨hr, by simpa using hrid⟩
        rw [hfilter, List.mem_singleton] at this
        rw [this, hcnt]
      have hafter := Store.execTransaction_enqueued s.rows cmds1 u hu hst
        (fun cmd h => by
          obtain ⟨v, hv, hs, hc, -⟩ := hshape1 cmd h
          exact ⟨v, hv, hs, hc⟩) hcounter
      rw [← hrows1] at hafter
      obtain ⟨rec2, hrec2, hid2⟩ := List.mem_map.mp (hsub2.subset hmem2)
      obtain ⟨hin, hinit, -⟩ := (Store.readTasks_records R1.c.state.rows _).2 rec2 hrec2
      exact hafter rec2 hin hid2 (List.mem_singleton.mp hinit)
    have z2 := List.count_eq_zero_of_not_mem hnot
    omega
  · have z1 := List.count_eq_zero_of_not_mem hmem
    omega

/-- Scenario 6 of §8 run twice: the first pass times t3 out and moves t4 to Enqueued; the
second pass, started at t = 2000 on the table the first left, reads no row in state Init and
submits no update. -/
theorem C14_enqueued_at_most_once_witness :
    scenarioPassStart.state.rows.OneRowPerId ∧
    (updateCommands (EnqueueTasks scenarioWorld scenarioConfig [] scenarioPassStart).subs).map
      (fun u => (u.Id, u.State)) = [("t3", .Timedout), ("t4", .Enqueued)] ∧
    (EnqueueTasks scenarioWorld scenarioConfig [] scenarioPassStart).c.state.rows.map
      (fun row => (row.Id, row.State)) = [("t3", .Timedout), ("t4", .Enqueued)] ∧
    updateCommands (EnqueueTasks scenarioWorld scenarioConfig []
      ⟨(EnqueueTasks scenarioWorld scenarioConfig [] scenarioPassStart).c.state, 2000⟩).subs = [] ∧
    ∀ id : String,
      ((updateCommands (EnqueueTasks scenarioWorld scenarioConfig [] scenarioPassStart).subs ++
        updateCommands (EnqueueTasks scenarioWorld scenarioConfig []
          ⟨(EnqueueTasks scenarioWorld scenarioConfig [] scenarioPassStart).c.state, 2000⟩).subs).filter
        fun u => decide (u.State = .Enqueued ∧ u.Id = id)).length ≤ 1 :=
  ⟨Store.OneRowPerId.of_nodup (by decide), by decide, by decide, by decide,
    (C14_enqueued_at_most_once scenarioClock scenarioQueue scenarioConfig scenarioConfig [] []
      scenarioPassStart.state 0 2000 (Store.OneRowPerId.of_nodup (by decide))).2⟩

/-- C18: if the read of a pass returns only records whose timeout is greater than the time
the pass compares against, the time-out branch is not taken: no command is appended by the
first loop, the pass submits no UpdateTask to state Timedout, and it yields one Queue
submission for every record that parses, in record order. -/
theorem C18_timeout_branch_unreachable {σ : Type} (W : World σ) (config : Config) (tags : Tags)
    (c0 c1 : Coroutine σ) (records : List TaskRecord)
    (hread : ReadTasksAnswered W config tags c0 c1 records)
    (hcontract : ∀ rec ∈ records, c1.time < rec.Timeout) :
    (enqueueFanOut W tags records c1).commands = [] ∧
    (∀ u ∈ updateCommands (EnqueueTasks W config tags c0).subs, u.State ≠ .Timedout) ∧
    queuedTasks (EnqueueTasks W config tags c0).subs =
      records.filterMap fun rec => rec.Task.toOption := by
  obtain ⟨hsubs, -, -⟩ := EnqueueTasks_of_read W config tags c0 c1 records hread
  obtain ⟨hcmds, hq⟩ := enqueueFanOut_in_time W tags records c1 hcontract
  refine ⟨hcmds, ?_, ?_⟩
  · intro u hu
    rw [hsubs, updateCommands_cons, enqueueRecords_subs, updateCommands_append,
      updateCommands_of_queue tags _ (enqueueFanOut_subs W tags records c1)] at hu
    simp only [readTasksSubmission, Submission.updates, List.filterMap_cons, List.filterMap_nil,
      List.nil_append] at hu
    split at hu
    · simp [updateCommands] at hu
    · simp only [updateCommands, List.flatMap_cons, List.flatMap_nil, List.append_nil] at hu
      rw [mem_store_updates, hcmds, List.nil_append] at hu
      obtain ⟨rec, now, -, hc | hc⟩ := enqueueCollect_commands W config records _ _ _ hu
      · simp only [Command.UpdateTask.injEq] at hc
        rw [hc]; simp [enqueuedCommand]
      · simp only [Command.UpdateTask.injEq] at hc
        rw [hc]; simp [reenqueueCommand]
  · rw [hsubs, readTasksSubmission, queuedTasks_cons_store, enqueueRecords_subs,
      queuedTasks_append, hq]
    split <;> simp [queuedTasks]

/-- Scenario 6 of §8 read at t = 1000: the store returns only t4, whose timeout is 5000; the
pass queues t4 and writes no Timedout update. -/
theorem C18_timeout_branch_unreachable_witness :
    (∀ rec ∈ [scenarioRow4], (1000 : Int) < rec.Timeout) ∧
    (queuedTasks (EnqueueTasks scenarioWorld scenarioConfig [] scenarioLatePassStart).subs).map
      (fun t => t.Id) = ["t4"] ∧
    (enqueueFanOut scenarioWorld [] [scenarioRow4]
      (YieldAndAwait scenarioWorld scenarioLatePassStart
        (readTasksSubmission scenarioConfig [] scenarioLatePassStart.time)).1).commands = [] ∧
    (∀ u ∈ updateCommands (EnqueueTasks scenarioWorld scenarioConfig [] scenarioLatePassStart).subs,
      u.State ≠ .Timedout) ∧
    queuedTasks (EnqueueTasks scenarioWorld scenarioConfig [] scenarioLatePassStart).subs =
      [scenarioRow4].filterMap fun rec => rec.Task.toOption :=
  ⟨by decide, rfl,
    C18_timeout_branch_unreachable scenarioWorld scenarioConfig [] scenarioLatePassStart
      (YieldAndAwait scenarioWorld scenarioLatePassStart
        (readTasksSubmission scenarioConfig [] scenarioLatePassStart.time)).1
      [scenarioRow4] ⟨_, _, _, rfl, rfl, rfl, rfl⟩ (by decide)⟩

/-- C20: a pass returns a non-nil error iff its read fails; the error then has code
AIOStoreFailure and wraps the cause, and the read is the only submission, so nothing is
queued and nothing is updated.  When the read is answered the pass returns (nil, nil) unless
it panics, whatever the answer to its final transaction, a failure included. -/
theorem C20_error_iff_read_fails {σ : Type} (W : World σ) (config : Config) (tags : Tags)
    (c0 : Coroutine σ) :
    (∀ v e, (EnqueueTasks W config tags c0).out = .returned v (some e) →
      ∃ c1 err, YieldAndAwait W c0 (readTasksSubmission config tags c0.time) = (c1, .error err)) ∧
    (∀ c1 err, YieldAndAwait W c0 (readTasksSubmission config tags c0.time) = (c1, .error err) →
      ∃ e, (EnqueueTasks W config tags c0).out = .returned none (some e) ∧
        e.Code = ErrAIOStoreFailure ∧ e.Unwrap = err ∧
        (EnqueueTasks W config tags c0).subs = [readTasksSubmission config tags c0.time] ∧
        queuedTasks (EnqueueTasks W config tags c0).subs = [] ∧
        updateCommands (EnqueueTasks W config tags c0).subs = []) ∧
    (∀ c1 records, ReadTasksAnswered W config tags c0 c1 records →
      (EnqueueTasks W config tags c0).out ≠ .panicked →
      (EnqueueTasks W config tags c0).out = .returned none none) ∧
    (∀ c1 records c3 err, ReadTasksAnswered W config tags c0 c1 records →
      (EnqueueTasks W config tags c0).out ≠ .panicked →
      YieldAndAwait W (enqueueCollect W config records (enqueueFanOut W tags records c1).awaiting
          (enqueueFanOut W tags records c1).c).c
        (updateTasksSubmission tags ((enqueueFanOut W tags records c1).commands ++
          (enqueueCollect W config records (enqueueFanOut W tags records c1).awaiting
            (enqueueFanOut W tags records c1).c).commands)) = (c3, .error err) →
      (EnqueueTasks W config tags c0).out = .returned none none) := by
  have h3 : ∀ c1 records, ReadTasksAnswered W config tags c0 c1 records →
      (EnqueueTasks W config tags c0).out ≠ .panicked →
      (EnqueueTasks W config tags c0).out = .returned none none := by
    intro c1 records hread hnp
    obtain ⟨-, hout, -⟩ := EnqueueTasks_of_read W config tags c0 c1 records hread
    rw [hout, enqueueRecords_out] at hnp ⊢
    split at hnp
    · exact absurd rfl hnp
    · rename_i hp
      simp [hp]
  refine ⟨?_, ?_, h3, fun c1 records _ _ hread hnp _ => h3 c1 records hread hnp⟩
  · intro v e hout
    rcases hya : YieldAndAwait W c0 (readTasksSubmission config tags c0.time) with ⟨c1, res⟩
    cases res with
    | error err => exact ⟨c1, err, rfl⟩
    | ok completion =>
      exfalso
      unfold EnqueueTasks at hout
      simp only [hya] at hout
      split at hout
      · simp at hout
      · split at hout
        · split at hout
          · simp at hout
          · simp only at hout
            rw [enqueueRecords_out] at hout
            split at hout <;> simp at hout
        · simp at hout
  · intro c1 err hya
    refine ⟨NewResonateError ErrAIOStoreFailure "failed to read tasks" err, ?_, rfl, rfl, ?_, ?_, ?_⟩ <;>
      simp only [EnqueueTasks, hya] <;>
      simp [queuedTasks, updateCommands, readTasksSubmission, Submission.updates]

/-- A store that is down when the pass reads. -/
theorem C20_error_iff_read_fails_witness :
    YieldAndAwait (failingWorld "store down") ⟨(), 0⟩ (readTasksSubmission scenarioConfig [] 0) =
      (⟨(), 0⟩, .error "store down") ∧
    ∃ e, (EnqueueTasks (failingWorld "store down") scenarioConfig [] ⟨(), 0⟩).out =
        .returned none (some e) ∧
      e.Code = ErrAIOStoreFailure ∧ e.Unwrap = "store down" ∧
      (EnqueueTasks (failingWorld "store down") scenarioConfig [] ⟨(), 0⟩).subs =
        [readTasksSubmission scenarioConfig [] 0] ∧
      queuedTasks (EnqueueTasks (failingWorld "store down") scenarioConfig [] ⟨(), 0⟩).subs = [] ∧
      updateCommands (EnqueueTasks (failingWorld "store down") scenarioConfig [] ⟨(), 0⟩).subs = [] :=
  ⟨rfl, (C20_error_iff_read_fails (failingWorld "store down") scenarioConfig [] ⟨(), 0⟩).2.1
    ⟨(), 0⟩ "store down" rfl⟩

/-! ## Claims on `CompleteTask` under contention -/

/-- C19: along every sequence of observed stores in which the task's row is kept, its
counter never decreases, leaving Claimed for a state that is not terminal strictly increases
it and terminal states are never left, with updates that commit iff their guard matches,
`CompleteTask` restarts at most once: it makes at most two reads and at most one update,
the entry that follows an update answered with rows-affected = 0 does not read a row
Claimed with the request's counter, and two entries of the body are enough for the handler
to return. -/
theorem C19_at_most_one_restart (stores : Nat → Store) (failure : Nat → Option GoError)
    (clock : Nat → Int) (r : Request) (hev : TaskLeavesClaimed stores r.CompleteTask.Id)
    (c : Coroutine ObservedState) (fuel : Nat) :
    readCount r (CompleteTask (observedWorld stores failure clock) fuel c r).subs ≤ 2 ∧
    (updateCommands (CompleteTask (observedWorld stores failure clock) fuel c r).subs).length ≤ 1 ∧
    (∀ c1 t c2 res, Proceeds (observedWorld stores failure clock) c r c1 t c2 res →
      UpdateAnswered res 0 → ∀ c1' t', ReadRow (observedWorld stores failure clock) c2 r c1' t' →
      ¬ (t'.State = .Claimed ∧ t'.Counter = r.CompleteTask.Counter)) ∧
    (2 ≤ fuel → ∃ v e, (CompleteTask (observedWorld stores failure clock) fuel c r).out =
      .returned v e ∧ (v.isSome ∨ e.isSome)) := by
  have hK := observed_no_second_update stores failure clock r hev
  have hcounts : readCount r (CompleteTask (observedWorld stores failure clock) fuel c r).subs ≤ 2 ∧
      (updateCommands (CompleteTask (observedWorld stores failure clock) fuel c r).subs).length
        ≤ 1 := by
    cases fuel with
    | zero => simp [CompleteTask, readCount, updateCommands]
    | succ m =>
      rcases CompleteTask_step (observedWorld stores failure clock) m c r with h | h | h
      · obtain ⟨_, _, -, -, hs, -⟩ := h
        rw [hs]
        simp [readCount, updateCommands, readTaskSubmission_updates]
      · obtain ⟨c1, _, _, _, -, -, hs, -⟩ := h
        rw [hs, readCount_read_cons, readCount_update_cons, updateCommands_cons,
          updateCommands_cons, readTaskSubmission_updates, completeTaskSubmission_updates]
        simp [readCount, updateCommands]
      · obtain ⟨c1, t, c2, res, hp, h0, -, hs, -⟩ := h
        rw [hs, readCount_read_cons, readCount_update_cons, updateCommands_cons,
          updateCommands_cons, readTaskSubmission_updates, completeTaskSubmission_updates]
        cases m with
        | zero => simp [CompleteTask, readCount, updateCommands]
        | succ m' =>
          rcases CompleteTask_step (observedWorld stores failure clock) m' c2 r with h | h | h
          · obtain ⟨_, _, -, -, hs2, -⟩ := h
            rw [hs2]
            simp [readCount, updateCommands, readTaskSubmission_updates]
          · obtain ⟨c1', t', _, _, ⟨hrow, hst, hcnt, -⟩, -⟩ := h
            exact absurd ⟨hst, hcnt⟩ (hK c c1 c2 t res hp h0 c1' t' hrow)
          · obtain ⟨c1', t', _, _, ⟨hrow, hst, hcnt, -⟩, -⟩ := h
            exact absurd ⟨hst, hcnt⟩ (hK c c1 c2 t res hp h0 c1' t' hrow)
  refine ⟨hcounts.1, hcounts.2, fun c1 t c2 res hp h0 c1' t' hrow =>
    hK c c1 c2 t res hp h0 c1' t' hrow, ?_⟩
  intro hfuel
  obtain ⟨m, rfl⟩ : ∃ m, fuel = m + 1 + 1 := ⟨fuel - 2, by omega⟩
  rcases observed_entry stores failure clock r hev.oneRow (m + 1) c.state c.time with ⟨h, -⟩ | h
  · exact (Outcome.settled_iff _).mp h
  · obtain ⟨a, ha, haid, has, hac, hlost, s2, now2, hs2, hout, -⟩ := h
    rcases observed_entry stores failure clock r hev.oneRow m s2 now2 with ⟨h, -⟩ | h
    · change (CompleteTask (observedWorld stores failure clock) (m + 1 + 1) c r).out = _ at hout
      rw [hout]
      exact (Outcome.settled_iff _).mp h
    · obtain ⟨a2, ha2, ha2id, ha2s, ha2c, -⟩ := h
      rw [hs2] at ha2
      exact absurd ⟨ha2s, ha2c⟩ (hev.no_way_back ha haid has hac hlost ha2 ha2id)

/-- Scenario 1 of §8 with a lost update: two reads and one update, then
TaskInvalidCounter. -/
theorem C19_at_most_one_restart_witness :
    (CompleteTask (observedWorld contendedStores (fun _ => none) scenarioClock) 5
      ⟨⟨0, []⟩, 1000⟩ (scenarioRequest 7)).subs =
      [readTaskSubmission (scenarioRequest 7), completeTaskSubmission (scenarioRequest 7) 1000,
       readTaskSubmission (scenarioRequest 7)] ∧
    readCount (scenarioRequest 7)
      (CompleteTask (observedWorld contendedStores (fun _ => none) scenarioClock) 5
        ⟨⟨0, []⟩, 1000⟩ (scenarioRequest 7)).subs ≤ 2 ∧
    (updateCommands (CompleteTask (observedWorld contendedStores (fun _ => none) scenarioClock) 5
        ⟨⟨0, []⟩, 1000⟩ (scenarioRequest 7)).subs).length ≤ 1 :=
  ⟨rfl,
    (C19_at_most_one_restart contendedStores (fun _ => none) scenarioClock (scenarioRequest 7)
      contendedStores_leaves_claimed ⟨⟨0, []⟩, 1000⟩ 5).1,
    (C19_at_most_one_restart contendedStores (fun _ => none) scenarioClock (scenarioRequest 7)
      contendedStores_leaves_claimed ⟨⟨0, []⟩, 1000⟩ 5).2.1⟩

/-! ## Claims on the status taxonomy -/

/-- C15 fails on the code at StatusScheduleNotFound (4041): the switch of
`ResponseStatus.GRPC` has no case for it, so the call panics instead of returning NotFound,
although `String` describes that status.  On the other eighteen statuses the code returned is
the one of the claim. -/
theorem C15_grpc_misses_schedule_not_found :
    StatusScheduleNotFound = 4041 ∧ StatusScheduleNotFound ∈ responseStatuses ∧
    ResponseStatus.GRPC StatusScheduleNotFound = none ∧
    ResponseStatus.hasDescription StatusScheduleNotFound = true ∧
    responseStatuses = [2000, 2010, 2040, 4000, 4030, 4031, 4032, 4033, 4034, 4035, 4036, 4037,
      4038, 4040, 4041, 4042, 4043, 4090, 4091] ∧
    responseStatuses.map ResponseStatus.GRPC =
      [some .OK, some .OK, some .OK, some .InvalidArgument, some .PermissionDenied,
       some .PermissionDenied, some .PermissionDenied, some .PermissionDenied,
       some .PermissionDenied, some .PermissionDenied, some .PermissionDenied,
       some .PermissionDenied, some .PermissionDenied, some .NotFound, none, some .NotFound,
       some .NotFound, some .AlreadyExists, some .AlreadyExists] := by
  refine ⟨rfl, by decide, by decide, by decide, rfl, by decide⟩

/-- C16: on the nineteen statuses and the seven platform error codes `HTTP` is the integer
quotient by 10: 200, 201, 204 for the success statuses, 400 for 4000, 403 for 4030-4038, 404
for 4040-4043, 409 for 4090-4091, 500 for 5000-5002 and 503 for 5030-5033; so every status
maps into 200..499 and every error code into 500..599, and no status shares its HTTP code
with an error code. -/
theorem C16_http_is_quotient_by_ten :
    (∀ s ∈ responseStatuses, ResponseStatus.HTTP s = s / 10 ∧
      200 ≤ ResponseStatus.HTTP s ∧ ResponseStatus.HTTP s ≤ 499) ∧
    (∀ e ∈ resonateErrorCodes, ResonateErrorCode.HTTP e = e / 10 ∧
      500 ≤ ResonateErrorCode.HTTP e ∧ ResonateErrorCode.HTTP e ≤ 599) ∧
    (∀ s ∈ responseStatuses, ∀ e ∈ resonateErrorCodes,
      ResponseStatus.HTTP s ≠ ResonateErrorCode.HTTP e) ∧
    responseStatuses.map ResponseStatus.HTTP =
      [200, 201, 204, 400, 403, 403, 403, 403, 403, 403, 403, 403, 403, 404, 404, 404, 404,
       409, 409] ∧
    resonateErrorCodes.map ResonateErrorCode.HTTP = [500, 500, 500, 503, 503, 503, 503] ∧
    resonateErrorCodes = [5000, 5001, 5002, 5030, 5031, 5032, 5033] := by
  refine ⟨by decide, by decide, by decide, by decide, by decide, rfl⟩

/-- The status Created and the error AIOStoreFailure. -/
theorem C16_http_is_quotient_by_ten_witness :
    (ResponseStatus.HTTP StatusCreated = StatusCreated / 10 ∧
      200 ≤ ResponseStatus.HTTP StatusCreated ∧ ResponseStatus.HTTP StatusCreated ≤ 499) ∧
    ResponseStatus.HTTP StatusCreated = 201 ∧
    ResponseStatus.HTTP StatusCreated ≠ ResonateErrorCode.HTTP ErrAIOStoreFailure :=
  ⟨C16_http_is_quotient_by_ten.1 StatusCreated (by decide), by decide,
    C16_http_is_quotient_by_ten.2.2.1 StatusCreated (by decide) ErrAIOStoreFailure (by decide)⟩

/-! ## Claims on the kernel loop -/

/-- C17 as stated fails when the API is drained: the system with constructor 7 registered
under period 1 has made 0 ticks, 0 mod 1 = 0, and a `Tick` with the API drained only ticks
the scheduler: no constructor is invoked. -/
theorem C17_counterexample :
    (System.New scenarioConfig).AddOnTick 1 7 = some freshSystem ∧
    freshSystem.ticks % 1 = 0 ∧
    (System.Tick freshSystem 1000 true []).calls =
      [.Tick 1000 scenarioConfig.CompletionBatchSize] ∧
    tickAdds (System.Tick freshSystem 1000 true []).calls = [] ∧
    tickAdds (System.Tick freshSystem 1000 false []).calls = [(7, 1000, scenarioConfig)] := by
  refine ⟨rfl, by decide, rfl, rfl, rfl⟩

/-- C17, amended: on a call of `Tick` with time t while the API is not drained and every
dequeued request has a constructor, for every period p registered through `AddOnTick`, in
ascending order of p: if the tick counter k satisfies k mod p = 0, each constructor
registered under p is invoked once with (t, config), in registration order, and its
coroutine is added to the scheduler; if k mod p ≠ 0 none of them is.  When the API is
drained no constructor is invoked.  In both cases the call adds one to the tick counter,
which starts at 0. -/
theorem C17_tick_constructors (s : System) (t : Int) (regs : List (Int × Nat))
    (hreg : s.onTick = onTickOf regs) (hpos : ∀ reg ∈ regs, 0 < reg.1) (hk : 0 ≤ s.ticks) :
    (s.onTick.map Prod.fst).Pairwise (· < ·) ∧
    (∀ p, constructorsOf p s.onTick = (regs.filter fun reg => decide (reg.1 = p)).map Prod.snd) ∧
    (∀ dequeued, (System.dequeueLoop s t dequeued).2 = false →
      (System.Tick s t false dequeued).panicked = false ∧
      tickAdds (System.Tick s t false dequeued).calls = s.onTick.flatMap fun e =>
        if s.ticks % e.1 = 0 then e.2.map fun ctor => (ctor, t, s.cfg) else []) ∧
    (∀ dequeued, (System.Tick s t true dequeued).calls = [.Tick t s.cfg.CompletionBatchSize] ∧
      tickAdds (System.Tick s t true dequeued).calls = []) ∧
    (∀ apiDone dequeued, fitsInt64 (s.ticks + 1) →
      (System.Tick s t apiDone dequeued).system.ticks = s.ticks + 1) ∧
    (System.New s.cfg).ticks = 0 := by
  obtain ⟨hsorted, hkeys, hctors⟩ := onTickOf_spec regs
  rw [← hreg] at hsorted hkeys hctors
  have hne : ∀ e ∈ s.onTick, e.1 ≠ 0 := by
    intro e he
    obtain ⟨reg, hr, h⟩ := hkeys e he
    have := hpos reg hr
    omega
  have hmod : ∀ e ∈ s.onTick, Int.tmod s.ticks e.1 = s.ticks % e.1 := by
    intro e he
    obtain ⟨reg, hr, h⟩ := hkeys e he
    have := hpos reg hr
    exact Int.tmod_eq_emod hk (by omega)
  refine ⟨hsorted, hctors, ?_, ?_, ?_, rfl⟩
  · intro dequeued hdq
    obtain ⟨h1, h2⟩ := tickLoop_spec s t s.onTick hne
    have hflat : (s.onTick.flatMap fun e =>
        if Int.tmod s.ticks e.1 = 0 then e.2.map fun ctor => (ctor, t, s.cfg) else []) =
        s.onTick.flatMap fun e =>
        if s.ticks % e.1 = 0 then e.2.map fun ctor => (ctor, t, s.cfg) else [] := by
      apply flatMap_congr_mem
      intro e he
      rw [hmod e he]
    rcases hd : System.dequeueLoop s t dequeued with ⟨reqCalls, failed⟩
    rw [hd] at hdq
    simp only at hdq
    subst hdq
    rcases ht : System.tickLoop s t s.onTick with ⟨tickCalls, failed⟩
    rw [ht] at h1 h2
    simp only at h1 h2
    subst h1
    have hreq : tickAdds reqCalls = [] := by
      have := tickAdds_dequeueLoop s t dequeued
      rw [hd] at this
      exact this
    simp only [System.Tick, hd, ht, Bool.not_false, if_true, tickAdds_append, hreq, h2,
      List.nil_append, hflat]
    simp [tickAdds]
  · intro dequeued
    simp [System.Tick, tickAdds]
  · intro apiDone dequeued hfit
    have : (System.Tick s t apiDone dequeued).system = s.housekeeping := by
      unfold System.Tick
      split
      · split
        · rfl
        · split <;> rfl
      · rfl
    rw [this]
    simp [System.housekeeping, wrapInt64_of_fits hfit]

/-- A system with constructor 7 under period 1 and constructors 8 and 9 under period 2,
registered in the order 8, 7, 9: at tick 0 all three are invoked, period 1 first; at tick 3
only the constructor of period 1 is. -/
theorem C17_tick_constructors_witness :
    (scenarioSystem 3).onTick = [(1, [7]), (2, [8, 9])] ∧
    tickAdds (System.Tick (scenarioSystem 0) 1000 false [⟨1, 5, 6⟩]).calls =
      [(7, 1000, scenarioConfig), (8, 1000, scenarioConfig), (9, 1000, scenarioConfig)] ∧
    ((System.Tick (scenarioSystem 3) 1000 false [⟨1, 5, 6⟩]).panicked = false ∧
      tickAdds (System.Tick (scenarioSystem 3) 1000 false [⟨1, 5, 6⟩]).calls =
        (scenarioSystem 3).onTick.flatMap fun e =>
          if (scenarioSystem 3).ticks % e.1 = 0 then
            e.2.map fun ctor => (ctor, 1000, (scenarioSystem 3).cfg)
          else []) ∧
    tickAdds (System.Tick (scenarioSystem 3) 1000 false [⟨1, 5, 6⟩]).calls =
      [(7, 1000, scenarioConfig)] :=
  ⟨rfl, rfl,
    (C17_tick_constructors (scenarioSystem 3) 1000 [(2, 8), (1, 7), (2, 9)] rfl (by decide)
      (by decide)).2.2.1 [⟨1, 5, 6⟩] rfl,
    rfl⟩

end Resonate
